import Mathlib

set_option maxRecDepth 100000

/-!
Verification development for the SQLite r-tree virtual-table module
(ext/rtree/rtree.c, the R*-tree variant configuration compiled in the
source: VARIANT_RSTARTREE_CHOOSESUBTREE = 0, VARIANT_RSTARTREE_REINSERT = 1,
VARIANT_RSTARTREE_SPLIT = 1).

Modelling conventions, used consistently below:

* A node page is a `List Nat` of byte values (each < 256).  C pointer writes
  into a page at offset `off` over `k` bytes are modelled by splicing a
  `k`-byte segment into the list at `off`; this is exact for in-bounds
  writes, which every call site performs under the well-formedness
  hypotheses carried by the theorems.
* Machine integers are `Int`/`Nat` with explicit `% 2^w` (`Int.emod`) at the
  points where the C code truncates; an arithmetic right shift `>> s` of a
  signed value is `Int.fdiv` by `2^s`, and `& 0xFF` is `Int.emod 256`.
* The instance is modelled with integer coordinates
  (`eCoordType = RTREE_COORD_INT32`): a stored coordinate is a signed
  32-bit value, and `DCOORD` promotes it to the wide coordinate type.
  The wide coordinate type (C `double`) is modelled by `ℚ`; every `double`
  operation the claims touch is exact on the magnitudes involved.
* The host database (the three backing tables accessed through prepared
  statements) is a record of association lists; "INSERT OR REPLACE"
  prepends after removing the key, and auto-assigned INTEGER PRIMARY KEY
  values are max-key-plus-one, as in SQLite.
* Allocation never fails in the model, so SQLITE_NOMEM paths are not taken.
* Unbounded C loops (parent-chain walks, the insert/split/reinsert
  recursion) take an explicit fuel argument and return `RC.fuelOut` when it
  runs out; theorems either hold for every fuel or assume enough fuel.
-/

/-- Result codes of the engine; the subset of SQLite codes the modelled
functions produce.  `fuelOut` is the model-only code returned when the fuel
of a loop is exhausted. -/
inductive RC where
  | ok
  | corrupt
  | constraint
  | fuelOut
deriving Repr, DecidableEq

/-- The constant configuration fields of `struct Rtree`: node size in bytes
and number of dimensions. -/
structure Config where
  iNodeSize : Nat
  nDim : Nat
deriving Repr, DecidableEq

/-- `Rtree.nBytesPerCell = 8 + nDim*8`. -/
def Config.nBytesPerCell (cfg : Config) : Nat := 8 + cfg.nDim * 8

/-- `RTREE_MAXCELLS`-independent per-node capacity `(iNodeSize-4)/nBytesPerCell`,
the expression used by `nodeAcquire` and `nodeInsertCell`. -/
def Config.maxCell (cfg : Config) : Nat := (cfg.iNodeSize - 4) / cfg.nBytesPerCell

/-- `RTREE_MINCELLS(p) = ((iNodeSize-4)/nBytesPerCell)/3`. -/
def Config.minCells (cfg : Config) : Nat := cfg.maxCell / 3

/-- `RTREE_MAX_DEPTH`. -/
def RTREE_MAX_DEPTH : Int := 40

/-- A node page image: a list of byte values. -/
abbrev Bytes := List Nat

/-- A deserialized cell (`struct RtreeCell`): a rowid and `2*nDim` signed
32-bit coordinates (integer-coordinate instance). -/
structure RtreeCell where
  iRowid : Int
  aCoord : List Int
deriving Repr, DecidableEq

/-- Coordinate access with the fixed-size-array semantics of
`RtreeCell.aCoord[]`. -/
def RtreeCell.coord (c : RtreeCell) (i : Nat) : Int := c.aCoord.getD i 0

/-! ## Codec (rtree.c lines 373-430)

Big-endian readers and writers.  Readers take the page and a byte offset
(the C versions take a pointer into the page). -/

/-- Big-endian byte string of the low `w` bytes of `n`. -/
def beBytes : Nat → Nat → Bytes
  | 0, _ => []
  | w + 1, n => (n / 256 ^ w % 256) :: beBytes w n

/-- Big-endian value of a byte string (`(p[0]<<8*(w-1)) + ... + p[w-1]`). -/
def beVal (l : Bytes) : Nat := l.foldl (fun acc b => acc * 256 + b) 0

/-- Read `w` big-endian bytes starting at `off`. -/
def beReadAt (z : Bytes) (off w : Nat) : Nat := beVal ((z.drop off).take w)

/-- `readInt16`: `(p[0]<<8) + p[1]`. -/
def readInt16 (z : Bytes) (off : Nat) : Nat := beReadAt z off 2

/-- `readCoord`, integer-coordinate instance: assemble the unsigned 32-bit
pattern and reinterpret it as a signed 32-bit integer (`RtreeCoord.i`). -/
def readCoordInt (z : Bytes) (off : Nat) : Int :=
  let u : Nat := beReadAt z off 4
  if u < 2 ^ 31 then (u : Int) else (u : Int) - 2 ^ 32

/-- `readInt64`: assemble eight bytes into a signed 64-bit integer (the C
sum of shifted `i64` values wraps to exactly this two's-complement
reinterpretation). -/
def readInt64 (z : Bytes) (off : Nat) : Int :=
  let u : Nat := beReadAt z off 8
  if u < 2 ^ 63 then (u : Int) else (u : Int) - 2 ^ 64

/-- Splice `seg` over the bytes `[off, off + seg.length)` of `z`: the model
of a sequence of in-bounds byte writes through a pointer at offset `off`. -/
def spliceAt (z : Bytes) (off : Nat) (seg : Bytes) : Bytes :=
  z.take off ++ seg ++ z.drop (off + seg.length)

/-- `writeInt16`: store `i` as two big-endian bytes at `off`. -/
def writeInt16 (z : Bytes) (off : Nat) (i : Int) : Bytes :=
  spliceAt z off (beBytes 2 (i.emod (2 ^ 16)).toNat)

/-- The four big-endian bytes of a coordinate: the unsigned 32-bit pattern
of the signed value (what `writeCoord` stores from `RtreeCoord`). -/
def coordBytes (v : Int) : Bytes := beBytes 4 (v.emod (2 ^ 32)).toNat

/-- The eight big-endian bytes written by `writeInt64`. -/
def int64Bytes (i : Int) : Bytes := beBytes 8 (i.emod (2 ^ 64)).toNat

/-! ## Node page operations (rtree.c lines 311, 446-447, 621-676, 739-778) -/

/-- `NCELL(pNode)`: `readInt16(&zData[2])`. -/
def NCELL (z : Bytes) : Nat := readInt16 z 2

/-- `nodeZero`: `memset(&zData[2], 0, iNodeSize-2)`. -/
def nodeZero (cfg : Config) (z : Bytes) : Bytes :=
  z.take 2 ++ List.replicate (cfg.iNodeSize - 2) 0

/-- The serialized form of a cell: the rowid followed by the `2*nDim`
coordinates, as the `writeInt64`/`writeCoord` sequence of
`nodeOverwriteCell` lays them out. -/
def cellBytes (cfg : Config) (c : RtreeCell) : Bytes :=
  int64Bytes c.iRowid ++ ((List.range (cfg.nDim * 2)).map fun ii => coordBytes (c.coord ii)).flatten

/-- `nodeOverwriteCell`: write cell `iCell` of the page. -/
def nodeOverwriteCell (cfg : Config) (z : Bytes) (c : RtreeCell) (iCell : Nat) : Bytes :=
  spliceAt z (4 + cfg.nBytesPerCell * iCell) (cellBytes cfg c)

/-- `nodeDeleteCell`: `memmove` the following cells down one slot and
decrement the cell count. -/
def nodeDeleteCell (cfg : Config) (z : Bytes) (iCell : Nat) : Bytes :=
  let b := cfg.nBytesPerCell
  let nByte := (NCELL z - iCell - 1) * b
  let moved := spliceAt z (4 + b * iCell) ((z.drop (4 + b * (iCell + 1))).take nByte)
  writeInt16 moved 2 (NCELL z - 1 : Nat)

/-- `nodeInsertCell`: append the cell if the node is not full; the returned
flag is `nCell == nMaxCell` ("node was already full, nothing written"). -/
def nodeInsertCell (cfg : Config) (z : Bytes) (c : RtreeCell) : Bool × Bytes :=
  let nMaxCell := cfg.maxCell
  let nCell := NCELL z
  if nCell < nMaxCell then
    (decide (nCell = nMaxCell), writeInt16 (nodeOverwriteCell cfg z c nCell) 2 (nCell + 1 : Nat))
  else
    (decide (nCell = nMaxCell), z)

/-- `nodeGetRowid`: the 64-bit value at offset `4 + nBytesPerCell*iCell`. -/
def nodeGetRowid (cfg : Config) (z : Bytes) (iCell : Nat) : Int :=
  readInt64 z (4 + cfg.nBytesPerCell * iCell)

/-- `nodeGetCoord`: coordinate `iCoord` of cell `iCell`, at offset
`12 + nBytesPerCell*iCell + 4*iCoord`. -/
def nodeGetCoord (cfg : Config) (z : Bytes) (iCell iCoord : Nat) : Int :=
  readCoordInt z (12 + cfg.nBytesPerCell * iCell + 4 * iCoord)

/-- `nodeGetCell`: deserialize cell `iCell`. -/
def nodeGetCell (cfg : Config) (z : Bytes) (iCell : Nat) : RtreeCell :=
  { iRowid := nodeGetRowid cfg z iCell
    aCoord := (List.range (cfg.nDim * 2)).map fun ii => nodeGetCoord cfg z iCell ii }

/-- All cells of a node page, in slot order. -/
def nodeCells (cfg : Config) (z : Bytes) : List RtreeCell :=
  (List.range (NCELL z)).map fun i => nodeGetCell cfg z i

/-! ## Geometry primitives (rtree.c lines 1543-1656)

`RtreeDValue` (C `double`) is modelled by `ℚ`; `DCOORD` promotes a signed
32-bit integer coordinate. -/

/-- `DCOORD` for the integer-coordinate instance. -/
def DCOORD (v : Int) : ℚ := (v : ℚ)

/-- `cellArea`: product over dimensions of `hi - lo`. -/
def cellArea (cfg : Config) (c : RtreeCell) : ℚ :=
  (List.range cfg.nDim).foldl
    (fun area ii => area * (DCOORD (c.coord (2 * ii + 1)) - DCOORD (c.coord (2 * ii)))) 1

/-- `cellMargin`: sum over dimensions of `hi - lo`. -/
def cellMargin (cfg : Config) (c : RtreeCell) : ℚ :=
  (List.range cfg.nDim).foldl
    (fun margin ii => margin + (DCOORD (c.coord (2 * ii + 1)) - DCOORD (c.coord (2 * ii)))) 0

/-- `cellUnion` (integer branch): elementwise min of lows and max of highs,
stored into the first cell. -/
def cellUnion (cfg : Config) (c1 c2 : RtreeCell) : RtreeCell :=
  { iRowid := c1.iRowid
    aCoord := (List.range (cfg.nDim * 2)).map fun k =>
      if k % 2 = 0 then min (c1.coord k) (c2.coord k) else max (c1.coord k) (c2.coord k) }

/-- `cellContains` (integer branch): true iff no dimension of `c2` sticks
out of `c1`. -/
def cellContains (cfg : Config) (c1 c2 : RtreeCell) : Bool :=
  (List.range cfg.nDim).all fun ii =>
    !(c2.coord (2 * ii) < c1.coord (2 * ii) || c2.coord (2 * ii + 1) > c1.coord (2 * ii + 1))

/-- `cellGrowth`: area of the union minus the area of `p`. -/
def cellGrowth (cfg : Config) (p pCell : RtreeCell) : ℚ :=
  cellArea cfg (cellUnion cfg p pCell) - cellArea cfg p

/-- The per-cell term of `cellOverlap`: the N-volume of the intersection,
zero as soon as one dimension is empty (the `x2<x1` break in the source). -/
def overlapTerm (cfg : Config) (p q : RtreeCell) : ℚ :=
  if (List.range cfg.nDim).any (fun jj =>
      min (DCOORD (p.coord (2 * jj + 1))) (DCOORD (q.coord (2 * jj + 1))) <
      max (DCOORD (p.coord (2 * jj))) (DCOORD (q.coord (2 * jj)))) then 0
  else
    (List.range cfg.nDim).foldl
      (fun o jj => o * (min (DCOORD (p.coord (2 * jj + 1))) (DCOORD (q.coord (2 * jj + 1))) -
                        max (DCOORD (p.coord (2 * jj))) (DCOORD (q.coord (2 * jj))))) 1

/-- `cellOverlap` in the compiled configuration
(`VARIANT_RSTARTREE_CHOOSESUBTREE = 0`, so `iExclude` is always `-1` and no
entry is excluded): sum of the intersection volumes with each cell. -/
def cellOverlap (cfg : Config) (p : RtreeCell) (aCell : List RtreeCell) : ℚ :=
  aCell.foldl (fun overlap q => overlap + overlapTerm cfg p q) 0

/-! ## Constraint testing (rtree.c lines 284-298, 951-1022) -/

/-- `RtreeConstraint.op` together with the MATCH callback: the five
comparison byte values, or a geometry callback
`(geometry state, coords) -> (status, within)` whose state is already
deserialized (`testRtreeGeom` passes the cell's `2*nDim` DCOORD values). -/
inductive RtreeOp where
  | EQ
  | LE
  | LT
  | GE
  | GT
  | MATCH (xGeom : List ℚ → RC × Bool)

/-- A search constraint (`struct RtreeConstraint`). -/
structure RtreeConstraint where
  iCoord : Nat
  op : RtreeOp
  rValue : ℚ

/-- `testRtreeGeom`: feed the cell's DCOORD vector to the callback. -/
def testRtreeGeom (cfg : Config) (f : List ℚ → RC × Bool) (cell : RtreeCell) : RC × Bool :=
  f ((List.range (cfg.nDim * 2)).map fun i => DCOORD (cell.coord i))

/-- `cell_min` of `testRtreeCell`: `DCOORD(cell.aCoord[(iCoord>>1)*2])`. -/
def constraintCellMin (cell : RtreeCell) (p : RtreeConstraint) : ℚ :=
  DCOORD (cell.coord (p.iCoord / 2 * 2))

/-- `cell_max` of `testRtreeCell`: `DCOORD(cell.aCoord[(iCoord>>1)*2+1])`. -/
def constraintCellMax (cell : RtreeCell) (p : RtreeConstraint) : ℚ :=
  DCOORD (cell.coord (p.iCoord / 2 * 2 + 1))

/-- The constraint loop of `testRtreeCell`, carrying `bRes` and `rc`
(the loop runs while `bRes==0`; `rc` is only written by MATCH callbacks). -/
def testRtreeCellLoop (cfg : Config) (cell : RtreeCell) :
    List RtreeConstraint → Bool → RC → Bool × RC
  | [], bRes, rc => (bRes, rc)
  | p :: rest, bRes, rc =>
    if bRes then (bRes, rc)
    else
      match p.op with
      | .LE | .LT =>
          testRtreeCellLoop cfg cell rest (decide (p.rValue < constraintCellMin cell p)) rc
      | .GE | .GT =>
          testRtreeCellLoop cfg cell rest (decide (constraintCellMax cell p < p.rValue)) rc
      | .EQ =>
          testRtreeCellLoop cfg cell rest
            (decide (constraintCellMax cell p < p.rValue ∨ p.rValue < constraintCellMin cell p)) rc
      | .MATCH f =>
          let r := testRtreeGeom cfg f cell
          testRtreeCellLoop cfg cell rest (!r.2) r.1

/-- `testRtreeCell`: deserialize the current cell and run the constraint
loop; the Boolean is `*pbEof` ("sub-tree is filtered out"). -/
def testRtreeCell (cfg : Config) (z : Bytes) (iCell : Nat)
    (aConstraint : List RtreeConstraint) : Bool × RC :=
  testRtreeCellLoop cfg (nodeGetCell cfg z iCell) aConstraint false .ok

/-- The specification-side pruning predicate of a single constraint against
an internal cell, written from the spec's pruning table: LE/LT prune iff
`rValue < lo`, GE/GT prune iff `rValue > hi`, EQ prunes iff either, MATCH
prunes iff the callback reports not-within. -/
def prunesCell (cfg : Config) (cell : RtreeCell) (p : RtreeConstraint) : Bool :=
  match p.op with
  | .LE | .LT => decide (p.rValue < constraintCellMin cell p)
  | .GE | .GT => decide (constraintCellMax cell p < p.rValue)
  | .EQ => decide (p.rValue < constraintCellMin cell p ∨ constraintCellMax cell p < p.rValue)
  | .MATCH f => !(testRtreeGeom cfg f cell).2

/-! ## Best-index strategy selection (rtree.c lines 1474-1537) -/

/-- The `sqlite3_index_info` constraint operators that reach
`rtreeBestIndex`. -/
inductive SqlOp where
  | eq
  | gt
  | le
  | lt
  | ge
  | matchOp
deriving Repr, DecidableEq

/-- One entry of `sqlite3_index_info.aConstraint[]`. -/
structure IdxConstraint where
  usable : Bool
  iColumn : Int
  op : SqlOp
deriving Repr, DecidableEq

/-- One entry of `sqlite3_index_info.aConstraintUsage[]`. -/
structure IdxUsage where
  argvIndex : Nat
  omitArg : Bool
deriving Repr, DecidableEq

/-- The first byte of an encoded constraint pair
(`RTREE_EQ = 0x41 .. RTREE_MATCH = 0x46`). -/
def sqlOpByte : SqlOp → Nat
  | .eq => 0x41
  | .le => 0x42
  | .lt => 0x43
  | .ge => 0x44
  | .gt => 0x45
  | .matchOp => 0x46

/-- Result of the `rtreeBestIndex` scan: either the early strategy-1 return
(rowid equality found) or the fall-through strategy 2 with the encoded
`(opByte, colByte)` pairs of `zIdxStr`; both carry `aConstraintUsage[]`. -/
inductive BestIndexScan where
  | strat1 (usage : List IdxUsage)
  | strat2 (pairs : List (Nat × Int)) (usage : List IdxUsage)
deriving Repr

/-- Is this a usable equality constraint on the hidden rowid column
(column 0)? -/
def usableRowidEq (p : IdxConstraint) : Bool :=
  p.usable && p.iColumn == 0 && decide (p.op = .eq)

/-- Is this a usable constraint encoded into `zIdxStr` (a coordinate column
or a MATCH)? -/
def usableCoordOrMatch (p : IdxConstraint) : Bool :=
  p.usable && (decide (p.iColumn > 0) || decide (p.op = .matchOp))

/-- The scan loop of `rtreeBestIndex`: `iIdx` counts the bytes already
placed in `zIdxStr` (two per encoded constraint); the loop runs while
`iIdx < sizeof(zIdxStr)-1 = RTREE_MAX_DIMENSIONS*8 = 40`.  On the
strategy-1 early return every earlier usage entry is reset to zero. -/
def bestIndexLoop : List IdxConstraint → Nat → BestIndexScan
  | [], _ => .strat2 [] []
  | p :: rest, iIdx =>
    if iIdx < 40 then
      if usableRowidEq p then
        .strat1 (⟨1, true⟩ :: rest.map fun _ => ⟨0, false⟩)
      else if usableCoordOrMatch p then
        match bestIndexLoop rest (iIdx + 2) with
        | .strat1 u => .strat1 (⟨0, false⟩ :: u)
        | .strat2 pairs u =>
            .strat2 ((sqlOpByte p.op, p.iColumn - 1 + 97) :: pairs) (⟨iIdx / 2 + 1, true⟩ :: u)
      else
        match bestIndexLoop rest iIdx with
        | .strat1 u => .strat1 (⟨0, false⟩ :: u)
        | .strat2 pairs u => .strat2 pairs (⟨0, false⟩ :: u)
    else
      .strat2 [] ((p :: rest).map fun _ => ⟨0, false⟩)

/-- `rtreeBestIndex`: returns `(idxNum, idxStr pairs, estimatedCost, usage)`.
Strategy 1 reports cost `10.0`; strategy 2 reports
`2000000.0 / (iIdx + 1)` where `iIdx` is the final byte count, i.e. twice
the number of encoded constraints. -/
def rtreeBestIndex (aConstraint : List IdxConstraint) :
    Nat × List (Nat × Int) × ℚ × List IdxUsage :=
  match bestIndexLoop aConstraint 0 with
  | .strat1 u => (1, [], 10, u)
  | .strat2 pairs u => (2, pairs, 2000000 / (2 * pairs.length + 1 : ℚ), u)

/-- The number of usable coordinate/MATCH constraints in a list (the
specification's `constraintCount`, before the buffer cap). -/
def countEncodable (cs : List IdxConstraint) : Nat :=
  (cs.filter usableCoordOrMatch).length

/-- The specification-side trigger for strategy 1, stated over the scan
order: walking the constraints with `j` encoded pairs already emitted, a
usable rowid equality constraint is reached before the
two-byte-per-constraint buffer (20 pairs) fills up. -/
def rowidEqReachedFrom : List IdxConstraint → Nat → Bool
  | [], _ => false
  | p :: rest, j =>
    decide (j < 20) &&
      (usableRowidEq p ||
        (if usableCoordOrMatch p then rowidEqReachedFrom rest (j + 1)
         else rowidEqReachedFrom rest j))

/-- Strategy 1 fires iff a usable rowid equality is reached from a fresh
scan. -/
def rowidEqReached (cs : List IdxConstraint) : Bool :=
  rowidEqReachedFrom cs 0

/-! ## Engine state: node cache and backing store

`struct RtreeNode` objects are heap-allocated and linked by pointers; the
model keeps them in an association list keyed by an allocation id
(`nextPtr` plays the allocator), and `pParent` is the id of the parent
node.  `aHash` membership is the `inHash` flag: `nodeHashInsert` sets it,
`nodeHashDelete` clears it, `nodeHashLookup` searches in-hash entries
(most recently inserted first, as in the source's bucket chains). -/

/-- An in-memory node (`struct RtreeNode`). -/
structure MemNode where
  iNode : Int
  parent : Option Nat
  nRef : Int
  isDirty : Bool
  inHash : Bool
  zData : Bytes
deriving Repr, DecidableEq

/-- The three backing tables and the connection's last-insert-rowid. -/
structure Store where
  nodeTab : List (Int × Bytes)
  rowidTab : List (Int × Option Int)
  parentTab : List (Int × Int)
  lastRowid : Int
deriving Repr, DecidableEq

/-- Association-list lookup (first match). -/
def tabGet {α : Type} (tab : List (Int × α)) (k : Int) : Option α :=
  (tab.find? fun e => e.1 == k).map Prod.snd

/-- "INSERT OR REPLACE": drop any row with the key and prepend the new one. -/
def tabPut {α : Type} (tab : List (Int × α)) (k : Int) (v : α) : List (Int × α) :=
  (k, v) :: tab.filter fun e => !(e.1 == k)

/-- "DELETE ... WHERE key = k". -/
def tabDel {α : Type} (tab : List (Int × α)) (k : Int) : List (Int × α) :=
  tab.filter fun e => !(e.1 == k)

/-- The INTEGER PRIMARY KEY value SQLite auto-assigns on insert with a NULL
key: one more than the largest key in the table. -/
def tabFreshKey {α : Type} (tab : List (Int × α)) : Int :=
  (tab.foldl (fun m e => max m e.1) 0) + 1

/-- The mutable engine state: the fields of `struct Rtree` that change
(`aHash` as `cache`, `iDepth`, `iReinsertHeight`, `pDeleted`) together
with the backing store and the allocator.  `rlog` is a ghost field: it
records each `Reinsert` invocation as `(iHeight, iNode of the node)` and
never influences behaviour. -/
structure EState where
  cfg : Config
  cache : List (Nat × MemNode)
  nextPtr : Nat
  store : Store
  iDepth : Int
  iReinsertHeight : Int
  pDeleted : List Nat
  rlog : List (Int × Int)
deriving Repr, DecidableEq

/-- Dereference a node id (a live `RtreeNode*`). -/
def EState.node (s : EState) (nid : Nat) : Option MemNode :=
  (s.cache.find? fun e => e.1 == nid).map Prod.snd

/-- Update the node object behind an id. -/
def EState.setNode (s : EState) (nid : Nat) (f : MemNode → MemNode) : EState :=
  { s with cache := s.cache.map fun e => if e.1 == nid then (e.1, f e.2) else e }

/-- Remove a node object from the heap (`sqlite3_free` of the node). -/
def EState.freeNode (s : EState) (nid : Nat) : EState :=
  { s with cache := s.cache.filter fun e => !(e.1 == nid) }

/-- `nodeHashLookup`: search the hash for a node with this node number. -/
def nodeHashLookup (s : EState) (iNode : Int) : Option Nat :=
  (s.cache.find? fun e => e.2.inHash && e.2.iNode == iNode).map Prod.fst

/-- `nodeHashInsert`. -/
def nodeHashInsert (s : EState) (nid : Nat) : EState :=
  s.setNode nid fun n => { n with inHash := true }

/-- `nodeHashDelete` (a no-op for nodes with `iNode==0`, which are not in
the hash). -/
def nodeHashDelete (s : EState) (nid : Nat) : EState :=
  s.setNode nid fun n => if n.iNode == 0 then n else { n with inHash := false }

/-- `nodeReference`: increment the reference count (no-op on NULL). -/
def nodeReference (s : EState) (nid : Option Nat) : EState :=
  match nid with
  | none => s
  | some p => s.setNode p fun n => { n with nRef := n.nRef + 1 }

/-- `nodeNew`: allocate a zeroed, dirty node with `iNode==0` and reference
the parent.  Allocation always succeeds in the model. -/
def nodeNew (s : EState) (pParent : Option Nat) : Nat × EState :=
  let nid := s.nextPtr
  let node : MemNode :=
    { iNode := 0, parent := pParent, nRef := 1, isDirty := true, inHash := false
      zData := List.replicate s.cfg.iNodeSize 0 }
  (nid, nodeReference { s with cache := (nid, node) :: s.cache, nextPtr := s.nextPtr + 1 } pParent)

/-- `nodeWrite`: flush a dirty node into the `_node` table; a node without
a number gets the auto-assigned key, captures it, and enters the hash. -/
def nodeWrite (s : EState) (nid : Nat) : RC × EState :=
  match s.node nid with
  | none => (.ok, s)
  | some node =>
    if node.isDirty then
      if node.iNode == 0 then
        let key := tabFreshKey s.store.nodeTab
        let s := { s with store := { s.store with
          nodeTab := tabPut s.store.nodeTab key node.zData, lastRowid := key } }
        let s := s.setNode nid fun n => { n with isDirty := false, iNode := key }
        (.ok, nodeHashInsert s nid)
      else
        let s := { s with store := { s.store with
          nodeTab := tabPut s.store.nodeTab node.iNode node.zData, lastRowid := node.iNode } }
        (.ok, s.setNode nid fun n => { n with isDirty := false })
    else (.ok, s)

/-- `nodeRelease`: drop a reference; on the last one release the parent
chain, flush if dirty, unhash and free.  The parent-chain recursion is
fuelled. -/
def nodeRelease (fuel : Nat) (s : EState) (nid : Option Nat) : RC × EState :=
  match fuel with
  | 0 => (.fuelOut, s)
  | fuel + 1 =>
    match nid with
    | none => (.ok, s)
    | some p =>
      match s.node p with
      | none => (.ok, s)
      | some node =>
        if node.nRef ≤ 1 then
          let s1 := if node.iNode == 1 then { s with iDepth := -1 } else s
          let r1 : RC × EState :=
            match node.parent with
            | some q => nodeRelease fuel s1 (some q)
            | none => (.ok, s1)
          let r2 : RC × EState := if r1.1 = .ok then nodeWrite r1.2 p else r1
          (r2.1, (nodeHashDelete r2.2 p).freeNode p)
        else
          (.ok, s.setNode p fun n => { n with nRef := n.nRef - 1 })

/-- `nodeAcquire`: hash hit bumps the reference (attaching the parent hint
if the node had none); otherwise load the page from `_node`, run the
depth and cell-count corruption checks, and enter the hash. -/
def nodeAcquire (s : EState) (iNode : Int) (pParent : Option Nat) :
    RC × EState × Option Nat :=
  match nodeHashLookup s iNode with
  | some nid =>
    let s :=
      match s.node nid with
      | some node =>
        if pParent.isSome && node.parent.isNone then
          (nodeReference s pParent).setNode nid fun n => { n with parent := pParent }
        else s
      | none => s
    (.ok, s.setNode nid (fun n => { n with nRef := n.nRef + 1 }), some nid)
  | none =>
    match tabGet s.store.nodeTab iNode with
    | some blob =>
      if s.cfg.iNodeSize == blob.length then
        let nid := s.nextPtr
        let node : MemNode :=
          { iNode := iNode, parent := pParent, nRef := 1, isDirty := false, inHash := false
            zData := blob }
        let s := nodeReference
          { s with cache := (nid, node) :: s.cache, nextPtr := s.nextPtr + 1 } pParent
        let s := if iNode == 1 then { s with iDepth := (readInt16 blob 0 : Int) } else s
        let rc : RC :=
          if iNode == 1 && decide (RTREE_MAX_DEPTH < s.iDepth) then .corrupt else .ok
        let rc : RC :=
          if rc = .ok && decide (s.cfg.maxCell < NCELL blob) then .corrupt else rc
        if rc = .ok then (.ok, nodeHashInsert s nid, some nid)
        else (rc, s.freeNode nid, none)
      else (.corrupt, s, none)
    | none => (.corrupt, s, none)

/-- `rowidWrite`: upsert `(iRowid -> iNode)` into `_rowid`. -/
def rowidWrite (s : EState) (iRowid iNode : Int) : RC × EState :=
  (.ok, { s with store := { s.store with
    rowidTab := tabPut s.store.rowidTab iRowid (some iNode), lastRowid := iRowid } })

/-- `parentWrite`: upsert `(iNode -> iPar)` into `_parent`. -/
def parentWrite (s : EState) (iNode iPar : Int) : RC × EState :=
  (.ok, { s with store := { s.store with
    parentTab := tabPut s.store.parentTab iNode iPar, lastRowid := iNode } })

/-- `newRowid`: insert `(NULL, NULL)` into `_rowid` and read back the
auto-assigned key through `last_insert_rowid`. -/
def newRowid (s : EState) : RC × EState × Int :=
  let key := tabFreshKey s.store.rowidTab
  (.ok, { s with store := { s.store with
    rowidTab := tabPut s.store.rowidTab key none, lastRowid := key } }, key)

/-! ## Engine wrappers over node page images -/

/-- Engine-level `nodeOverwriteCell` (also sets the dirty flag). -/
def nodeOverwriteCellM (s : EState) (nid : Nat) (cell : RtreeCell) (iCell : Nat) : EState :=
  s.setNode nid fun n =>
    { n with zData := nodeOverwriteCell s.cfg n.zData cell iCell, isDirty := true }

/-- Engine-level `nodeInsertCell`; on a full node nothing changes. -/
def nodeInsertCellM (s : EState) (nid : Nat) (cell : RtreeCell) : Bool × EState :=
  match s.node nid with
  | none => (false, s)
  | some node =>
    let r := nodeInsertCell s.cfg node.zData cell
    if r.1 then (true, s)
    else (false, s.setNode nid fun n => { n with zData := r.2, isDirty := true })

/-- Engine-level `nodeZero`. -/
def nodeZeroM (s : EState) (nid : Nat) : EState :=
  s.setNode nid fun n => { n with zData := nodeZero s.cfg n.zData, isDirty := true }

/-- Engine-level `nodeDeleteCell`. -/
def nodeDeleteCellM (s : EState) (nid : Nat) (iCell : Nat) : EState :=
  s.setNode nid fun n => { n with zData := nodeDeleteCell s.cfg n.zData iCell, isDirty := true }

/-- `nodeRowidIndex`: index of the cell whose 64-bit value is `iRowid`. -/
def nodeRowidIndex (cfg : Config) (z : Bytes) (iRowid : Int) : Option Nat :=
  (List.range (NCELL z)).find? fun ii => nodeGetRowid cfg z ii == iRowid

/-- `nodeParentIndex`: `-1` for the root, otherwise the index of this
node's cell in its parent (corruption if absent). -/
def nodeParentIndex (s : EState) (nid : Nat) : RC × Int :=
  match s.node nid with
  | none => (.corrupt, 0)
  | some node =>
    match node.parent with
    | some p =>
      match s.node p with
      | none => (.corrupt, 0)
      | some pnode =>
        match nodeRowidIndex s.cfg pnode.zData node.iNode with
        | some ii => (.ok, (ii : Int))
        | none => (.corrupt, 0)
    | none => (.ok, -1)

/-! ## Sorting (rtree.c lines 2007-2130) -/

/-- The merge phase of `SortByDistance` (left element wins strict-less
comparisons, ties go right, as in the source). -/
def mergeByDistance (aDistance : Nat → ℚ) : List Nat → List Nat → List Nat
  | [], r => r
  | a :: l, [] => a :: l
  | a :: l, b :: r =>
    if aDistance a < aDistance b then a :: mergeByDistance aDistance l (b :: r)
    else b :: mergeByDistance aDistance (a :: l) r
termination_by l r => l.length + r.length

/-- `SortByDistance`: merge sort of an index list keyed by `aDistance`. -/
def SortByDistance (aDistance : Nat → ℚ) (aIdx : List Nat) : List Nat :=
  if h : aIdx.length ≤ 1 then aIdx
  else
    let nLeft := aIdx.length / 2
    mergeByDistance aDistance (SortByDistance aDistance (aIdx.take nLeft))
      (SortByDistance aDistance (aIdx.drop nLeft))
termination_by aIdx.length
decreasing_by
  · simp only [List.length_take]; omega
  · simp only [List.length_drop]; omega

/-- Array access into a cell list with C garbage-free default. -/
def cellAt (aCell : List RtreeCell) (i : Nat) : RtreeCell := aCell.getD i ⟨0, []⟩

/-- The merge comparison of `SortByDimension`: take the left element iff
`(lo, hi)` of dimension `iDim` is strictly lexicographically smaller. -/
def dimLess (aCell : List RtreeCell) (iDim : Nat) (a b : Nat) : Bool :=
  let xleft1 := DCOORD ((cellAt aCell a).coord (iDim * 2))
  let xleft2 := DCOORD ((cellAt aCell a).coord (iDim * 2 + 1))
  let xright1 := DCOORD ((cellAt aCell b).coord (iDim * 2))
  let xright2 := DCOORD ((cellAt aCell b).coord (iDim * 2 + 1))
  decide (xleft1 < xright1) || (xleft1 == xright1 && decide (xleft2 < xright2))

/-- The merge phase of `SortByDimension`. -/
def mergeByDimension (aCell : List RtreeCell) (iDim : Nat) : List Nat → List Nat → List Nat
  | [], r => r
  | a :: l, [] => a :: l
  | a :: l, b :: r =>
    if dimLess aCell iDim a b then a :: mergeByDimension aCell iDim l (b :: r)
    else b :: mergeByDimension aCell iDim (a :: l) r
termination_by l r => l.length + r.length

/-- `SortByDimension`: merge sort of an index list by `(lo, hi)` of one
dimension. -/
def SortByDimension (aCell : List RtreeCell) (iDim : Nat) (aIdx : List Nat) : List Nat :=
  if h : aIdx.length ≤ 1 then aIdx
  else
    let nLeft := aIdx.length / 2
    mergeByDimension aCell iDim (SortByDimension aCell iDim (aIdx.take nLeft))
      (SortByDimension aCell iDim (aIdx.drop nLeft))
termination_by aIdx.length
decreasing_by
  · simp only [List.length_take]; omega
  · simp only [List.length_drop]; omega

/-! ## ChooseLeaf and AdjustTree (rtree.c lines 1683-1806) -/

/-- The best-child selection of `ChooseLeaf` in the compiled configuration
(`VARIANT_RSTARTREE_CHOOSESUBTREE = 0`): minimise area growth, break ties
by smaller area; returns the chosen child's node number. -/
def chooseBestChild (cfg : Config) (z : Bytes) (pCell : RtreeCell) : Int :=
  ((List.range (NCELL z)).foldl
    (fun (st : Int × ℚ × ℚ) iCell =>
      let (iBest, fMinGrowth, fMinArea) := st
      let cell := nodeGetCell cfg z iCell
      let growth := cellGrowth cfg cell pCell
      let area := cellArea cfg cell
      if iCell == 0 || decide (growth < fMinGrowth) ||
          (growth == fMinGrowth && decide (area < fMinArea)) then
        (cell.iRowid, growth, area)
      else (iBest, fMinGrowth, fMinArea))
    (0, 0, 0)).1

/-- The descent loop of `ChooseLeaf`: runs while `rc==SQLITE_OK` and
`ii < iDepth - iHeight`, acquiring the best child and releasing the
current node. -/
def ChooseLeafLoop (pCell : RtreeCell) (iHeight : Int) :
    Nat → Int → RC → EState → Option Nat → RC × EState × Option Nat
  | 0, ii, rc, s, pNode =>
    if rc = .ok && decide (ii < s.iDepth - iHeight) then (.fuelOut, s, pNode)
    else (rc, s, pNode)
  | fuel + 1, ii, rc, s, pNode =>
    if rc = .ok && decide (ii < s.iDepth - iHeight) then
      match pNode with
      | none => (.corrupt, s, none)
      | some nid =>
        match s.node nid with
        | none => (.corrupt, s, none)
        | some node =>
          let iBest := chooseBestChild s.cfg node.zData pCell
          let aq := nodeAcquire s iBest (some nid)
          let rel := nodeRelease (fuel + 1) aq.2.1 (some nid)
          ChooseLeafLoop pCell iHeight fuel (ii + 1) aq.1 rel.2 aq.2.2
    else (rc, s, pNode)

/-- `ChooseLeaf`: acquire the root and descend `iDepth - iHeight` levels. -/
def ChooseLeaf (fuel : Nat) (s : EState) (pCell : RtreeCell) (iHeight : Int) :
    RC × EState × Option Nat :=
  let aq := nodeAcquire s 1 none
  ChooseLeafLoop pCell iHeight fuel 0 aq.1 aq.2.1 aq.2.2

/-- `AdjustTree`: walk up from `nid`, enlarging each ancestor cell that
does not already contain `pCell`. -/
def AdjustTree (fuel : Nat) (s : EState) (nid : Nat) (pCell : RtreeCell) : RC × EState :=
  match fuel with
  | 0 => (.fuelOut, s)
  | fuel + 1 =>
    match s.node nid with
    | none => (.ok, s)
    | some node =>
      match node.parent with
      | none => (.ok, s)
      | some pid =>
        match nodeParentIndex s nid with
        | (.ok, iCell) =>
          match s.node pid with
          | none => (.ok, s)
          | some pnode =>
            let cell := nodeGetCell s.cfg pnode.zData iCell.toNat
            if cellContains s.cfg cell pCell then
              AdjustTree fuel s pid pCell
            else
              let s := nodeOverwriteCellM s pid (cellUnion s.cfg cell pCell) iCell.toNat
              AdjustTree fuel s pid pCell
        | (_, _) => (.corrupt, s)

/-- `fixBoundingBox`: recompute this node's bounding box, store it into the
parent's cell, and recurse upward. -/
def fixBoundingBox (fuel : Nat) (s : EState) (nid : Nat) : RC × EState :=
  match fuel with
  | 0 => (.fuelOut, s)
  | fuel + 1 =>
    match s.node nid with
    | none => (.ok, s)
    | some node =>
      match node.parent with
      | none => (.ok, s)
      | some pid =>
        let nCell := NCELL node.zData
        let box := (List.range (nCell - 1)).foldl
          (fun box ii => cellUnion s.cfg box (nodeGetCell s.cfg node.zData (ii + 1)))
          (nodeGetCell s.cfg node.zData 0)
        let box := { box with iRowid := node.iNode }
        match nodeParentIndex s nid with
        | (.ok, ii) =>
          let s := nodeOverwriteCellM s pid box ii.toNat
          fixBoundingBox fuel s pid
        | (rc, _) => (rc, s)

/-- `updateMapping`: re-point the in-cache child's parent (for internal
cells) and write the rowid-or-parent mapping for the cell now stored in
node `nid`. -/
def updateMapping (fuel : Nat) (s : EState) (iRowid : Int) (nid : Nat) (iHeight : Int) :
    RC × EState :=
  let s :=
    if decide (iHeight > 0) then
      match nodeHashLookup s iRowid with
      | some child =>
        match s.node child with
        | some cnode =>
          let t := nodeRelease fuel s cnode.parent
          let s := nodeReference t.2 (some nid)
          s.setNode child fun n => { n with parent := some nid }
        | none => s
      | none => s
    else s
  match s.node nid with
  | some node =>
    if iHeight == 0 then rowidWrite s iRowid node.iNode
    else parentWrite s iRowid node.iNode
  | none => (.corrupt, s)

/-! ## The R*-tree split (rtree.c lines 2136-2231, 2309-2446) -/

/-- The `(left, right)` bounding boxes of splitting the sorted cells at
position `nLeft` (first `nLeft` vs the rest). -/
def startreeBoxes (cfg : Config) (aCell : List RtreeCell) (sorted : List Nat) (nLeft : Nat) :
    RtreeCell × RtreeCell :=
  let nCell := sorted.length
  let cAt := fun i => cellAt aCell (sorted.getD i 0)
  (List.range (nCell - 2)).foldl
    (fun (lr : RtreeCell × RtreeCell) k =>
      let kk := k + 1
      if kk < nLeft then (cellUnion cfg lr.1 (cAt kk), lr.2)
      else (lr.1, cellUnion cfg lr.2 (cAt kk)))
    (cAt 0, cAt (nCell - 1))

/-- The per-dimension scan of `splitNodeStartree`: accumulate the margin sum
over all legal split positions and track the split minimising overlap
(ties broken by area).  Returns `(margin, iBestLeft)`. -/
def startreeDimScan (cfg : Config) (aCell : List RtreeCell) (sorted : List Nat) : ℚ × Nat :=
  let m := cfg.minCells
  let nCell := sorted.length
  let r := (List.range' m (nCell + 1 - 2 * m)).foldl
    (fun (st : ℚ × ℚ × ℚ × Nat) nLeft =>
      let (margin, fBestOverlap, fBestArea, iBestLeft) := st
      let lr := startreeBoxes cfg aCell sorted nLeft
      let margin := margin + cellMargin cfg lr.1 + cellMargin cfg lr.2
      let overlap := cellOverlap cfg lr.1 [lr.2]
      let area := cellArea cfg lr.1 + cellArea cfg lr.2
      if nLeft == m || decide (overlap < fBestOverlap) ||
          (overlap == fBestOverlap && decide (area < fBestArea)) then
        (margin, overlap, area, nLeft)
      else (margin, fBestOverlap, fBestArea, iBestLeft))
    (0, 0, 0, 0)
  (r.1, r.2.2.2)

/-- The dimension choice of `splitNodeStartree`: the dimension with the
minimum margin sum, together with its best split position. -/
def startreeBestDim (cfg : Config) (aCell : List RtreeCell) : Nat × Nat :=
  let r := (List.range cfg.nDim).foldl
    (fun (st : Nat × Nat × ℚ) ii =>
      let (iBestDim, iBestSplit, fBestMargin) := st
      let sorted := SortByDimension aCell ii (List.range aCell.length)
      let scan := startreeDimScan cfg aCell sorted
      if ii == 0 || decide (scan.1 < fBestMargin) then (ii, scan.2, scan.1)
      else (iBestDim, iBestSplit, fBestMargin))
    (0, 0, 0)
  (r.1, r.2.1)

/-- `splitNodeStartree` (`AssignCells` of the compiled configuration):
distribute the cells over the two nodes along the chosen dimension and
split position, returning the two bounding boxes. -/
def splitNodeStartree (s : EState) (aCell : List RtreeCell) (pLeft pRight : Nat) :
    RC × EState × RtreeCell × RtreeCell :=
  let cfg := s.cfg
  let nCell := aCell.length
  let bd := startreeBestDim cfg aCell
  let sorted := SortByDimension aCell bd.1 (List.range nCell)
  let cAt := fun i => cellAt aCell (sorted.getD i 0)
  let r := (List.range nCell).foldl
    (fun (st : EState × RtreeCell × RtreeCell) ii =>
      let (s, bl, br) := st
      let pCell := cAt ii
      if ii < bd.2 then
        let t := nodeInsertCellM s pLeft pCell
        (t.2, cellUnion cfg bl pCell, br)
      else
        let t := nodeInsertCellM s pRight pCell
        (t.2, bl, cellUnion cfg br pCell))
    (s, cAt 0, cAt bd.2)
  (.ok, r.1, r.2.1, r.2.2)

/-! ## Reinsert helpers (the pure computation of rtree.c lines 2626-2673) -/

/-- `aCenterCoord[iDim]` of `Reinsert`: the average of all `lo` and `hi`
values of the gathered cells in dimension `iDim`
(accumulated, then divided by `nCell*2`). -/
def reinsertCenterCoord (aCell : List RtreeCell) (iDim : Nat) : ℚ :=
  (aCell.foldl
    (fun acc c => acc + DCOORD (c.coord (iDim * 2)) + DCOORD (c.coord (iDim * 2 + 1))) 0)
    / (aCell.length * 2 : ℚ)

/-- `aDistance[ii]` of `Reinsert`: the sum over dimensions of the squared
difference between the cell's extent `hi - lo` and `aCenterCoord[iDim]`
(this is what the source computes: `coord` is the extent of the cell, not
its center). -/
def reinsertDistance (cfg : Config) (aCell : List RtreeCell) (c : RtreeCell) : ℚ :=
  (List.range cfg.nDim).foldl
    (fun acc iDim =>
      let coord := DCOORD (c.coord (iDim * 2 + 1)) - DCOORD (c.coord (iDim * 2))
      acc + (coord - reinsertCenterCoord aCell iDim) * (coord - reinsertCenterCoord aCell iDim))
    0

/-- The index order produced by `SortByDistance` over the gathered cells
(`aOrder` after the sort). -/
def reinsertOrder (cfg : Config) (aCell : List RtreeCell) : List Nat :=
  SortByDistance (fun i => reinsertDistance cfg aCell (cellAt aCell i)) (List.range aCell.length)

/-- The distance the specification describes: squared distance between the
cell's center and the node center, per dimension.  (Spec-side definition,
for comparison with `reinsertDistance` which models the source.) -/
def specCenterDistance (cfg : Config) (aCell : List RtreeCell) (c : RtreeCell) : ℚ :=
  (List.range cfg.nDim).foldl
    (fun acc iDim =>
      let center := (DCOORD (c.coord (iDim * 2 + 1)) + DCOORD (c.coord (iDim * 2))) / 2
      acc + (center - reinsertCenterCoord aCell iDim) * (center - reinsertCenterCoord aCell iDim))
    0

/-- The first loop of `Reinsert` (rtree.c lines 2674-2686): zero the node
and insert the cells selected by `keepIdx` back into it, rewriting the
rowid-or-parent mapping when the new cell is among them. -/
def reinsertRebuild (s : EState) (nid : Nat) (pCell : RtreeCell) (iHeight : Int)
    (aCell : List RtreeCell) (keepIdx : List Nat) : RC × EState :=
  keepIdx.foldl
    (fun (st : RC × EState) idx =>
      if st.1 = .ok then
        let p := cellAt aCell idx
        let t := nodeInsertCellM st.2 nid p
        if p.iRowid == pCell.iRowid then
          match t.2.node nid with
          | some nd =>
            if iHeight == 0 then rowidWrite t.2 p.iRowid nd.iNode
            else parentWrite t.2 p.iRowid nd.iNode
          | none => (.corrupt, t.2)
        else (.ok, t.2)
      else st)
    (.ok, nodeZeroM s nid)

/-- The opening stage of `SplitNode` (rtree.c lines 2319-2387): collect
the cells plus the new one, zero the source, create the two target nodes
(two fresh siblings under the root, or the source plus one fresh sibling),
distribute with `splitNodeStartree`, flush `pRight` (and `pLeft` when it
has no node number yet) and stamp the node numbers into the two bounding
boxes.  Returns `(rc, state, pLeft, pRight, leftbbox, rightbbox)`. -/
def splitNodeSetup (s : EState) (nid : Nat) (node : MemNode) (pCell : RtreeCell) :
    RC × EState × Nat × Nat × RtreeCell × RtreeCell :=
  let cfg := s.cfg
  let aCell := nodeCells cfg node.zData ++ [pCell]
  let s := nodeZeroM s nid
  let lrs : Nat × Nat × EState :=
    if node.iNode == 1 then
      let tr := nodeNew s (some nid)
      let tl := nodeNew tr.2 (some nid)
      let s2 := { tl.2 with iDepth := tl.2.iDepth + 1 }
      let s2 := s2.setNode nid fun n =>
        { n with isDirty := true, zData := writeInt16 n.zData 0 s2.iDepth }
      (tl.1, tr.1, s2)
    else
      let tr := nodeNew s node.parent
      (nid, tr.1, nodeReference tr.2 (some nid))
  let pLeft := lrs.1
  let pRight := lrs.2.1
  let s := lrs.2.2
  let s := s.setNode pLeft fun n => { n with zData := List.replicate cfg.iNodeSize 0 }
  let s := s.setNode pRight fun n => { n with zData := List.replicate cfg.iNodeSize 0 }
  let asg := splitNodeStartree s aCell pLeft pRight
  let s := asg.2.1
  let wr := nodeWrite s pRight
  let wl : RC × EState :=
    if wr.1 = .ok then
      match wr.2.node pLeft with
      | some ln => if ln.iNode == 0 then nodeWrite wr.2 pLeft else (.ok, wr.2)
      | none => (.ok, wr.2)
    else wr
  let s := wl.2
  let rightbbox := { asg.2.2.2 with iRowid := ((s.node pRight).map MemNode.iNode).getD 0 }
  let leftbbox := { asg.2.2.1 with iRowid := ((s.node pLeft).map MemNode.iNode).getD 0 }
  (wl.1, s, pLeft, pRight, leftbbox, rightbbox)

/-- The non-root left-bounding-box push of `SplitNode` (rtree.c lines
2394-2405): overwrite this node's cell in the parent and `AdjustTree`. -/
def splitNodeWriteLeftParent (fuel : Nat) (s : EState) (pLeft : Nat) (leftbbox : RtreeCell) :
    RC × EState :=
  match (s.node pLeft).bind MemNode.parent with
  | some par =>
    match nodeParentIndex s pLeft with
    | (.ok, iCell) =>
      let s := nodeOverwriteCellM s par leftbbox iCell.toNat
      AdjustTree fuel s par leftbbox
    | (rc, _) => (rc, s)
  | none => (.corrupt, s)

/-- The right-node mapping loop of `SplitNode` (rtree.c lines 2410-2419):
`updateMapping` for each cell of `pRight`, noting whether the new cell
landed on the right. -/
def splitNodeMappingsLoop (fuel : Nat) (s : EState) (rdata : Bytes) (pRight : Nat)
    (pCell : RtreeCell) (iHeight : Int) : List Nat → Bool → RC × Bool × EState
  | [], ncir => (.ok, ncir, s)
  | i :: rest, ncir =>
    let iRowid := nodeGetRowid s.cfg rdata i
    let um := updateMapping fuel s iRowid pRight iHeight
    let ncir2 := ncir || (iRowid == pCell.iRowid)
    if um.1 = .ok then splitNodeMappingsLoop fuel um.2 rdata pRight pCell iHeight rest ncir2
    else (um.1, ncir2, um.2)

/-- The left-node mapping loop of `SplitNode` for the root split case
(rtree.c lines 2420-2427). -/
def splitNodeMappingsLeftLoop (fuel : Nat) (s : EState) (ldata : Bytes) (pLeft : Nat)
    (iHeight : Int) : List Nat → RC × EState
  | [] => (.ok, s)
  | i :: rest =>
    let iRowid := nodeGetRowid s.cfg ldata i
    let um := updateMapping fuel s iRowid pLeft iHeight
    if um.1 = .ok then splitNodeMappingsLeftLoop fuel um.2 ldata pLeft iHeight rest
    else um

/-- The closing releases of `SplitNode` on success (rtree.c lines
2432-2439 plus the no-op `splitnode_out` releases). -/
def splitNodeFinishOk (fuel : Nat) (s : EState) (pLeft pRight : Nat) : RC × EState :=
  let rr := nodeRelease fuel s (some pRight)
  if rr.1 = .ok then nodeRelease fuel rr.2 (some pLeft)
  else
    let t := nodeRelease fuel rr.2 (some pLeft)
    (rr.1, t.2)

/-- The `splitnode_out` error epilogue of `SplitNode`: release both target
nodes and surface the error. -/
def splitNodeFinishErr (fuel : Nat) (rc : RC) (s : EState) (pLeft pRight : Nat) : RC × EState :=
  let t := nodeRelease fuel s (some pRight)
  let t2 := nodeRelease fuel t.2 (some pLeft)
  (rc, t2.2)

/-- The tail of `SplitNode` after both mapping loops' branch selection
(rtree.c lines 2425-2439): run the root's left-side mapping loop or the
single new-cell mapping update, then release both sides. -/
def splitNodeStageMp2 (fuel : Nat) (s : EState) (isRoot : Bool) (mapped : Bool)
    (pLeft pRight : Nat) (pCell : RtreeCell) (iHeight : Int) : RC × EState :=
  let mp2 : RC × EState :=
    if isRoot then
      let ldata := ((s.node pLeft).map MemNode.zData).getD []
      splitNodeMappingsLeftLoop fuel s ldata pLeft iHeight (List.range (NCELL ldata))
    else if mapped = false then updateMapping fuel s pCell.iRowid pLeft iHeight
    else (.ok, s)
  if mp2.1 = .ok then splitNodeFinishOk fuel mp2.2 pLeft pRight
  else splitNodeFinishErr fuel mp2.1 mp2.2 pLeft pRight

/-- The right-side mapping loop of `SplitNode` and everything after it
(rtree.c lines 2416-2439). -/
def splitNodeStageMp (fuel : Nat) (s : EState) (isRoot : Bool) (pLeft pRight : Nat)
    (pCell : RtreeCell) (iHeight : Int) : RC × EState :=
  let rdata := ((s.node pRight).map MemNode.zData).getD []
  let mp := splitNodeMappingsLoop fuel s rdata pRight pCell iHeight
    (List.range (NCELL rdata)) false
  if mp.1 = .ok then
    splitNodeStageMp2 fuel mp.2.2 isRoot mp.2.1 pLeft pRight pCell iHeight
  else splitNodeFinishErr fuel mp.1 mp.2.2 pLeft pRight

/-- The re-parenting prelude of `rtreeInsertCell` (rtree.c lines
2724-2731): for an internal cell whose child is cached, re-point the
child's parent to the target node. -/
def insertCellReparent (fuel : Nat) (s : EState) (nid : Nat) (pCell : RtreeCell)
    (iHeight : Int) : EState :=
  if decide (iHeight > 0) then
    match nodeHashLookup s pCell.iRowid with
    | some child =>
      match s.node child with
      | some cnode =>
        let t := nodeRelease fuel s cnode.parent
        let s := nodeReference t.2 (some nid)
        s.setNode child fun n => { n with parent := some nid }
      | none => s
    | none => s
  else s

/-! ## The insert path (rtree.c lines 2609-2754)

`rtreeInsertCell`, `SplitNode` and `Reinsert` are mutually recursive (a
split or reinsert inserts cells further up or back into the tree); the
recursion is fuelled.  `ReinsertSpread` is the second loop of `Reinsert`
(the farthest cells being re-inserted through `ChooseLeaf`). -/

mutual

/-- `rtreeInsertCell`: re-parent an in-cache child for internal cells, try
the plain insert, and on overflow either split or (first overflow above
`iReinsertHeight`, never on the root) force-reinsert.  The ghost `rlog`
records each Reinsert invocation as `(iHeight, iNode)`. -/
def rtreeInsertCell (fuel : Nat) (s : EState) (nid : Nat) (pCell : RtreeCell)
    (iHeight : Int) : RC × EState :=
  match fuel with
  | 0 => (.fuelOut, s)
  | fuel + 1 =>
    let s := insertCellReparent (fuel + 1) s nid pCell iHeight
    let t := nodeInsertCellM s nid pCell
    if t.1 then
      match t.2.node nid with
      | none => (.corrupt, t.2)
      | some node =>
        if decide (iHeight ≤ t.2.iReinsertHeight) || node.iNode == 1 then
          SplitNode fuel t.2 nid pCell iHeight
        else
          let s := { t.2 with iReinsertHeight := iHeight,
                              rlog := t.2.rlog ++ [(iHeight, node.iNode)] }
          Reinsert fuel s nid pCell iHeight
    else
      let r := AdjustTree (fuel + 1) t.2 nid pCell
      if r.1 = .ok then
        match r.2.node nid with
        | none => (.corrupt, r.2)
        | some node =>
          if iHeight == 0 then rowidWrite r.2 pCell.iRowid node.iNode
          else parentWrite r.2 pCell.iRowid node.iNode
      else r

/-- `SplitNode`: collect the `nCell+1` cells, zero the source, produce the
two sides (new siblings under the root, or the source plus one new
sibling), distribute with `splitNodeStartree`, flush for node numbers,
push the bounding boxes upward and update the mappings. -/
def SplitNode (fuel : Nat) (s : EState) (nid : Nat) (pCell : RtreeCell)
    (iHeight : Int) : RC × EState :=
  match fuel with
  | 0 => (.fuelOut, s)
  | fuel + 1 =>
    match s.node nid with
    | none => (.corrupt, s)
    | some node =>
      let su := splitNodeSetup s nid node pCell
      let pLeft := su.2.2.1
      let pRight := su.2.2.2.1
      let leftbbox := su.2.2.2.2.1
      let rightbbox := su.2.2.2.2.2
      if su.1 = .ok then
        let up : RC × EState :=
          if node.iNode == 1 then
            match (su.2.1.node pLeft).bind MemNode.parent with
            | some par => rtreeInsertCell fuel su.2.1 par leftbbox (iHeight + 1)
            | none => (.corrupt, su.2.1)
          else splitNodeWriteLeftParent (fuel + 1) su.2.1 pLeft leftbbox
        if up.1 = .ok then
          let up2 : RC × EState :=
            match (up.2.node pRight).bind MemNode.parent with
            | some par => rtreeInsertCell fuel up.2 par rightbbox (iHeight + 1)
            | none => (.corrupt, up.2)
          if up2.1 = .ok then
            splitNodeStageMp (fuel + 1) up2.2 (node.iNode == 1) pLeft pRight pCell iHeight
          else splitNodeFinishErr (fuel + 1) up2.1 up2.2 pLeft pRight
        else splitNodeFinishErr (fuel + 1) up.1 up.2 pLeft pRight
      else splitNodeFinishErr (fuel + 1) su.1 su.2.1 pLeft pRight


/-- `Reinsert`: gather the node's cells plus the new one, sort by
`reinsertDistance`, rebuild the zeroed node with the
`nCell - (RTREE_MINCELLS+1)` nearest cells (updating the mapping of the
new cell if kept), fix the bounding box, and re-insert the rest at the
same height. -/
def Reinsert (fuel : Nat) (s : EState) (nid : Nat) (pCell : RtreeCell)
    (iHeight : Int) : RC × EState :=
  match fuel with
  | 0 => (.fuelOut, s)
  | fuel + 1 =>
    match s.node nid with
    | none => (.corrupt, s)
    | some node =>
      let cfg := s.cfg
      let nCell := NCELL node.zData + 1
      let aCell := nodeCells cfg node.zData ++ [pCell]
      let aOrder := reinsertOrder cfg aCell
      let keep := reinsertRebuild s nid pCell iHeight aCell
        (aOrder.take (nCell - (cfg.minCells + 1)))
      let fb := if keep.1 = .ok then fixBoundingBox (fuel + 1) keep.2 nid else keep
      if fb.1 = .ok then
        ReinsertSpread fuel fb.2 (aOrder.drop (nCell - (cfg.minCells + 1))) aCell iHeight
      else fb

/-- The second loop of `Reinsert`: `ChooseLeaf` at the same height, then
`rtreeInsertCell`, for each remaining (farthest) cell. -/
def ReinsertSpread (fuel : Nat) (s : EState) (idxs : List Nat) (aCell : List RtreeCell)
    (iHeight : Int) : RC × EState :=
  match fuel with
  | 0 => (.fuelOut, s)
  | fuel + 1 =>
    match idxs with
    | [] => (.ok, s)
    | idx :: rest =>
      let p := cellAt aCell idx
      let cl := ChooseLeaf (fuel + 1) s p iHeight
      if cl.1 = .ok then
        match cl.2.2 with
        | some pInsert =>
          let r := rtreeInsertCell fuel cl.2.1 pInsert p iHeight
          let r2 := nodeRelease (fuel + 1) r.2 (some pInsert)
          let rc := if r.1 = .ok then r2.1 else r.1
          if rc = .ok then ReinsertSpread fuel r2.2 rest aCell iHeight
          else (rc, r2.2)
        | none => (.corrupt, cl.2.1)
      else (cl.1, cl.2.1)

end

/-! ## Delete path (rtree.c lines 1280-1292, 2463-2607, 2756-2891) -/

/-- The reference-cycle scan of `fixLeafParent`: walk the parent chain from
`start` looking for a node with number `iNode`. -/
def chainHasNode (fuel : Nat) (s : EState) (start : Option Nat) (iNode : Int) : Bool :=
  match fuel with
  | 0 => false
  | fuel + 1 =>
    match start with
    | none => false
    | some nid =>
      match s.node nid with
      | none => false
      | some node =>
        if node.iNode == iNode then true else chainHasNode fuel s node.parent iNode

/-- `fixLeafParent`: populate the parent chain of `pLeaf` up to the root by
reading `_parent`, refusing an assignment that would create a reference
cycle (which then surfaces as corruption). -/
def fixLeafParent (fuel : Nat) (s : EState) (pLeaf : Nat) : RC × EState :=
  fixLeafParentLoop fuel s pLeaf pLeaf
where
  fixLeafParentLoop : Nat → EState → Nat → Nat → RC × EState
    | 0, s, _, _ => (.fuelOut, s)
    | fuel + 1, s, pLeaf, child =>
      match s.node child with
      | none => (.ok, s)
      | some cnode =>
        if !(cnode.iNode == 1) && cnode.parent.isNone then
          match tabGet s.store.parentTab cnode.iNode with
          | some iNode =>
            let t : RC × EState :=
              if chainHasNode (fuel + 1) s (some pLeaf) iNode then (.ok, s)
              else
                let aq := nodeAcquire s iNode none
                (aq.1, (aq.2.1.setNode child fun n => { n with parent := aq.2.2 }))
            if t.1 = .ok then
              match t.2.node child with
              | some cnode2 =>
                match cnode2.parent with
                | some p => fixLeafParentLoop fuel t.2 pLeaf p
                | none => (.corrupt, t.2)
              | none => (.corrupt, t.2)
            else t
          | none => (.corrupt, s)
        else (.ok, s)

mutual

/-- `deleteCell`: fix the parent chain, shift-delete the cell, then either
condense (`removeNode`) an under-full non-root node or retighten the
bounding boxes. -/
def deleteCell (fuel : Nat) (s : EState) (nid : Nat) (iCell : Nat) (iHeight : Int) :
    RC × EState :=
  match fuel with
  | 0 => (.fuelOut, s)
  | fuel + 1 =>
    let fl := fixLeafParent (fuel + 1) s nid
    if fl.1 = .ok then
      let s := nodeDeleteCellM fl.2 nid iCell
      match s.node nid with
      | none => (.corrupt, s)
      | some node =>
        match node.parent with
        | some _ =>
          if NCELL node.zData < s.cfg.minCells then removeNode fuel s nid iHeight
          else fixBoundingBox (fuel + 1) s nid
        | none => (.ok, s)
    else fl

/-- `removeNode`: delete this node's cell from its parent (recursively
condensing), drop its `_node` and `_parent` rows, unhash it, record the
sub-tree height in `iNode` and push it on the pending-reinsert list. -/
def removeNode (fuel : Nat) (s : EState) (nid : Nat) (iHeight : Int) : RC × EState :=
  match fuel with
  | 0 => (.fuelOut, s)
  | fuel + 1 =>
    match nodeParentIndex s nid with
    | (.ok, iCell) =>
      match s.node nid with
      | none => (.corrupt, s)
      | some node =>
        let pParent := node.parent
        let s := s.setNode nid fun n => { n with parent := none }
        let dc : RC × EState :=
          match pParent with
          | some par => deleteCell fuel s par iCell.toNat (iHeight + 1)
          | none => (.corrupt, s)
        let rel := nodeRelease (fuel + 1) dc.2 pParent
        let rc := if dc.1 = .ok then rel.1 else dc.1
        if rc = .ok then
          let s := rel.2
          let s := { s with store := { s.store with
            nodeTab := tabDel s.store.nodeTab node.iNode,
            parentTab := tabDel s.store.parentTab node.iNode } }
          let s := nodeHashDelete s nid
          let s := s.setNode nid fun n => { n with iNode := iHeight, nRef := n.nRef + 1 }
          (.ok, { s with pDeleted := nid :: s.pDeleted })
        else (rc, rel.2)
    | (rc, _) => (rc, s)

end

/-- `findLeafNode`: look the rowid up in `_rowid` and acquire the leaf; a
missing row leaves the leaf NULL with `SQLITE_OK`. -/
def findLeafNode (s : EState) (iRowid : Int) : RC × EState × Option Nat :=
  match tabGet s.store.rowidTab iRowid with
  | some nodeno => nodeAcquire s (nodeno.getD 0) none
  | none => (.ok, s, none)

/-- The loop of `reinsertNodeContent`: choose a node at the height stored
in `iNode` and insert each cell of the removed node. -/
def reinsertNodeContentLoop (fuel : Nat) (s : EState) (nid : Nat) (ii nCell : Nat) :
    RC × EState :=
  match fuel with
  | 0 => (.fuelOut, s)
  | fuel + 1 =>
    if ii < nCell then
      match s.node nid with
      | none => (.corrupt, s)
      | some node =>
        let cell := nodeGetCell s.cfg node.zData ii
        let cl := ChooseLeaf (fuel + 1) s cell node.iNode
        if cl.1 = .ok then
          match cl.2.2 with
          | some pInsert =>
            let r := rtreeInsertCell (fuel + 1) cl.2.1 pInsert cell node.iNode
            let r2 := nodeRelease (fuel + 1) r.2 (some pInsert)
            let rc := if r.1 = .ok then r2.1 else r.1
            if rc = .ok then reinsertNodeContentLoop fuel r2.2 nid (ii + 1) nCell
            else (rc, r2.2)
          | none => (.corrupt, cl.2.1)
        else (cl.1, cl.2.1)
    else (.ok, s)

/-- `reinsertNodeContent`. -/
def reinsertNodeContent (fuel : Nat) (s : EState) (nid : Nat) : RC × EState :=
  match s.node nid with
  | none => (.corrupt, s)
  | some node => reinsertNodeContentLoop fuel s nid 0 (NCELL node.zData)

/-- The drain loop over `Rtree.pDeleted` at the end of `rtreeDeleteRowid`:
re-insert each orphan's content (while no error has occurred) and free it. -/
def drainDeleted (fuel : Nat) (rc : RC) (s : EState) : RC × EState :=
  match fuel with
  | 0 => (.fuelOut, s)
  | fuel + 1 =>
    match s.pDeleted with
    | [] => (rc, s)
    | nid :: rest =>
      let r := if rc = .ok then reinsertNodeContent (fuel + 1) s nid else (rc, s)
      let s := { r.2 with pDeleted := rest }
      drainDeleted fuel r.1 (s.freeNode nid)

/-- The leaf-unlink stage of `rtreeDeleteRowid` (rtree.c lines 2815-2836):
delete the found cell from its leaf, release the leaf, and on success
drop the `_rowid` row. -/
def rtreeDeleteRowidUnlink (fuel : Nat) (fl : RC × EState × Option Nat) (iDelete : Int) :
    RC × EState :=
  let dl : RC × EState :=
    if fl.1 = .ok then
      match fl.2.2 with
      | some pLeaf =>
        let s := fl.2.1
        let dc : RC × EState :=
          match (s.node pLeaf).map MemNode.zData with
          | some z =>
            match nodeRowidIndex s.cfg z iDelete with
            | some iCell => deleteCell fuel s pLeaf iCell 0
            | none => (.corrupt, s)
          | none => (.corrupt, s)
        let rel := nodeRelease fuel dc.2 (some pLeaf)
        ((if dc.1 = .ok then rel.1 else dc.1), rel.2)
      | none => (fl.1, fl.2.1)
    else (fl.1, fl.2.1)
  if dl.1 = .ok then
    (.ok, { dl.2 with store := { dl.2.store with
      rowidTab := tabDel dl.2.store.rowidTab iDelete } })
  else dl

/-- The root-shrink stage of `rtreeDeleteRowid` (rtree.c lines 2841-2861):
if the root of a deeper tree is left with a single cell, condense the sole
child into the root and decrement the stored depth. -/
def rtreeDeleteRowidShrink (fuel : Nat) (rc : RC) (s : EState) (pRoot : Option Nat) :
    RC × EState :=
  match pRoot with
  | some root =>
    match s.node root with
    | some rnode =>
      if rc = .ok && decide (s.iDepth > 0) && (NCELL rnode.zData == 1) then
        let iChild := nodeGetRowid s.cfg rnode.zData 0
        let aq := nodeAcquire s iChild (some root)
        let rm : RC × EState :=
          if aq.1 = .ok then
            match aq.2.2 with
            | some child => removeNode fuel aq.2.1 child (aq.2.1.iDepth - 1)
            | none => (.corrupt, aq.2.1)
          else (aq.1, aq.2.1)
        let rel := nodeRelease fuel rm.2 aq.2.2
        let rc := if rm.1 = .ok then rel.1 else rm.1
        if rc = .ok then
          let s := rel.2
          let s := { s with iDepth := s.iDepth - 1 }
          let s := s.setNode root fun n =>
            { n with zData := writeInt16 n.zData 0 s.iDepth, isDirty := true }
          (.ok, s)
        else (rc, rel.2)
      else (rc, s)
    | none => (rc, s)
  | none => (rc, s)

/-- The epilogue of `rtreeDeleteRowid` (rtree.c lines 2867-2886): drain the
pending-reinsert list and release the root. -/
def rtreeDeleteRowidFinish (fuel : Nat) (rc : RC) (s : EState) (pRoot : Option Nat) :
    RC × EState :=
  let dr := drainDeleted fuel rc s
  let rel := nodeRelease fuel dr.2 pRoot
  ((if dr.1 = .ok then rel.1 else dr.1), rel.2)

/-- `rtreeDeleteRowid`: find the leaf, delete the cell, drop the `_rowid`
row, pull up a sole root child (shrinking the depth), drain the
pending-reinsert list and release the root. -/
def rtreeDeleteRowid (fuel : Nat) (s : EState) (iDelete : Int) : RC × EState :=
  let ar := nodeAcquire s 1 none
  let fl : RC × EState × Option Nat :=
    if ar.1 = .ok then findLeafNode ar.2.1 iDelete else (ar.1, ar.2.1, none)
  let t1 := rtreeDeleteRowidUnlink fuel fl iDelete
  let t2 := rtreeDeleteRowidShrink fuel t1.1 t1.2 ar.2.2
  rtreeDeleteRowidFinish fuel t2.1 t2.2 ar.2.2

/-! ## rtreeUpdate (rtree.c lines 2786-2794, 2927-3054) -/

/-- An SQL value handed to `xUpdate`: NULL or an integer. -/
inductive SqlVal where
  | null
  | int (v : Int)
deriving Repr, DecidableEq

/-- `sqlite3_value_type(v) != SQLITE_NULL`. -/
def SqlVal.isNotNull : SqlVal → Bool
  | .null => false
  | .int _ => true

/-- `sqlite3_value_int64` (NULL coerces to 0). -/
def SqlVal.toI64 : SqlVal → Int
  | .null => 0
  | .int v => v

/-- Truncation of a 64-bit value to a signed 32-bit value
(`sqlite3_value_int`). -/
def toI32 (v : Int) : Int := (v + 2 ^ 31).emod (2 ^ 32) - 2 ^ 31

/-- The conflict-handling mode reported by `sqlite3_vtab_on_conflict`. -/
inductive ConflictPolicy where
  | rollback
  | abort
  | fail
  | ignore
  | replace
deriving Repr, DecidableEq

/-- The coordinate-population loop of `rtreeUpdate` (integer branch):
`cell.aCoord[ii] = sqlite3_value_int(azData[ii+3])` pairwise, failing with
CONSTRAINT at the first pair with `lo > hi`. -/
def populatePairs (azData : List SqlVal) : Nat → Nat → Option (List Int)
  | 0, _ => some []
  | d + 1, ii =>
    let lo := toI32 (azData.getD (ii + 3) .null).toI64
    let hi := toI32 (azData.getD (ii + 4) .null).toI64
    if lo > hi then none
    else
      match populatePairs azData d (ii + 2) with
      | some rest => some (lo :: hi :: rest)
      | none => none

/-- The tail of `rtreeUpdate` after the constraint-handling block: the
old-rowid delete (which overwrites `rc`) followed by the insert of the new
record (`ChooseLeaf` at height 0, reset of `iReinsertHeight` to -1,
`rtreeInsertCell`). -/
def rtreeUpdateStage2 (fuel : Nat) (rc : RC) (s : EState) (azData : List SqlVal)
    (cell : RtreeCell) (bHaveRowid : Bool) : RC × EState × Option Int :=
  let a0 := azData.getD 0 .null
  let d : RC × EState :=
    if a0.isNotNull then rtreeDeleteRowid fuel s a0.toI64 else (rc, s)
  let rc := d.1
  let s := d.2
  if rc = .ok && decide (azData.length > 1) then
    let nr : RC × EState × Int :=
      if bHaveRowid then (.ok, s, cell.iRowid) else newRowid s
    let rc := nr.1
    let s := nr.2.1
    let cell := { cell with iRowid := nr.2.2 }
    let out := some cell.iRowid
    if rc = .ok then
      let cl := ChooseLeaf fuel s cell 0
      if cl.1 = .ok then
        match cl.2.2 with
        | some pLeaf =>
          let s := { cl.2.1 with iReinsertHeight := -1 }
          let r := rtreeInsertCell fuel s pLeaf cell 0
          let r2 := nodeRelease fuel r.2 (some pLeaf)
          ((if r.1 = .ok then r2.1 else r.1), r2.2, out)
        | none => (.corrupt, cl.2.1, out)
      else (cl.1, cl.2.1, out)
    else (rc, s, out)
  else (rc, s, none)

/-- `rtreeUpdate` (integer-coordinate instance): validate and populate the
new record's coordinates, run the duplicate-rowid check (skipped when the
supplied new rowid equals the non-NULL old rowid), then delete the old
record and insert the new one. -/
def rtreeUpdate (fuel : Nat) (policy : ConflictPolicy) (s : EState) (azData : List SqlVal) :
    RC × EState × Option Int :=
  if azData.length > 1 then
    match populatePairs azData s.cfg.nDim 0 with
    | none => (.constraint, s, none)
    | some coords =>
      let a0 := azData.getD 0 .null
      let a2 := azData.getD 2 .null
      if a2.isNotNull then
        let cell : RtreeCell := { iRowid := a2.toI64, aCoord := coords }
        if !a0.isNotNull || !(a0.toI64 == cell.iRowid) then
          match tabGet s.store.rowidTab cell.iRowid with
          | some _ =>
            if policy = .replace then
              let del := rtreeDeleteRowid fuel s cell.iRowid
              rtreeUpdateStage2 fuel del.1 del.2 azData cell true
            else (.constraint, s, none)
          | none => rtreeUpdateStage2 fuel .ok s azData cell true
        else rtreeUpdateStage2 fuel .ok s azData cell true
      else rtreeUpdateStage2 fuel .ok s azData { iRowid := 0, aCoord := coords } false
  else rtreeUpdateStage2 fuel .ok s azData { iRowid := 0, aCoord := [] } false

/-! ## The Reinsert-invocation discipline (for the temporal claim)

`rlog` collects `(iHeight, iNode)` of every `Reinsert` invocation.
`logOKb r log r'` says the logged heights strictly increase starting above
`r`, no logged node is the root, and the final `iReinsertHeight` is at
least the last height (and at least `r`). -/
def logOKb : Int → List (Int × Int) → Int → Bool
  | r, [], r' => decide (r ≤ r')
  | r, (h, n) :: rest, r' => decide (r < h) && !(n == 1) && logOKb h rest r'

/-- The Reinsert-bookkeeping invariant between two engine states: the
reinsert height does not decrease, and the ghost log grows by a suffix
whose heights climb strictly from the old height to at most the new one
and which never names the root node 1. -/
def StepOK (s t : EState) : Prop :=
  s.iReinsertHeight ≤ t.iReinsertHeight ∧
  ∃ δ, t.rlog = s.rlog ++ δ ∧ logOKb s.iReinsertHeight δ t.iReinsertHeight = true

/-! ## Concrete fixtures used by witnesses and counterexamples -/

/-- Build a node page: depth, cell count, serialized cells, zero padding. -/
def mkNodeBytes (cfg : Config) (depth : Nat) (cells : List RtreeCell) : Bytes :=
  let body := (cells.map (cellBytes cfg)).flatten
  beBytes 2 depth ++ beBytes 2 cells.length ++ body ++
    List.replicate (cfg.iNodeSize - 4 - body.length) 0

/-- A one-dimensional cell. -/
def cellI (r lo hi : Int) : RtreeCell := ⟨r, [lo, hi]⟩

/-- 1-dimensional instance with 112-byte nodes: `nBytesPerCell = 16`,
`M = 6`, `m = RTREE_REINSERT = 2`. -/
def cfgM6 : Config := ⟨112, 1⟩

/-- 1-dimensional instance with 20-byte nodes (model-sized): `M = 1`,
`m = 0`. -/
def cfgM1 : Config := ⟨20, 1⟩

/-- The seven cells gathered by a forced reinsert in the `cfgM6` instance:
the six cells of the overfull leaf plus the new cell. -/
def aCellC1 : List RtreeCell :=
  [cellI 1 0 1, cellI 2 10 11, cellI 3 20 21, cellI 4 30 31,
   cellI 5 40 41, cellI 6 50 51, cellI 7 100 130]

/-- The overfull leaf page holding the first six of `aCellC1`. -/
def leafC1 : Bytes := mkNodeBytes cfgM6 0 (aCellC1.take 6)

/-- Engine state with that leaf in cache as node 2 (allocation id 1). -/
def sC1 : EState :=
  { cfg := cfgM6
    cache := [(1, { iNode := 2, parent := none, nRef := 1, isDirty := false,
                    inHash := true, zData := leafC1 })]
    nextPtr := 2
    store := { nodeTab := [(2, leafC1)], rowidTab := [], parentTab := [], lastRowid := 0 }
    iDepth := 1, iReinsertHeight := 0, pDeleted := [], rlog := [] }

/-- An empty-root state in the `cfgM1` instance (a freshly created tree). -/
def sEmptyM1 : EState :=
  { cfg := cfgM1
    cache := []
    nextPtr := 0
    store := { nodeTab := [(1, mkNodeBytes cfgM1 0 [])], rowidTab := [], parentTab := [],
               lastRowid := 0 }
    iDepth := -1, iReinsertHeight := 0, pDeleted := [], rlog := [] }

/-- A `cfgM1` state whose root is a leaf holding one record (rowid 5). -/
def sOneM1 : EState :=
  { cfg := cfgM1
    cache := []
    nextPtr := 0
    store := { nodeTab := [(1, mkNodeBytes cfgM1 0 [cellI 5 0 0])],
               rowidTab := [(5, some 1)], parentTab := [], lastRowid := 0 }
    iDepth := -1, iReinsertHeight := 0, pDeleted := [], rlog := [] }

/-! # Theorems -/

/-! ## Byte-level lemmas for the codec -/

theorem beBytes_length (w n : Nat) : (beBytes w n).length = w := by
  induction w generalizing n with
  | zero => rfl
  | succ w ih => simp [beBytes, ih]

theorem beVal_aux (l : Bytes) (a : Nat) :
    l.foldl (fun acc b => acc * 256 + b) a = a * 256 ^ l.length + l.foldl (fun acc b => acc * 256 + b) 0 := by
  induction l generalizing a with
  | nil => simp
  | cons x l ih =>
    simp only [List.foldl_cons, List.length_cons]
    rw [ih (a * 256 + x), ih (0 * 256 + x)]
    ring

theorem beVal_beBytes (w n : Nat) : beVal (beBytes w n) = n % 256 ^ w := by
  induction w generalizing n with
  | zero => simp [beBytes, beVal]; omega
  | succ w ih =>
    simp only [beBytes, beVal, List.foldl_cons] at *
    rw [beVal_aux _ (0 * 256 + (n / 256 ^ w % 256)), beBytes_length]
    rw [ih n]
    have h : 256 ^ (w + 1) = 256 ^ w * 256 := by ring
    rw [h, Nat.mod_mul]
    ring

theorem spliceAt_drop (z seg : Bytes) (off : Nat) (h : off ≤ z.length) :
    (spliceAt z off seg).drop off = seg ++ z.drop (off + seg.length) := by
  unfold spliceAt
  rw [List.append_assoc]
  rw [List.drop_append_of_le_length (by simp [List.length_take]; omega)]
  simp [List.length_take]

theorem spliceAt_length (z seg : Bytes) (off : Nat)
    (h : off + seg.length ≤ z.length) : (spliceAt z off seg).length = z.length := by
  unfold spliceAt
  simp [List.length_take, List.length_drop]
  omega

theorem beReadAt_spliceAt (z seg : Bytes) (off k w : Nat)
    (hz : off ≤ z.length) (hk : k + w ≤ seg.length) :
    beReadAt (spliceAt z off seg) (off + k) w = beVal ((seg.drop k).take w) := by
  unfold beReadAt
  rw [← List.drop_drop, spliceAt_drop z seg off hz]
  rw [List.drop_append_of_le_length (by omega)]
  rw [List.take_append_of_le_length (by simp [List.length_drop]; omega)]

theorem int64Bytes_length (i : Int) : (int64Bytes i).length = 8 := beBytes_length 8 _

theorem coordBytes_length (v : Int) : (coordBytes v).length = 4 := beBytes_length 4 _

theorem cellBytes_length (cfg : Config) (c : RtreeCell) :
    (cellBytes cfg c).length = cfg.nBytesPerCell := by
  unfold cellBytes Config.nBytesPerCell
  simp only [List.length_append, int64Bytes_length, List.length_flatten, List.map_map]
  have h : (List.map (List.length ∘ fun ii => coordBytes (c.coord ii)) (List.range (cfg.nDim * 2)))
      = List.map (fun _ => 4) (List.range (cfg.nDim * 2)) := by
    apply List.map_congr_left
    intro a _
    simp [coordBytes_length]
  rw [h]
  simp [List.map_const', List.sum_replicate]
  ring

theorem beVal_int64Bytes (x : Int) : beVal (int64Bytes x) = (x.emod (2 ^ 64)).toNat := by
  unfold int64Bytes
  rw [beVal_beBytes]
  have h1 : 0 ≤ x.emod (2 ^ 64) := Int.emod_nonneg x (by norm_num)
  have h2 : x.emod (2 ^ 64) < 2 ^ 64 := Int.emod_lt_of_pos x (by norm_num)
  have : (x.emod (2 ^ 64)).toNat < 256 ^ 8 := by
    have : ((2 : Int) ^ 64) = ((256 ^ 8 : Nat) : Int) := by norm_num
    omega
  exact Nat.mod_eq_of_lt this

theorem beVal_coordBytes (v : Int) : beVal (coordBytes v) = (v.emod (2 ^ 32)).toNat := by
  unfold coordBytes
  rw [beVal_beBytes]
  have h1 : 0 ≤ v.emod (2 ^ 32) := Int.emod_nonneg v (by norm_num)
  have h2 : v.emod (2 ^ 32) < 2 ^ 32 := Int.emod_lt_of_pos v (by norm_num)
  have : (v.emod (2 ^ 32)).toNat < 256 ^ 4 := by
    have : ((2 : Int) ^ 32) = ((256 ^ 4 : Nat) : Int) := by norm_num
    omega
  exact Nat.mod_eq_of_lt this

theorem signed64_roundtrip (x : Int) (h1 : -2 ^ 63 ≤ x) (h2 : x < 2 ^ 63) :
    (if (x.emod (2 ^ 64)).toNat < 2 ^ 63 then ((x.emod (2 ^ 64)).toNat : Int)
     else ((x.emod (2 ^ 64)).toNat : Int) - 2 ^ 64) = x := by
  have hm : x.emod (2 ^ 64) = x % 18446744073709551616 := by norm_num; rfl
  have e2 : ((2 : Int) ^ 63) = 9223372036854775808 := by norm_num
  have e3 : ((2 : Nat) ^ 63) = 9223372036854775808 := by norm_num
  have e : ((2 : Int) ^ 64) = 18446744073709551616 := by norm_num
  rw [hm, e, e2, e3] at *
  split <;> omega

theorem signed32_roundtrip (v : Int) (h1 : -2 ^ 31 ≤ v) (h2 : v < 2 ^ 31) :
    (if (v.emod (2 ^ 32)).toNat < 2 ^ 31 then ((v.emod (2 ^ 32)).toNat : Int)
     else ((v.emod (2 ^ 32)).toNat : Int) - 2 ^ 32) = v := by
  have hm : v.emod (2 ^ 32) = v % 4294967296 := by norm_num; rfl
  have e2 : ((2 : Int) ^ 31) = 2147483648 := by norm_num
  have e3 : ((2 : Nat) ^ 31) = 2147483648 := by norm_num
  have e : ((2 : Int) ^ 32) = 4294967296 := by norm_num
  rw [hm, e, e2, e3] at *
  split <;> omega

theorem flatten_blocks_slice (blocks : List Bytes) (bw : Nat)
    (hb : ∀ b ∈ blocks, b.length = bw) (ii : Nat) (hii : ii < blocks.length) :
    ((blocks.flatten).drop (bw * ii)).take bw = blocks.getD ii [] := by
  induction blocks generalizing ii with
  | nil => simp at hii
  | cons b bs ih =>
    cases ii with
    | zero =>
      have hbl : b.length = bw := hb b (by simp)
      simp only [Nat.mul_zero, List.drop_zero, List.flatten_cons]
      rw [List.take_append_of_le_length (by omega)]
      simp [List.getD, hbl.symm]
    | succ ii =>
      have hbl : b.length = bw := hb b (by simp)
      have : bw * (ii + 1) = b.length + bw * ii := by rw [hbl]; ring
      simp only [List.flatten_cons, this]
      rw [List.drop_append]
      have := ih (fun x hx => hb x (by simp [hx])) ii (by simpa using hii)
      simpa using this

theorem getD_map_range {α : Type} (f : Nat → α) (n i : Nat) (d : α) (h : i < n) :
    ((List.range n).map f).getD i d = f i := by
  rw [List.getD_eq_getElem?_getD]
  simp [List.getElem?_map, List.getElem?_range, h]

theorem cellBytes_slice_rowid (cfg : Config) (c : RtreeCell) :
    ((cellBytes cfg c).drop 0).take 8 = int64Bytes c.iRowid := by
  unfold cellBytes
  rw [List.drop_zero, List.take_append_of_le_length (by rw [int64Bytes_length])]
  rw [← int64Bytes_length c.iRowid, List.take_length]

theorem cellBytes_slice_coord (cfg : Config) (c : RtreeCell) (ii : Nat)
    (hii : ii < cfg.nDim * 2) :
    ((cellBytes cfg c).drop (8 + 4 * ii)).take 4 = coordBytes (c.coord ii) := by
  unfold cellBytes
  have h8 : 8 + 4 * ii = (int64Bytes c.iRowid).length + 4 * ii := by
    rw [int64Bytes_length]
  rw [h8, List.drop_append]
  have := flatten_blocks_slice ((List.range (cfg.nDim * 2)).map fun ii => coordBytes (c.coord ii)) 4
    (by intro b hb; simp only [List.mem_map] at hb; obtain ⟨a, _, rfl⟩ := hb; exact coordBytes_length _)
    ii (by simpa using hii)
  rw [this, getD_map_range _ _ _ _ hii]

/-- C8 helper: `nodeGetRowid` after `nodeOverwriteCell`. -/
theorem nodeGetRowid_overwrite (cfg : Config) (z : Bytes) (c : RtreeCell) (iCell : Nat)
    (hz : z.length = cfg.iNodeSize)
    (hcap : 4 + cfg.nBytesPerCell * (iCell + 1) ≤ cfg.iNodeSize)
    (hr1 : -2 ^ 63 ≤ c.iRowid) (hr2 : c.iRowid < 2 ^ 63) :
    nodeGetRowid cfg (nodeOverwriteCell cfg z c iCell) iCell = c.iRowid := by
  unfold nodeGetRowid nodeOverwriteCell readInt64
  have hoff : 4 + cfg.nBytesPerCell * iCell ≤ z.length := by
    have hb : 0 < cfg.nBytesPerCell := by unfold Config.nBytesPerCell; omega
    have : cfg.nBytesPerCell * iCell + cfg.nBytesPerCell = cfg.nBytesPerCell * (iCell + 1) := by ring
    omega
  have hread : beReadAt (spliceAt z (4 + cfg.nBytesPerCell * iCell) (cellBytes cfg c))
      (4 + cfg.nBytesPerCell * iCell) 8 = beVal (((cellBytes cfg c).drop 0).take 8) := by
    have := beReadAt_spliceAt z (cellBytes cfg c) (4 + cfg.nBytesPerCell * iCell) 0 8 hoff
      (by rw [cellBytes_length]; unfold Config.nBytesPerCell; omega)
    simpa using this
  simp only [hread, cellBytes_slice_rowid, beVal_int64Bytes]
  exact signed64_roundtrip c.iRowid hr1 hr2

/-- C8 helper: `nodeGetCoord` after `nodeOverwriteCell`. -/
theorem nodeGetCoord_overwrite (cfg : Config) (z : Bytes) (c : RtreeCell) (iCell ii : Nat)
    (hz : z.length = cfg.iNodeSize)
    (hcap : 4 + cfg.nBytesPerCell * (iCell + 1) ≤ cfg.iNodeSize)
    (hii : ii < cfg.nDim * 2)
    (h1 : -2 ^ 31 ≤ c.coord ii) (h2 : c.coord ii < 2 ^ 31) :
    nodeGetCoord cfg (nodeOverwriteCell cfg z c iCell) iCell ii = c.coord ii := by
  unfold nodeGetCoord nodeOverwriteCell readCoordInt
  have hoff : 4 + cfg.nBytesPerCell * iCell ≤ z.length := by
    have hb : 0 < cfg.nBytesPerCell := by unfold Config.nBytesPerCell; omega
    have : cfg.nBytesPerCell * iCell + cfg.nBytesPerCell = cfg.nBytesPerCell * (iCell + 1) := by ring
    omega
  have hof2 : 12 + cfg.nBytesPerCell * iCell + 4 * ii
      = (4 + cfg.nBytesPerCell * iCell) + (8 + 4 * ii) := by ring
  have hread : beReadAt (spliceAt z (4 + cfg.nBytesPerCell * iCell) (cellBytes cfg c))
      (12 + cfg.nBytesPerCell * iCell + 4 * ii) 4
      = beVal (((cellBytes cfg c).drop (8 + 4 * ii)).take 4) := by
    rw [hof2]
    exact beReadAt_spliceAt z (cellBytes cfg c) (4 + cfg.nBytesPerCell * iCell) (8 + 4 * ii) 4 hoff
      (by rw [cellBytes_length]; unfold Config.nBytesPerCell; omega)
  simp only [hread, cellBytes_slice_coord cfg c ii hii, beVal_coordBytes]
  exact signed32_roundtrip _ h1 h2

/-- C8: writing a cell with `nodeOverwriteCell` at a valid slot and reading
it back with `nodeGetCell` returns the rowid and every coordinate
bit-exactly. -/
theorem c8_roundtrip (cfg : Config) (z : Bytes) (c : RtreeCell) (iCell : Nat)
    (hz : z.length = cfg.iNodeSize)
    (hcap : 4 + cfg.nBytesPerCell * (iCell + 1) ≤ cfg.iNodeSize)
    (hcl : c.aCoord.length = cfg.nDim * 2)
    (hco : ∀ v ∈ c.aCoord, -2 ^ 31 ≤ v ∧ v < 2 ^ 31)
    (hr1 : -2 ^ 63 ≤ c.iRowid) (hr2 : c.iRowid < 2 ^ 63) :
    nodeGetCell cfg (nodeOverwriteCell cfg z c iCell) iCell = c := by
  unfold nodeGetCell
  obtain ⟨r, coords⟩ := c
  congr 1
  · exact nodeGetRowid_overwrite cfg z ⟨r, coords⟩ iCell hz hcap hr1 hr2
  · apply List.ext_getElem
    · simpa using hcl.symm
    · intro i hi1 hi2
      have hin : i < cfg.nDim * 2 := by simpa using hi1
      have hmem : coords.getD i 0 ∈ coords := by
        have : coords.getD i 0 = coords[i] := List.getD_eq_getElem coords 0 hi2
        rw [this]
        exact List.getElem_mem hi2
      have hcv := hco _ hmem
      have := nodeGetCoord_overwrite cfg z ⟨r, coords⟩ iCell i hz hcap hin
        (by simpa [RtreeCell.coord] using hcv.1) (by simpa [RtreeCell.coord] using hcv.2)
      simp only [List.getElem_map, List.getElem_range]
      rw [this]
      simp [RtreeCell.coord, List.getD_eq_getElem?_getD, List.getElem?_eq_getElem hi2]

/-- C8: for every cell and every valid cell index of a node, writing the
cell with `nodeOverwriteCell` and reading it back with `nodeGetCell`
yields the original rowid and coordinates bit-exactly (concrete witness
instance of `c8_roundtrip`). -/
theorem c8_roundtrip_witness :
    (leafC1.length = cfgM6.iNodeSize ∧ 4 + cfgM6.nBytesPerCell * (2 + 1) ≤ cfgM6.iNodeSize ∧
      (cellI 9 (-3) 4).aCoord.length = cfgM6.nDim * 2) ∧
    nodeGetCell cfgM6 (nodeOverwriteCell cfgM6 leafC1 (cellI 9 (-3) 4) 2) 2 = cellI 9 (-3) 4 :=
  ⟨⟨by decide, by decide, by decide⟩,
    c8_roundtrip cfgM6 leafC1 (cellI 9 (-3) 4) 2 (by decide) (by decide) (by decide)
      (by decide) (by decide) (by decide)⟩

/-- C10: a node already holding the maximum number of cells reports the
insert as "full" and its byte image is entirely unchanged. -/
theorem c10_insert_full (cfg : Config) (z : Bytes) (c : RtreeCell)
    (h : NCELL z = cfg.maxCell) :
    nodeInsertCell cfg z c = (true, z) := by
  unfold nodeInsertCell
  simp [h]

/-- C10 witness: the one-cell root of the `cfgM1` instance is full
(`M = 1`); inserting another cell reports full and leaves the page
unchanged. -/
theorem c10_insert_full_witness :
    NCELL (mkNodeBytes cfgM1 0 [cellI 5 0 0]) = cfgM1.maxCell ∧
    nodeInsertCell cfgM1 (mkNodeBytes cfgM1 0 [cellI 5 0 0]) (cellI 9 1 2)
      = (true, mkNodeBytes cfgM1 0 [cellI 5 0 0]) :=
  ⟨by decide, c10_insert_full cfgM1 _ _ (by decide)⟩

/-! ## State-field preservation lemmas for the cache primitives -/

@[simp] theorem setNode_cfg (s : EState) (n : Nat) (f : MemNode → MemNode) :
    (s.setNode n f).cfg = s.cfg := rfl
@[simp] theorem setNode_nextPtr (s : EState) (n : Nat) (f : MemNode → MemNode) :
    (s.setNode n f).nextPtr = s.nextPtr := rfl
@[simp] theorem setNode_store (s : EState) (n : Nat) (f : MemNode → MemNode) :
    (s.setNode n f).store = s.store := rfl
@[simp] theorem setNode_iDepth (s : EState) (n : Nat) (f : MemNode → MemNode) :
    (s.setNode n f).iDepth = s.iDepth := rfl
@[simp] theorem setNode_iReinsertHeight (s : EState) (n : Nat) (f : MemNode → MemNode) :
    (s.setNode n f).iReinsertHeight = s.iReinsertHeight := rfl
@[simp] theorem setNode_pDeleted (s : EState) (n : Nat) (f : MemNode → MemNode) :
    (s.setNode n f).pDeleted = s.pDeleted := rfl
@[simp] theorem setNode_rlog (s : EState) (n : Nat) (f : MemNode → MemNode) :
    (s.setNode n f).rlog = s.rlog := rfl

@[simp] theorem freeNode_cfg (s : EState) (n : Nat) : (s.freeNode n).cfg = s.cfg := rfl
@[simp] theorem freeNode_nextPtr (s : EState) (n : Nat) : (s.freeNode n).nextPtr = s.nextPtr := rfl
@[simp] theorem freeNode_store (s : EState) (n : Nat) : (s.freeNode n).store = s.store := rfl
@[simp] theorem freeNode_iDepth (s : EState) (n : Nat) : (s.freeNode n).iDepth = s.iDepth := rfl
@[simp] theorem freeNode_iReinsertHeight (s : EState) (n : Nat) :
    (s.freeNode n).iReinsertHeight = s.iReinsertHeight := rfl
@[simp] theorem freeNode_pDeleted (s : EState) (n : Nat) :
    (s.freeNode n).pDeleted = s.pDeleted := rfl
@[simp] theorem freeNode_rlog (s : EState) (n : Nat) : (s.freeNode n).rlog = s.rlog := rfl

@[simp] theorem nodeHashInsert_cfg (s : EState) (n : Nat) : (nodeHashInsert s n).cfg = s.cfg := rfl
@[simp] theorem nodeHashInsert_nextPtr (s : EState) (n : Nat) :
    (nodeHashInsert s n).nextPtr = s.nextPtr := rfl
@[simp] theorem nodeHashInsert_store (s : EState) (n : Nat) :
    (nodeHashInsert s n).store = s.store := rfl
@[simp] theorem nodeHashInsert_iDepth (s : EState) (n : Nat) :
    (nodeHashInsert s n).iDepth = s.iDepth := rfl
@[simp] theorem nodeHashInsert_iReinsertHeight (s : EState) (n : Nat) :
    (nodeHashInsert s n).iReinsertHeight = s.iReinsertHeight := rfl
@[simp] theorem nodeHashInsert_pDeleted (s : EState) (n : Nat) :
    (nodeHashInsert s n).pDeleted = s.pDeleted := rfl
@[simp] theorem nodeHashInsert_rlog (s : EState) (n : Nat) :
    (nodeHashInsert s n).rlog = s.rlog := rfl

@[simp] theorem nodeHashDelete_cfg (s : EState) (n : Nat) : (nodeHashDelete s n).cfg = s.cfg := rfl
@[simp] theorem nodeHashDelete_nextPtr (s : EState) (n : Nat) :
    (nodeHashDelete s n).nextPtr = s.nextPtr := rfl
@[simp] theorem nodeHashDelete_store (s : EState) (n : Nat) :
    (nodeHashDelete s n).store = s.store := rfl
@[simp] theorem nodeHashDelete_iDepth (s : EState) (n : Nat) :
    (nodeHashDelete s n).iDepth = s.iDepth := rfl
@[simp] theorem nodeHashDelete_iReinsertHeight (s : EState) (n : Nat) :
    (nodeHashDelete s n).iReinsertHeight = s.iReinsertHeight := rfl
@[simp] theorem nodeHashDelete_pDeleted (s : EState) (n : Nat) :
    (nodeHashDelete s n).pDeleted = s.pDeleted := rfl
@[simp] theorem nodeHashDelete_rlog (s : EState) (n : Nat) :
    (nodeHashDelete s n).rlog = s.rlog := rfl

@[simp] theorem nodeReference_cfg (s : EState) (p : Option Nat) :
    (nodeReference s p).cfg = s.cfg := by cases p <;> rfl
@[simp] theorem nodeReference_nextPtr (s : EState) (p : Option Nat) :
    (nodeReference s p).nextPtr = s.nextPtr := by cases p <;> rfl
@[simp] theorem nodeReference_store (s : EState) (p : Option Nat) :
    (nodeReference s p).store = s.store := by cases p <;> rfl
@[simp] theorem nodeReference_iDepth (s : EState) (p : Option Nat) :
    (nodeReference s p).iDepth = s.iDepth := by cases p <;> rfl
@[simp] theorem nodeReference_iReinsertHeight (s : EState) (p : Option Nat) :
    (nodeReference s p).iReinsertHeight = s.iReinsertHeight := by cases p <;> rfl
@[simp] theorem nodeReference_pDeleted (s : EState) (p : Option Nat) :
    (nodeReference s p).pDeleted = s.pDeleted := by cases p <;> rfl
@[simp] theorem nodeReference_rlog (s : EState) (p : Option Nat) :
    (nodeReference s p).rlog = s.rlog := by cases p <;> rfl

@[simp] theorem nodeNew_cfg (s : EState) (p : Option Nat) : (nodeNew s p).2.cfg = s.cfg := by
  unfold nodeNew; simp
@[simp] theorem nodeNew_store (s : EState) (p : Option Nat) : (nodeNew s p).2.store = s.store := by
  unfold nodeNew; simp
@[simp] theorem nodeNew_iDepth (s : EState) (p : Option Nat) :
    (nodeNew s p).2.iDepth = s.iDepth := by unfold nodeNew; simp
@[simp] theorem nodeNew_iReinsertHeight (s : EState) (p : Option Nat) :
    (nodeNew s p).2.iReinsertHeight = s.iReinsertHeight := by unfold nodeNew; simp
@[simp] theorem nodeNew_pDeleted (s : EState) (p : Option Nat) :
    (nodeNew s p).2.pDeleted = s.pDeleted := by unfold nodeNew; simp
@[simp] theorem nodeNew_rlog (s : EState) (p : Option Nat) : (nodeNew s p).2.rlog = s.rlog := by
  unfold nodeNew; simp

@[simp] theorem nodeWrite_cfg (s : EState) (n : Nat) : (nodeWrite s n).2.cfg = s.cfg := by
  unfold nodeWrite; split <;> [rfl; skip] <;> split <;> [split <;> simp; rfl]
@[simp] theorem nodeWrite_nextPtr (s : EState) (n : Nat) :
    (nodeWrite s n).2.nextPtr = s.nextPtr := by
  unfold nodeWrite; split <;> [rfl; skip] <;> split <;> [split <;> simp; rfl]
@[simp] theorem nodeWrite_iDepth (s : EState) (n : Nat) :
    (nodeWrite s n).2.iDepth = s.iDepth := by
  unfold nodeWrite; split <;> [rfl; skip] <;> split <;> [split <;> simp; rfl]
@[simp] theorem nodeWrite_iReinsertHeight (s : EState) (n : Nat) :
    (nodeWrite s n).2.iReinsertHeight = s.iReinsertHeight := by
  unfold nodeWrite; split <;> [rfl; skip] <;> split <;> [split <;> simp; rfl]
@[simp] theorem nodeWrite_pDeleted (s : EState) (n : Nat) :
    (nodeWrite s n).2.pDeleted = s.pDeleted := by
  unfold nodeWrite; split <;> [rfl; skip] <;> split <;> [split <;> simp; rfl]
@[simp] theorem nodeWrite_rlog (s : EState) (n : Nat) : (nodeWrite s n).2.rlog = s.rlog := by
  unfold nodeWrite; split <;> [rfl; skip] <;> split <;> [split <;> simp; rfl]

theorem nodeRelease_ctl (fuel : Nat) (s : EState) (nid : Option Nat) :
    (nodeRelease fuel s nid).2.cfg = s.cfg ∧
    (nodeRelease fuel s nid).2.nextPtr = s.nextPtr ∧
    (nodeRelease fuel s nid).2.iReinsertHeight = s.iReinsertHeight ∧
    (nodeRelease fuel s nid).2.pDeleted = s.pDeleted ∧
    (nodeRelease fuel s nid).2.rlog = s.rlog := by
  induction fuel generalizing s nid with
  | zero => simp [nodeRelease]
  | succ fuel ih =>
    unfold nodeRelease
    split
    · simp
    · split
      · simp
      · split
        · rename_i p node hnode href
          set s1 : EState := if node.iNode == 1 then { s with iDepth := -1 } else s with hs1
          have hc : s1.cfg = s.cfg := by rw [hs1]; split <;> rfl
          have hn : s1.nextPtr = s.nextPtr := by rw [hs1]; split <;> rfl
          have hr : s1.iReinsertHeight = s.iReinsertHeight := by rw [hs1]; split <;> rfl
          have hd : s1.pDeleted = s.pDeleted := by rw [hs1]; split <;> rfl
          have hg : s1.rlog = s.rlog := by rw [hs1]; split <;> rfl
          rcases hpar : node.parent with _ | q
          · refine ⟨?_, ?_, ?_, ?_, ?_⟩ <;>
              simp only [hpar, freeNode_cfg, freeNode_nextPtr, freeNode_iReinsertHeight,
                freeNode_pDeleted, freeNode_rlog, nodeHashDelete_cfg, nodeHashDelete_nextPtr,
                nodeHashDelete_iReinsertHeight, nodeHashDelete_pDeleted, nodeHashDelete_rlog,
                if_pos, nodeWrite_cfg, nodeWrite_nextPtr, nodeWrite_iReinsertHeight,
                nodeWrite_pDeleted, nodeWrite_rlog, hc, hn, hr, hd, hg]
          · obtain ⟨i1, i2, i3, i4, i5⟩ := ih s1 (some q)
            rw [hc] at i1
            rw [hn] at i2
            rw [hr] at i3
            rw [hd] at i4
            rw [hg] at i5
            refine ⟨?_, ?_, ?_, ?_, ?_⟩ <;>
              (simp only [hpar, freeNode_cfg, freeNode_nextPtr, freeNode_iReinsertHeight,
                 freeNode_pDeleted, freeNode_rlog, nodeHashDelete_cfg, nodeHashDelete_nextPtr,
                 nodeHashDelete_iReinsertHeight, nodeHashDelete_pDeleted, nodeHashDelete_rlog];
               split <;>
                 simp only [nodeWrite_cfg, nodeWrite_nextPtr, nodeWrite_iReinsertHeight,
                   nodeWrite_pDeleted, nodeWrite_rlog, i1, i2, i3, i4, i5])
        · simp

@[simp] theorem nodeRelease_cfg (fuel : Nat) (s : EState) (nid : Option Nat) :
    (nodeRelease fuel s nid).2.cfg = s.cfg := (nodeRelease_ctl fuel s nid).1
@[simp] theorem nodeRelease_nextPtr (fuel : Nat) (s : EState) (nid : Option Nat) :
    (nodeRelease fuel s nid).2.nextPtr = s.nextPtr := (nodeRelease_ctl fuel s nid).2.1
@[simp] theorem nodeRelease_iReinsertHeight (fuel : Nat) (s : EState) (nid : Option Nat) :
    (nodeRelease fuel s nid).2.iReinsertHeight = s.iReinsertHeight :=
  (nodeRelease_ctl fuel s nid).2.2.1
@[simp] theorem nodeRelease_pDeleted (fuel : Nat) (s : EState) (nid : Option Nat) :
    (nodeRelease fuel s nid).2.pDeleted = s.pDeleted := (nodeRelease_ctl fuel s nid).2.2.2.1
@[simp] theorem nodeRelease_rlog (fuel : Nat) (s : EState) (nid : Option Nat) :
    (nodeRelease fuel s nid).2.rlog = s.rlog := (nodeRelease_ctl fuel s nid).2.2.2.2

@[simp] theorem rowidWrite_cfg (s : EState) (a b : Int) : (rowidWrite s a b).2.cfg = s.cfg := rfl
@[simp] theorem rowidWrite_nextPtr (s : EState) (a b : Int) :
    (rowidWrite s a b).2.nextPtr = s.nextPtr := rfl
@[simp] theorem rowidWrite_cache (s : EState) (a b : Int) :
    (rowidWrite s a b).2.cache = s.cache := rfl
@[simp] theorem rowidWrite_iDepth (s : EState) (a b : Int) :
    (rowidWrite s a b).2.iDepth = s.iDepth := rfl
@[simp] theorem rowidWrite_iReinsertHeight (s : EState) (a b : Int) :
    (rowidWrite s a b).2.iReinsertHeight = s.iReinsertHeight := rfl
@[simp] theorem rowidWrite_pDeleted (s : EState) (a b : Int) :
    (rowidWrite s a b).2.pDeleted = s.pDeleted := rfl
@[simp] theorem rowidWrite_rlog (s : EState) (a b : Int) : (rowidWrite s a b).2.rlog = s.rlog := rfl
@[simp] theorem rowidWrite_rc (s : EState) (a b : Int) : (rowidWrite s a b).1 = .ok := rfl

@[simp] theorem parentWrite_cfg (s : EState) (a b : Int) : (parentWrite s a b).2.cfg = s.cfg := rfl
@[simp] theorem parentWrite_nextPtr (s : EState) (a b : Int) :
    (parentWrite s a b).2.nextPtr = s.nextPtr := rfl
@[simp] theorem parentWrite_cache (s : EState) (a b : Int) :
    (parentWrite s a b).2.cache = s.cache := rfl
@[simp] theorem parentWrite_iDepth (s : EState) (a b : Int) :
    (parentWrite s a b).2.iDepth = s.iDepth := rfl
@[simp] theorem parentWrite_iReinsertHeight (s : EState) (a b : Int) :
    (parentWrite s a b).2.iReinsertHeight = s.iReinsertHeight := rfl
@[simp] theorem parentWrite_pDeleted (s : EState) (a b : Int) :
    (parentWrite s a b).2.pDeleted = s.pDeleted := rfl
@[simp] theorem parentWrite_rlog (s : EState) (a b : Int) :
    (parentWrite s a b).2.rlog = s.rlog := rfl
@[simp] theorem parentWrite_rc (s : EState) (a b : Int) : (parentWrite s a b).1 = .ok := rfl

@[simp] theorem newRowid_cfg (s : EState) : (newRowid s).2.1.cfg = s.cfg := rfl
@[simp] theorem newRowid_nextPtr (s : EState) : (newRowid s).2.1.nextPtr = s.nextPtr := rfl
@[simp] theorem newRowid_cache (s : EState) : (newRowid s).2.1.cache = s.cache := rfl
@[simp] theorem newRowid_iDepth (s : EState) : (newRowid s).2.1.iDepth = s.iDepth := rfl
@[simp] theorem newRowid_iReinsertHeight (s : EState) :
    (newRowid s).2.1.iReinsertHeight = s.iReinsertHeight := rfl
@[simp] theorem newRowid_pDeleted (s : EState) : (newRowid s).2.1.pDeleted = s.pDeleted := rfl
@[simp] theorem newRowid_rlog (s : EState) : (newRowid s).2.1.rlog = s.rlog := rfl
@[simp] theorem newRowid_rc (s : EState) : (newRowid s).1 = .ok := rfl

@[simp] theorem nodeOverwriteCellM_cfg (s : EState) (n : Nat) (c : RtreeCell) (i : Nat) :
    (nodeOverwriteCellM s n c i).cfg = s.cfg := rfl
@[simp] theorem nodeOverwriteCellM_nextPtr (s : EState) (n : Nat) (c : RtreeCell) (i : Nat) :
    (nodeOverwriteCellM s n c i).nextPtr = s.nextPtr := rfl
@[simp] theorem nodeOverwriteCellM_store (s : EState) (n : Nat) (c : RtreeCell) (i : Nat) :
    (nodeOverwriteCellM s n c i).store = s.store := rfl
@[simp] theorem nodeOverwriteCellM_iDepth (s : EState) (n : Nat) (c : RtreeCell) (i : Nat) :
    (nodeOverwriteCellM s n c i).iDepth = s.iDepth := rfl
@[simp] theorem nodeOverwriteCellM_iReinsertHeight (s : EState) (n : Nat) (c : RtreeCell)
    (i : Nat) : (nodeOverwriteCellM s n c i).iReinsertHeight = s.iReinsertHeight := rfl
@[simp] theorem nodeOverwriteCellM_pDeleted (s : EState) (n : Nat) (c : RtreeCell) (i : Nat) :
    (nodeOverwriteCellM s n c i).pDeleted = s.pDeleted := rfl
@[simp] theorem nodeOverwriteCellM_rlog (s : EState) (n : Nat) (c : RtreeCell) (i : Nat) :
    (nodeOverwriteCellM s n c i).rlog = s.rlog := rfl

@[simp] theorem nodeInsertCellM_cfg (s : EState) (n : Nat) (c : RtreeCell) :
    (nodeInsertCellM s n c).2.cfg = s.cfg := by
  unfold nodeInsertCellM; split <;> [rfl; (dsimp only; split <;> rfl)]
@[simp] theorem nodeInsertCellM_nextPtr (s : EState) (n : Nat) (c : RtreeCell) :
    (nodeInsertCellM s n c).2.nextPtr = s.nextPtr := by
  unfold nodeInsertCellM; split <;> [rfl; (dsimp only; split <;> rfl)]
@[simp] theorem nodeInsertCellM_store (s : EState) (n : Nat) (c : RtreeCell) :
    (nodeInsertCellM s n c).2.store = s.store := by
  unfold nodeInsertCellM; split <;> [rfl; (dsimp only; split <;> rfl)]
@[simp] theorem nodeInsertCellM_iDepth (s : EState) (n : Nat) (c : RtreeCell) :
    (nodeInsertCellM s n c).2.iDepth = s.iDepth := by
  unfold nodeInsertCellM; split <;> [rfl; (dsimp only; split <;> rfl)]
@[simp] theorem nodeInsertCellM_iReinsertHeight (s : EState) (n : Nat) (c : RtreeCell) :
    (nodeInsertCellM s n c).2.iReinsertHeight = s.iReinsertHeight := by
  unfold nodeInsertCellM; split <;> [rfl; (dsimp only; split <;> rfl)]
@[simp] theorem nodeInsertCellM_pDeleted (s : EState) (n : Nat) (c : RtreeCell) :
    (nodeInsertCellM s n c).2.pDeleted = s.pDeleted := by
  unfold nodeInsertCellM; split <;> [rfl; (dsimp only; split <;> rfl)]
@[simp] theorem nodeInsertCellM_rlog (s : EState) (n : Nat) (c : RtreeCell) :
    (nodeInsertCellM s n c).2.rlog = s.rlog := by
  unfold nodeInsertCellM; split <;> [rfl; (dsimp only; split <;> rfl)]

@[simp] theorem nodeZeroM_cfg (s : EState) (n : Nat) : (nodeZeroM s n).cfg = s.cfg := rfl
@[simp] theorem nodeZeroM_nextPtr (s : EState) (n : Nat) :
    (nodeZeroM s n).nextPtr = s.nextPtr := rfl
@[simp] theorem nodeZeroM_store (s : EState) (n : Nat) : (nodeZeroM s n).store = s.store := rfl
@[simp] theorem nodeZeroM_iDepth (s : EState) (n : Nat) : (nodeZeroM s n).iDepth = s.iDepth := rfl
@[simp] theorem nodeZeroM_iReinsertHeight (s : EState) (n : Nat) :
    (nodeZeroM s n).iReinsertHeight = s.iReinsertHeight := rfl
@[simp] theorem nodeZeroM_pDeleted (s : EState) (n : Nat) :
    (nodeZeroM s n).pDeleted = s.pDeleted := rfl
@[simp] theorem nodeZeroM_rlog (s : EState) (n : Nat) : (nodeZeroM s n).rlog = s.rlog := rfl

@[simp] theorem nodeDeleteCellM_cfg (s : EState) (n i : Nat) :
    (nodeDeleteCellM s n i).cfg = s.cfg := rfl
@[simp] theorem nodeDeleteCellM_iReinsertHeight (s : EState) (n i : Nat) :
    (nodeDeleteCellM s n i).iReinsertHeight = s.iReinsertHeight := rfl
@[simp] theorem nodeDeleteCellM_rlog (s : EState) (n i : Nat) :
    (nodeDeleteCellM s n i).rlog = s.rlog := rfl
@[simp] theorem nodeDeleteCellM_store (s : EState) (n i : Nat) :
    (nodeDeleteCellM s n i).store = s.store := rfl

theorem nodeAcquire_ctl (s : EState) (iNode : Int) (pParent : Option Nat) :
    (nodeAcquire s iNode pParent).2.1.cfg = s.cfg ∧
    (nodeAcquire s iNode pParent).2.1.store = s.store ∧
    (nodeAcquire s iNode pParent).2.1.iReinsertHeight = s.iReinsertHeight ∧
    (nodeAcquire s iNode pParent).2.1.pDeleted = s.pDeleted ∧
    (nodeAcquire s iNode pParent).2.1.rlog = s.rlog := by
  unfold nodeAcquire
  (repeat' split) <;> simp <;> (repeat' split) <;> simp

@[simp] theorem nodeAcquire_cfg (s : EState) (iNode : Int) (pParent : Option Nat) :
    (nodeAcquire s iNode pParent).2.1.cfg = s.cfg := (nodeAcquire_ctl s iNode pParent).1
@[simp] theorem nodeAcquire_store (s : EState) (iNode : Int) (pParent : Option Nat) :
    (nodeAcquire s iNode pParent).2.1.store = s.store := (nodeAcquire_ctl s iNode pParent).2.1
@[simp] theorem nodeAcquire_iReinsertHeight (s : EState) (iNode : Int) (pParent : Option Nat) :
    (nodeAcquire s iNode pParent).2.1.iReinsertHeight = s.iReinsertHeight :=
  (nodeAcquire_ctl s iNode pParent).2.2.1
@[simp] theorem nodeAcquire_pDeleted (s : EState) (iNode : Int) (pParent : Option Nat) :
    (nodeAcquire s iNode pParent).2.1.pDeleted = s.pDeleted :=
  (nodeAcquire_ctl s iNode pParent).2.2.2.1
@[simp] theorem nodeAcquire_rlog (s : EState) (iNode : Int) (pParent : Option Nat) :
    (nodeAcquire s iNode pParent).2.1.rlog = s.rlog := (nodeAcquire_ctl s iNode pParent).2.2.2.2

theorem AdjustTree_ctl (fuel : Nat) (s : EState) (nid : Nat) (c : RtreeCell) :
    (AdjustTree fuel s nid c).2.cfg = s.cfg ∧
    (AdjustTree fuel s nid c).2.nextPtr = s.nextPtr ∧
    (AdjustTree fuel s nid c).2.store = s.store ∧
    (AdjustTree fuel s nid c).2.iDepth = s.iDepth ∧
    (AdjustTree fuel s nid c).2.iReinsertHeight = s.iReinsertHeight ∧
    (AdjustTree fuel s nid c).2.pDeleted = s.pDeleted ∧
    (AdjustTree fuel s nid c).2.rlog = s.rlog := by
  induction fuel generalizing s nid with
  | zero => simp [AdjustTree]
  | succ fuel ih =>
    have i1 : ∀ s' n', (AdjustTree fuel s' n' c).2.cfg = s'.cfg := fun a b => (ih a b).1
    have i2 : ∀ s' n', (AdjustTree fuel s' n' c).2.nextPtr = s'.nextPtr := fun a b => (ih a b).2.1
    have i3 : ∀ s' n', (AdjustTree fuel s' n' c).2.store = s'.store := fun a b => (ih a b).2.2.1
    have i4 : ∀ s' n', (AdjustTree fuel s' n' c).2.iDepth = s'.iDepth := fun a b => (ih a b).2.2.2.1
    have i5 : ∀ s' n', (AdjustTree fuel s' n' c).2.iReinsertHeight = s'.iReinsertHeight :=
      fun a b => (ih a b).2.2.2.2.1
    have i6 : ∀ s' n', (AdjustTree fuel s' n' c).2.pDeleted = s'.pDeleted :=
      fun a b => (ih a b).2.2.2.2.2.1
    have i7 : ∀ s' n', (AdjustTree fuel s' n' c).2.rlog = s'.rlog :=
      fun a b => (ih a b).2.2.2.2.2.2
    unfold AdjustTree
    (repeat' split) <;> (try refine ⟨?_, ?_, ?_, ?_, ?_, ?_, ?_⟩) <;>
      (try simp [i1, i2, i3, i4, i5, i6, i7]) <;> (try split <;> simp [i1, i2, i3, i4, i5, i6, i7])

@[simp] theorem AdjustTree_cfg (fuel : Nat) (s : EState) (nid : Nat) (c : RtreeCell) :
    (AdjustTree fuel s nid c).2.cfg = s.cfg := (AdjustTree_ctl fuel s nid c).1
@[simp] theorem AdjustTree_nextPtr (fuel : Nat) (s : EState) (nid : Nat) (c : RtreeCell) :
    (AdjustTree fuel s nid c).2.nextPtr = s.nextPtr := (AdjustTree_ctl fuel s nid c).2.1
@[simp] theorem AdjustTree_store (fuel : Nat) (s : EState) (nid : Nat) (c : RtreeCell) :
    (AdjustTree fuel s nid c).2.store = s.store := (AdjustTree_ctl fuel s nid c).2.2.1
@[simp] theorem AdjustTree_iDepth (fuel : Nat) (s : EState) (nid : Nat) (c : RtreeCell) :
    (AdjustTree fuel s nid c).2.iDepth = s.iDepth := (AdjustTree_ctl fuel s nid c).2.2.2.1
@[simp] theorem AdjustTree_iReinsertHeight (fuel : Nat) (s : EState) (nid : Nat) (c : RtreeCell) :
    (AdjustTree fuel s nid c).2.iReinsertHeight = s.iReinsertHeight :=
  (AdjustTree_ctl fuel s nid c).2.2.2.2.1
@[simp] theorem AdjustTree_pDeleted (fuel : Nat) (s : EState) (nid : Nat) (c : RtreeCell) :
    (AdjustTree fuel s nid c).2.pDeleted = s.pDeleted :=
  (AdjustTree_ctl fuel s nid c).2.2.2.2.2.1
@[simp] theorem AdjustTree_rlog (fuel : Nat) (s : EState) (nid : Nat) (c : RtreeCell) :
    (AdjustTree fuel s nid c).2.rlog = s.rlog := (AdjustTree_ctl fuel s nid c).2.2.2.2.2.2

theorem fixBoundingBox_ctl (fuel : Nat) (s : EState) (nid : Nat) :
    (fixBoundingBox fuel s nid).2.cfg = s.cfg ∧
    (fixBoundingBox fuel s nid).2.nextPtr = s.nextPtr ∧
    (fixBoundingBox fuel s nid).2.store = s.store ∧
    (fixBoundingBox fuel s nid).2.iDepth = s.iDepth ∧
    (fixBoundingBox fuel s nid).2.iReinsertHeight = s.iReinsertHeight ∧
    (fixBoundingBox fuel s nid).2.pDeleted = s.pDeleted ∧
    (fixBoundingBox fuel s nid).2.rlog = s.rlog := by
  induction fuel generalizing s nid with
  | zero => simp [fixBoundingBox]
  | succ fuel ih =>
    have i1 : ∀ s' n', (fixBoundingBox fuel s' n').2.cfg = s'.cfg := fun a b => (ih a b).1
    have i2 : ∀ s' n', (fixBoundingBox fuel s' n').2.nextPtr = s'.nextPtr := fun a b => (ih a b).2.1
    have i3 : ∀ s' n', (fixBoundingBox fuel s' n').2.store = s'.store := fun a b => (ih a b).2.2.1
    have i4 : ∀ s' n', (fixBoundingBox fuel s' n').2.iDepth = s'.iDepth :=
      fun a b => (ih a b).2.2.2.1
    have i5 : ∀ s' n', (fixBoundingBox fuel s' n').2.iReinsertHeight = s'.iReinsertHeight :=
      fun a b => (ih a b).2.2.2.2.1
    have i6 : ∀ s' n', (fixBoundingBox fuel s' n').2.pDeleted = s'.pDeleted :=
      fun a b => (ih a b).2.2.2.2.2.1
    have i7 : ∀ s' n', (fixBoundingBox fuel s' n').2.rlog = s'.rlog :=
      fun a b => (ih a b).2.2.2.2.2.2
    unfold fixBoundingBox
    (repeat' split) <;> (try refine ⟨?_, ?_, ?_, ?_, ?_, ?_, ?_⟩) <;>
      (try simp [i1, i2, i3, i4, i5, i6, i7]) <;> (try split <;> simp [i1, i2, i3, i4, i5, i6, i7])

@[simp] theorem fixBoundingBox_cfg (fuel : Nat) (s : EState) (nid : Nat) :
    (fixBoundingBox fuel s nid).2.cfg = s.cfg := (fixBoundingBox_ctl fuel s nid).1
@[simp] theorem fixBoundingBox_nextPtr (fuel : Nat) (s : EState) (nid : Nat) :
    (fixBoundingBox fuel s nid).2.nextPtr = s.nextPtr := (fixBoundingBox_ctl fuel s nid).2.1
@[simp] theorem fixBoundingBox_store (fuel : Nat) (s : EState) (nid : Nat) :
    (fixBoundingBox fuel s nid).2.store = s.store := (fixBoundingBox_ctl fuel s nid).2.2.1
@[simp] theorem fixBoundingBox_iDepth (fuel : Nat) (s : EState) (nid : Nat) :
    (fixBoundingBox fuel s nid).2.iDepth = s.iDepth := (fixBoundingBox_ctl fuel s nid).2.2.2.1
@[simp] theorem fixBoundingBox_iReinsertHeight (fuel : Nat) (s : EState) (nid : Nat) :
    (fixBoundingBox fuel s nid).2.iReinsertHeight = s.iReinsertHeight :=
  (fixBoundingBox_ctl fuel s nid).2.2.2.2.1
@[simp] theorem fixBoundingBox_pDeleted (fuel : Nat) (s : EState) (nid : Nat) :
    (fixBoundingBox fuel s nid).2.pDeleted = s.pDeleted :=
  (fixBoundingBox_ctl fuel s nid).2.2.2.2.2.1
@[simp] theorem fixBoundingBox_rlog (fuel : Nat) (s : EState) (nid : Nat) :
    (fixBoundingBox fuel s nid).2.rlog = s.rlog := (fixBoundingBox_ctl fuel s nid).2.2.2.2.2.2

theorem ChooseLeafLoop_ctl (pCell : RtreeCell) (iHeight : Int) (fuel : Nat) (ii : Int) (rc : RC)
    (s : EState) (pNode : Option Nat) :
    (ChooseLeafLoop pCell iHeight fuel ii rc s pNode).2.1.cfg = s.cfg ∧
    (ChooseLeafLoop pCell iHeight fuel ii rc s pNode).2.1.iReinsertHeight = s.iReinsertHeight ∧
    (ChooseLeafLoop pCell iHeight fuel ii rc s pNode).2.1.pDeleted = s.pDeleted ∧
    (ChooseLeafLoop pCell iHeight fuel ii rc s pNode).2.1.rlog = s.rlog := by
  induction fuel generalizing ii rc s pNode with
  | zero => unfold ChooseLeafLoop; split <;> simp
  | succ fuel ih =>
    have i1 : ∀ a b c d, (ChooseLeafLoop pCell iHeight fuel a b c d).2.1.cfg = c.cfg :=
      fun a b c d => (ih a b c d).1
    have i2 : ∀ a b c d, (ChooseLeafLoop pCell iHeight fuel a b c d).2.1.iReinsertHeight
        = c.iReinsertHeight := fun a b c d => (ih a b c d).2.1
    have i3 : ∀ a b c d, (ChooseLeafLoop pCell iHeight fuel a b c d).2.1.pDeleted = c.pDeleted :=
      fun a b c d => (ih a b c d).2.2.1
    have i4 : ∀ a b c d, (ChooseLeafLoop pCell iHeight fuel a b c d).2.1.rlog = c.rlog :=
      fun a b c d => (ih a b c d).2.2.2
    unfold ChooseLeafLoop
    (repeat' split) <;> (try refine ⟨?_, ?_, ?_, ?_⟩) <;>
      (try simp [i1, i2, i3, i4]) <;> (try split <;> simp [i1, i2, i3, i4])

@[simp] theorem ChooseLeafLoop_cfg (pCell : RtreeCell) (iHeight : Int) (fuel : Nat) (ii : Int)
    (rc : RC) (s : EState) (pNode : Option Nat) :
    (ChooseLeafLoop pCell iHeight fuel ii rc s pNode).2.1.cfg = s.cfg :=
  (ChooseLeafLoop_ctl pCell iHeight fuel ii rc s pNode).1
@[simp] theorem ChooseLeafLoop_iReinsertHeight (pCell : RtreeCell) (iHeight : Int) (fuel : Nat)
    (ii : Int) (rc : RC) (s : EState) (pNode : Option Nat) :
    (ChooseLeafLoop pCell iHeight fuel ii rc s pNode).2.1.iReinsertHeight = s.iReinsertHeight :=
  (ChooseLeafLoop_ctl pCell iHeight fuel ii rc s pNode).2.1
@[simp] theorem ChooseLeafLoop_pDeleted (pCell : RtreeCell) (iHeight : Int) (fuel : Nat)
    (ii : Int) (rc : RC) (s : EState) (pNode : Option Nat) :
    (ChooseLeafLoop pCell iHeight fuel ii rc s pNode).2.1.pDeleted = s.pDeleted :=
  (ChooseLeafLoop_ctl pCell iHeight fuel ii rc s pNode).2.2.1
@[simp] theorem ChooseLeafLoop_rlog (pCell : RtreeCell) (iHeight : Int) (fuel : Nat) (ii : Int)
    (rc : RC) (s : EState) (pNode : Option Nat) :
    (ChooseLeafLoop pCell iHeight fuel ii rc s pNode).2.1.rlog = s.rlog :=
  (ChooseLeafLoop_ctl pCell iHeight fuel ii rc s pNode).2.2.2

@[simp] theorem ChooseLeaf_cfg (fuel : Nat) (s : EState) (pCell : RtreeCell) (iHeight : Int) :
    (ChooseLeaf fuel s pCell iHeight).2.1.cfg = s.cfg := by
  unfold ChooseLeaf; simp
@[simp] theorem ChooseLeaf_iReinsertHeight (fuel : Nat) (s : EState) (pCell : RtreeCell)
    (iHeight : Int) :
    (ChooseLeaf fuel s pCell iHeight).2.1.iReinsertHeight = s.iReinsertHeight := by
  unfold ChooseLeaf; simp
@[simp] theorem ChooseLeaf_pDeleted (fuel : Nat) (s : EState) (pCell : RtreeCell)
    (iHeight : Int) : (ChooseLeaf fuel s pCell iHeight).2.1.pDeleted = s.pDeleted := by
  unfold ChooseLeaf; simp
@[simp] theorem ChooseLeaf_rlog (fuel : Nat) (s : EState) (pCell : RtreeCell) (iHeight : Int) :
    (ChooseLeaf fuel s pCell iHeight).2.1.rlog = s.rlog := by
  unfold ChooseLeaf; simp

theorem updateMapping_ctl (fuel : Nat) (s : EState) (iRowid : Int) (nid : Nat) (iHeight : Int) :
    (updateMapping fuel s iRowid nid iHeight).2.cfg = s.cfg ∧
    (updateMapping fuel s iRowid nid iHeight).2.nextPtr = s.nextPtr ∧
    (updateMapping fuel s iRowid nid iHeight).2.iReinsertHeight = s.iReinsertHeight ∧
    (updateMapping fuel s iRowid nid iHeight).2.pDeleted = s.pDeleted ∧
    (updateMapping fuel s iRowid nid iHeight).2.rlog = s.rlog := by
  unfold updateMapping
  (repeat' split) <;> (try refine ⟨?_, ?_, ?_, ?_, ?_⟩) <;> (try simp) <;> (try split <;> simp)

@[simp] theorem updateMapping_cfg (fuel : Nat) (s : EState) (iRowid : Int) (nid : Nat)
    (iHeight : Int) : (updateMapping fuel s iRowid nid iHeight).2.cfg = s.cfg :=
  (updateMapping_ctl fuel s iRowid nid iHeight).1
@[simp] theorem updateMapping_nextPtr (fuel : Nat) (s : EState) (iRowid : Int) (nid : Nat)
    (iHeight : Int) : (updateMapping fuel s iRowid nid iHeight).2.nextPtr = s.nextPtr :=
  (updateMapping_ctl fuel s iRowid nid iHeight).2.1
@[simp] theorem updateMapping_iReinsertHeight (fuel : Nat) (s : EState) (iRowid : Int)
    (nid : Nat) (iHeight : Int) :
    (updateMapping fuel s iRowid nid iHeight).2.iReinsertHeight = s.iReinsertHeight :=
  (updateMapping_ctl fuel s iRowid nid iHeight).2.2.1
@[simp] theorem updateMapping_pDeleted (fuel : Nat) (s : EState) (iRowid : Int) (nid : Nat)
    (iHeight : Int) : (updateMapping fuel s iRowid nid iHeight).2.pDeleted = s.pDeleted :=
  (updateMapping_ctl fuel s iRowid nid iHeight).2.2.2.1
@[simp] theorem updateMapping_rlog (fuel : Nat) (s : EState) (iRowid : Int) (nid : Nat)
    (iHeight : Int) : (updateMapping fuel s iRowid nid iHeight).2.rlog = s.rlog :=
  (updateMapping_ctl fuel s iRowid nid iHeight).2.2.2.2

/-- Fold-preservation helper for folds whose state carries an `EState` in
the first component. -/
theorem foldl_state_ctl {α : Type} (f : (EState × RtreeCell × RtreeCell) → α →
    (EState × RtreeCell × RtreeCell))
    (h : ∀ st a, ((f st a).1.cfg = st.1.cfg) ∧ ((f st a).1.nextPtr = st.1.nextPtr) ∧
      ((f st a).1.store = st.1.store) ∧ ((f st a).1.iDepth = st.1.iDepth) ∧
      ((f st a).1.iReinsertHeight = st.1.iReinsertHeight) ∧
      ((f st a).1.pDeleted = st.1.pDeleted) ∧ ((f st a).1.rlog = st.1.rlog)) :
    ∀ (l : List α) (st : EState × RtreeCell × RtreeCell),
      ((l.foldl f st).1.cfg = st.1.cfg) ∧ ((l.foldl f st).1.nextPtr = st.1.nextPtr) ∧
      ((l.foldl f st).1.store = st.1.store) ∧ ((l.foldl f st).1.iDepth = st.1.iDepth) ∧
      ((l.foldl f st).1.iReinsertHeight = st.1.iReinsertHeight) ∧
      ((l.foldl f st).1.pDeleted = st.1.pDeleted) ∧ ((l.foldl f st).1.rlog = st.1.rlog) := by
  intro l
  induction l with
  | nil => intro st; exact ⟨rfl, rfl, rfl, rfl, rfl, rfl, rfl⟩
  | cons x xs ih =>
    intro st
    simp only [List.foldl_cons]
    obtain ⟨a1, a2, a3, a4, a5, a6, a7⟩ := h st x
    obtain ⟨b1, b2, b3, b4, b5, b6, b7⟩ := ih (f st x)
    exact ⟨by rw [b1, a1], by rw [b2, a2], by rw [b3, a3], by rw [b4, a4], by rw [b5, a5],
      by rw [b6, a6], by rw [b7, a7]⟩

/-- Fold-preservation helper for folds whose state is `RC × EState`
(control fields other than the store). -/
theorem foldl_rcstate_ctl {α : Type} (f : (RC × EState) → α → (RC × EState))
    (h : ∀ st a, ((f st a).2.cfg = st.2.cfg) ∧ ((f st a).2.nextPtr = st.2.nextPtr) ∧
      ((f st a).2.iDepth = st.2.iDepth) ∧
      ((f st a).2.iReinsertHeight = st.2.iReinsertHeight) ∧
      ((f st a).2.pDeleted = st.2.pDeleted) ∧ ((f st a).2.rlog = st.2.rlog)) :
    ∀ (l : List α) (st : RC × EState),
      ((l.foldl f st).2.cfg = st.2.cfg) ∧ ((l.foldl f st).2.nextPtr = st.2.nextPtr) ∧
      ((l.foldl f st).2.iDepth = st.2.iDepth) ∧
      ((l.foldl f st).2.iReinsertHeight = st.2.iReinsertHeight) ∧
      ((l.foldl f st).2.pDeleted = st.2.pDeleted) ∧ ((l.foldl f st).2.rlog = st.2.rlog) := by
  intro l
  induction l with
  | nil => intro st; exact ⟨rfl, rfl, rfl, rfl, rfl, rfl⟩
  | cons x xs ih =>
    intro st
    simp only [List.foldl_cons]
    obtain ⟨a1, a2, a3, a4, a5, a6⟩ := h st x
    obtain ⟨b1, b2, b3, b4, b5, b6⟩ := ih (f st x)
    exact ⟨by rw [b1, a1], by rw [b2, a2], by rw [b3, a3], by rw [b4, a4], by rw [b5, a5],
      by rw [b6, a6]⟩

theorem splitNodeStartree_ctl (s : EState) (aCell : List RtreeCell) (pLeft pRight : Nat) :
    (splitNodeStartree s aCell pLeft pRight).2.1.cfg = s.cfg ∧
    (splitNodeStartree s aCell pLeft pRight).2.1.nextPtr = s.nextPtr ∧
    (splitNodeStartree s aCell pLeft pRight).2.1.store = s.store ∧
    (splitNodeStartree s aCell pLeft pRight).2.1.iDepth = s.iDepth ∧
    (splitNodeStartree s aCell pLeft pRight).2.1.iReinsertHeight = s.iReinsertHeight ∧
    (splitNodeStartree s aCell pLeft pRight).2.1.pDeleted = s.pDeleted ∧
    (splitNodeStartree s aCell pLeft pRight).2.1.rlog = s.rlog := by
  unfold splitNodeStartree
  apply foldl_state_ctl
  intro st a
  dsimp only
  split <;> exact ⟨by simp, by simp, by simp, by simp, by simp, by simp, by simp⟩

@[simp] theorem splitNodeStartree_cfg (s : EState) (aCell : List RtreeCell) (pl pr : Nat) :
    (splitNodeStartree s aCell pl pr).2.1.cfg = s.cfg := (splitNodeStartree_ctl s aCell pl pr).1
@[simp] theorem splitNodeStartree_nextPtr (s : EState) (aCell : List RtreeCell) (pl pr : Nat) :
    (splitNodeStartree s aCell pl pr).2.1.nextPtr = s.nextPtr :=
  (splitNodeStartree_ctl s aCell pl pr).2.1
@[simp] theorem splitNodeStartree_store (s : EState) (aCell : List RtreeCell) (pl pr : Nat) :
    (splitNodeStartree s aCell pl pr).2.1.store = s.store :=
  (splitNodeStartree_ctl s aCell pl pr).2.2.1
@[simp] theorem splitNodeStartree_iDepth (s : EState) (aCell : List RtreeCell) (pl pr : Nat) :
    (splitNodeStartree s aCell pl pr).2.1.iDepth = s.iDepth :=
  (splitNodeStartree_ctl s aCell pl pr).2.2.2.1
@[simp] theorem splitNodeStartree_iReinsertHeight (s : EState) (aCell : List RtreeCell)
    (pl pr : Nat) : (splitNodeStartree s aCell pl pr).2.1.iReinsertHeight = s.iReinsertHeight :=
  (splitNodeStartree_ctl s aCell pl pr).2.2.2.2.1
@[simp] theorem splitNodeStartree_pDeleted (s : EState) (aCell : List RtreeCell) (pl pr : Nat) :
    (splitNodeStartree s aCell pl pr).2.1.pDeleted = s.pDeleted :=
  (splitNodeStartree_ctl s aCell pl pr).2.2.2.2.2.1
@[simp] theorem splitNodeStartree_rlog (s : EState) (aCell : List RtreeCell) (pl pr : Nat) :
    (splitNodeStartree s aCell pl pr).2.1.rlog = s.rlog :=
  (splitNodeStartree_ctl s aCell pl pr).2.2.2.2.2.2

theorem reinsertRebuild_ctl (s : EState) (nid : Nat) (pCell : RtreeCell) (iHeight : Int)
    (aCell : List RtreeCell) (keepIdx : List Nat) :
    (reinsertRebuild s nid pCell iHeight aCell keepIdx).2.cfg = s.cfg ∧
    (reinsertRebuild s nid pCell iHeight aCell keepIdx).2.nextPtr = s.nextPtr ∧
    (reinsertRebuild s nid pCell iHeight aCell keepIdx).2.iDepth = s.iDepth ∧
    (reinsertRebuild s nid pCell iHeight aCell keepIdx).2.iReinsertHeight = s.iReinsertHeight ∧
    (reinsertRebuild s nid pCell iHeight aCell keepIdx).2.pDeleted = s.pDeleted ∧
    (reinsertRebuild s nid pCell iHeight aCell keepIdx).2.rlog = s.rlog := by
  unfold reinsertRebuild
  apply foldl_rcstate_ctl
  intro st a
  dsimp only
  (repeat' split) <;> exact ⟨by simp, by simp, by simp, by simp, by simp, by simp⟩

@[simp] theorem reinsertRebuild_cfg (s : EState) (nid : Nat) (pCell : RtreeCell) (iHeight : Int)
    (aCell : List RtreeCell) (keepIdx : List Nat) :
    (reinsertRebuild s nid pCell iHeight aCell keepIdx).2.cfg = s.cfg :=
  (reinsertRebuild_ctl s nid pCell iHeight aCell keepIdx).1
@[simp] theorem reinsertRebuild_nextPtr (s : EState) (nid : Nat) (pCell : RtreeCell)
    (iHeight : Int) (aCell : List RtreeCell) (keepIdx : List Nat) :
    (reinsertRebuild s nid pCell iHeight aCell keepIdx).2.nextPtr = s.nextPtr :=
  (reinsertRebuild_ctl s nid pCell iHeight aCell keepIdx).2.1
@[simp] theorem reinsertRebuild_iDepth (s : EState) (nid : Nat) (pCell : RtreeCell)
    (iHeight : Int) (aCell : List RtreeCell) (keepIdx : List Nat) :
    (reinsertRebuild s nid pCell iHeight aCell keepIdx).2.iDepth = s.iDepth :=
  (reinsertRebuild_ctl s nid pCell iHeight aCell keepIdx).2.2.1
@[simp] theorem reinsertRebuild_iReinsertHeight (s : EState) (nid : Nat) (pCell : RtreeCell)
    (iHeight : Int) (aCell : List RtreeCell) (keepIdx : List Nat) :
    (reinsertRebuild s nid pCell iHeight aCell keepIdx).2.iReinsertHeight = s.iReinsertHeight :=
  (reinsertRebuild_ctl s nid pCell iHeight aCell keepIdx).2.2.2.1
@[simp] theorem reinsertRebuild_pDeleted (s : EState) (nid : Nat) (pCell : RtreeCell)
    (iHeight : Int) (aCell : List RtreeCell) (keepIdx : List Nat) :
    (reinsertRebuild s nid pCell iHeight aCell keepIdx).2.pDeleted = s.pDeleted :=
  (reinsertRebuild_ctl s nid pCell iHeight aCell keepIdx).2.2.2.2.1
@[simp] theorem reinsertRebuild_rlog (s : EState) (nid : Nat) (pCell : RtreeCell) (iHeight : Int)
    (aCell : List RtreeCell) (keepIdx : List Nat) :
    (reinsertRebuild s nid pCell iHeight aCell keepIdx).2.rlog = s.rlog :=
  (reinsertRebuild_ctl s nid pCell iHeight aCell keepIdx).2.2.2.2.2

theorem insertCellReparent_ctl (fuel : Nat) (s : EState) (nid : Nat) (pCell : RtreeCell)
    (iHeight : Int) :
    (insertCellReparent fuel s nid pCell iHeight).cfg = s.cfg ∧
    (insertCellReparent fuel s nid pCell iHeight).nextPtr = s.nextPtr ∧
    (insertCellReparent fuel s nid pCell iHeight).iReinsertHeight = s.iReinsertHeight ∧
    (insertCellReparent fuel s nid pCell iHeight).pDeleted = s.pDeleted ∧
    (insertCellReparent fuel s nid pCell iHeight).rlog = s.rlog := by
  unfold insertCellReparent
  (repeat' split) <;> (try refine ⟨?_, ?_, ?_, ?_, ?_⟩) <;> simp

@[simp] theorem insertCellReparent_cfg (fuel : Nat) (s : EState) (nid : Nat) (pCell : RtreeCell)
    (iHeight : Int) : (insertCellReparent fuel s nid pCell iHeight).cfg = s.cfg :=
  (insertCellReparent_ctl fuel s nid pCell iHeight).1
@[simp] theorem insertCellReparent_iReinsertHeight (fuel : Nat) (s : EState) (nid : Nat)
    (pCell : RtreeCell) (iHeight : Int) :
    (insertCellReparent fuel s nid pCell iHeight).iReinsertHeight = s.iReinsertHeight :=
  (insertCellReparent_ctl fuel s nid pCell iHeight).2.2.1
@[simp] theorem insertCellReparent_pDeleted (fuel : Nat) (s : EState) (nid : Nat)
    (pCell : RtreeCell) (iHeight : Int) :
    (insertCellReparent fuel s nid pCell iHeight).pDeleted = s.pDeleted :=
  (insertCellReparent_ctl fuel s nid pCell iHeight).2.2.2.1
@[simp] theorem insertCellReparent_rlog (fuel : Nat) (s : EState) (nid : Nat)
    (pCell : RtreeCell) (iHeight : Int) :
    (insertCellReparent fuel s nid pCell iHeight).rlog = s.rlog :=
  (insertCellReparent_ctl fuel s nid pCell iHeight).2.2.2.2

theorem splitNodeSetup_ctl (s : EState) (nid : Nat) (node : MemNode) (pCell : RtreeCell) :
    (splitNodeSetup s nid node pCell).2.1.cfg = s.cfg ∧
    (splitNodeSetup s nid node pCell).2.1.iReinsertHeight = s.iReinsertHeight ∧
    (splitNodeSetup s nid node pCell).2.1.pDeleted = s.pDeleted ∧
    (splitNodeSetup s nid node pCell).2.1.rlog = s.rlog := by
  unfold splitNodeSetup
  dsimp only
  (repeat' split) <;> (try refine ⟨?_, ?_, ?_, ?_⟩) <;>
    simp only [setNode_cfg, setNode_iReinsertHeight, setNode_pDeleted, setNode_rlog,
      nodeNew_cfg, nodeNew_iReinsertHeight, nodeNew_pDeleted, nodeNew_rlog,
      nodeWrite_cfg, nodeWrite_iReinsertHeight, nodeWrite_pDeleted, nodeWrite_rlog,
      nodeZeroM_cfg, nodeZeroM_iReinsertHeight, nodeZeroM_pDeleted, nodeZeroM_rlog,
      nodeReference_cfg, nodeReference_iReinsertHeight, nodeReference_pDeleted,
      nodeReference_rlog,
      splitNodeStartree_cfg, splitNodeStartree_iReinsertHeight, splitNodeStartree_pDeleted,
      splitNodeStartree_rlog]

@[simp] theorem splitNodeSetup_cfg (s : EState) (nid : Nat) (node : MemNode)
    (pCell : RtreeCell) : (splitNodeSetup s nid node pCell).2.1.cfg = s.cfg :=
  (splitNodeSetup_ctl s nid node pCell).1
@[simp] theorem splitNodeSetup_iReinsertHeight (s : EState) (nid : Nat) (node : MemNode)
    (pCell : RtreeCell) :
    (splitNodeSetup s nid node pCell).2.1.iReinsertHeight = s.iReinsertHeight :=
  (splitNodeSetup_ctl s nid node pCell).2.1
@[simp] theorem splitNodeSetup_pDeleted (s : EState) (nid : Nat) (node : MemNode)
    (pCell : RtreeCell) : (splitNodeSetup s nid node pCell).2.1.pDeleted = s.pDeleted :=
  (splitNodeSetup_ctl s nid node pCell).2.2.1
@[simp] theorem splitNodeSetup_rlog (s : EState) (nid : Nat) (node : MemNode)
    (pCell : RtreeCell) : (splitNodeSetup s nid node pCell).2.1.rlog = s.rlog :=
  (splitNodeSetup_ctl s nid node pCell).2.2.2

theorem splitNodeWriteLeftParent_ctl (fuel : Nat) (s : EState) (pLeft : Nat)
    (leftbbox : RtreeCell) :
    (splitNodeWriteLeftParent fuel s pLeft leftbbox).2.cfg = s.cfg ∧
    (splitNodeWriteLeftParent fuel s pLeft leftbbox).2.iReinsertHeight = s.iReinsertHeight ∧
    (splitNodeWriteLeftParent fuel s pLeft leftbbox).2.pDeleted = s.pDeleted ∧
    (splitNodeWriteLeftParent fuel s pLeft leftbbox).2.rlog = s.rlog := by
  unfold splitNodeWriteLeftParent
  (repeat' split) <;> (try refine ⟨?_, ?_, ?_, ?_⟩) <;> simp

@[simp] theorem splitNodeWriteLeftParent_cfg (fuel : Nat) (s : EState) (pLeft : Nat)
    (b : RtreeCell) : (splitNodeWriteLeftParent fuel s pLeft b).2.cfg = s.cfg :=
  (splitNodeWriteLeftParent_ctl fuel s pLeft b).1
@[simp] theorem splitNodeWriteLeftParent_iReinsertHeight (fuel : Nat) (s : EState) (pLeft : Nat)
    (b : RtreeCell) :
    (splitNodeWriteLeftParent fuel s pLeft b).2.iReinsertHeight = s.iReinsertHeight :=
  (splitNodeWriteLeftParent_ctl fuel s pLeft b).2.1
@[simp] theorem splitNodeWriteLeftParent_pDeleted (fuel : Nat) (s : EState) (pLeft : Nat)
    (b : RtreeCell) : (splitNodeWriteLeftParent fuel s pLeft b).2.pDeleted = s.pDeleted :=
  (splitNodeWriteLeftParent_ctl fuel s pLeft b).2.2.1
@[simp] theorem splitNodeWriteLeftParent_rlog (fuel : Nat) (s : EState) (pLeft : Nat)
    (b : RtreeCell) : (splitNodeWriteLeftParent fuel s pLeft b).2.rlog = s.rlog :=
  (splitNodeWriteLeftParent_ctl fuel s pLeft b).2.2.2

theorem splitNodeMappingsLoop_ctl (fuel : Nat) (s : EState) (rdata : Bytes) (pRight : Nat)
    (pCell : RtreeCell) (iHeight : Int) (l : List Nat) (ncir : Bool) :
    (splitNodeMappingsLoop fuel s rdata pRight pCell iHeight l ncir).2.2.cfg = s.cfg ∧
    (splitNodeMappingsLoop fuel s rdata pRight pCell iHeight l ncir).2.2.iReinsertHeight
      = s.iReinsertHeight ∧
    (splitNodeMappingsLoop fuel s rdata pRight pCell iHeight l ncir).2.2.pDeleted
      = s.pDeleted ∧
    (splitNodeMappingsLoop fuel s rdata pRight pCell iHeight l ncir).2.2.rlog = s.rlog := by
  induction l generalizing s ncir with
  | nil => simp [splitNodeMappingsLoop]
  | cons i rest ih =>
    unfold splitNodeMappingsLoop
    dsimp only
    split
    · have := ih (updateMapping fuel s (nodeGetRowid s.cfg rdata i) pRight iHeight).2
        (ncir || (nodeGetRowid s.cfg rdata i == pCell.iRowid))
      simp only [updateMapping_cfg, updateMapping_iReinsertHeight, updateMapping_pDeleted,
        updateMapping_rlog] at this
      exact this
    · simp

@[simp] theorem splitNodeMappingsLoop_cfg (fuel : Nat) (s : EState) (rdata : Bytes)
    (pRight : Nat) (pCell : RtreeCell) (iHeight : Int) (l : List Nat) (ncir : Bool) :
    (splitNodeMappingsLoop fuel s rdata pRight pCell iHeight l ncir).2.2.cfg = s.cfg :=
  (splitNodeMappingsLoop_ctl fuel s rdata pRight pCell iHeight l ncir).1
@[simp] theorem splitNodeMappingsLoop_iReinsertHeight (fuel : Nat) (s : EState) (rdata : Bytes)
    (pRight : Nat) (pCell : RtreeCell) (iHeight : Int) (l : List Nat) (ncir : Bool) :
    (splitNodeMappingsLoop fuel s rdata pRight pCell iHeight l ncir).2.2.iReinsertHeight
      = s.iReinsertHeight :=
  (splitNodeMappingsLoop_ctl fuel s rdata pRight pCell iHeight l ncir).2.1
@[simp] theorem splitNodeMappingsLoop_pDeleted (fuel : Nat) (s : EState) (rdata : Bytes)
    (pRight : Nat) (pCell : RtreeCell) (iHeight : Int) (l : List Nat) (ncir : Bool) :
    (splitNodeMappingsLoop fuel s rdata pRight pCell iHeight l ncir).2.2.pDeleted
      = s.pDeleted :=
  (splitNodeMappingsLoop_ctl fuel s rdata pRight pCell iHeight l ncir).2.2.1
@[simp] theorem splitNodeMappingsLoop_rlog (fuel : Nat) (s : EState) (rdata : Bytes)
    (pRight : Nat) (pCell : RtreeCell) (iHeight : Int) (l : List Nat) (ncir : Bool) :
    (splitNodeMappingsLoop fuel s rdata pRight pCell iHeight l ncir).2.2.rlog = s.rlog :=
  (splitNodeMappingsLoop_ctl fuel s rdata pRight pCell iHeight l ncir).2.2.2

theorem splitNodeMappingsLeftLoop_ctl (fuel : Nat) (s : EState) (ldata : Bytes) (pLeft : Nat)
    (iHeight : Int) (l : List Nat) :
    (splitNodeMappingsLeftLoop fuel s ldata pLeft iHeight l).2.cfg = s.cfg ∧
    (splitNodeMappingsLeftLoop fuel s ldata pLeft iHeight l).2.iReinsertHeight
      = s.iReinsertHeight ∧
    (splitNodeMappingsLeftLoop fuel s ldata pLeft iHeight l).2.pDeleted = s.pDeleted ∧
    (splitNodeMappingsLeftLoop fuel s ldata pLeft iHeight l).2.rlog = s.rlog := by
  induction l generalizing s with
  | nil => simp [splitNodeMappingsLeftLoop]
  | cons i rest ih =>
    unfold splitNodeMappingsLeftLoop
    dsimp only
    split
    · have := ih (updateMapping fuel s (nodeGetRowid s.cfg ldata i) pLeft iHeight).2
      simp only [updateMapping_cfg, updateMapping_iReinsertHeight, updateMapping_pDeleted,
        updateMapping_rlog] at this
      exact this
    · simp

@[simp] theorem splitNodeMappingsLeftLoop_cfg (fuel : Nat) (s : EState) (ldata : Bytes)
    (pLeft : Nat) (iHeight : Int) (l : List Nat) :
    (splitNodeMappingsLeftLoop fuel s ldata pLeft iHeight l).2.cfg = s.cfg :=
  (splitNodeMappingsLeftLoop_ctl fuel s ldata pLeft iHeight l).1
@[simp] theorem splitNodeMappingsLeftLoop_iReinsertHeight (fuel : Nat) (s : EState)
    (ldata : Bytes) (pLeft : Nat) (iHeight : Int) (l : List Nat) :
    (splitNodeMappingsLeftLoop fuel s ldata pLeft iHeight l).2.iReinsertHeight
      = s.iReinsertHeight :=
  (splitNodeMappingsLeftLoop_ctl fuel s ldata pLeft iHeight l).2.1
@[simp] theorem splitNodeMappingsLeftLoop_pDeleted (fuel : Nat) (s : EState) (ldata : Bytes)
    (pLeft : Nat) (iHeight : Int) (l : List Nat) :
    (splitNodeMappingsLeftLoop fuel s ldata pLeft iHeight l).2.pDeleted = s.pDeleted :=
  (splitNodeMappingsLeftLoop_ctl fuel s ldata pLeft iHeight l).2.2.1
@[simp] theorem splitNodeMappingsLeftLoop_rlog (fuel : Nat) (s : EState) (ldata : Bytes)
    (pLeft : Nat) (iHeight : Int) (l : List Nat) :
    (splitNodeMappingsLeftLoop fuel s ldata pLeft iHeight l).2.rlog = s.rlog :=
  (splitNodeMappingsLeftLoop_ctl fuel s ldata pLeft iHeight l).2.2.2

@[simp] theorem splitNodeFinishOk_cfg (fuel : Nat) (s : EState) (pl pr : Nat) :
    (splitNodeFinishOk fuel s pl pr).2.cfg = s.cfg := by
  unfold splitNodeFinishOk; dsimp only; split <;> simp
@[simp] theorem splitNodeFinishOk_iReinsertHeight (fuel : Nat) (s : EState) (pl pr : Nat) :
    (splitNodeFinishOk fuel s pl pr).2.iReinsertHeight = s.iReinsertHeight := by
  unfold splitNodeFinishOk; dsimp only; split <;> simp
@[simp] theorem splitNodeFinishOk_pDeleted (fuel : Nat) (s : EState) (pl pr : Nat) :
    (splitNodeFinishOk fuel s pl pr).2.pDeleted = s.pDeleted := by
  unfold splitNodeFinishOk; dsimp only; split <;> simp
@[simp] theorem splitNodeFinishOk_rlog (fuel : Nat) (s : EState) (pl pr : Nat) :
    (splitNodeFinishOk fuel s pl pr).2.rlog = s.rlog := by
  unfold splitNodeFinishOk; dsimp only; split <;> simp

@[simp] theorem splitNodeFinishErr_cfg (fuel : Nat) (rc : RC) (s : EState) (pl pr : Nat) :
    (splitNodeFinishErr fuel rc s pl pr).2.cfg = s.cfg := by unfold splitNodeFinishErr; dsimp only; simp
@[simp] theorem splitNodeFinishErr_iReinsertHeight (fuel : Nat) (rc : RC) (s : EState)
    (pl pr : Nat) : (splitNodeFinishErr fuel rc s pl pr).2.iReinsertHeight
      = s.iReinsertHeight := by unfold splitNodeFinishErr; dsimp only; simp
@[simp] theorem splitNodeFinishErr_pDeleted (fuel : Nat) (rc : RC) (s : EState) (pl pr : Nat) :
    (splitNodeFinishErr fuel rc s pl pr).2.pDeleted = s.pDeleted := by
  unfold splitNodeFinishErr; dsimp only; simp
@[simp] theorem splitNodeFinishErr_rlog (fuel : Nat) (rc : RC) (s : EState) (pl pr : Nat) :
    (splitNodeFinishErr fuel rc s pl pr).2.rlog = s.rlog := by unfold splitNodeFinishErr; dsimp only; simp
@[simp] theorem splitNodeFinishErr_rc (fuel : Nat) (rc : RC) (s : EState) (pl pr : Nat) :
    (splitNodeFinishErr fuel rc s pl pr).1 = rc := rfl

/-! ## StepOK: the Reinsert bookkeeping invariant (claim C6) -/

theorem logOKb_mono (r m r' : Int) (δ : List (Int × Int)) (hrm : r ≤ m)
    (h : logOKb m δ r' = true) : logOKb r δ r' = true := by
  induction δ generalizing r m with
  | nil => simp only [logOKb, decide_eq_true_eq] at h ⊢; omega
  | cons e rest ih =>
    obtain ⟨eh, en⟩ := e
    simp only [logOKb, Bool.and_eq_true, decide_eq_true_eq] at h ⊢
    exact ⟨⟨by omega, h.1.2⟩, h.2⟩

theorem logOKb_append (r m r' : Int) (δ₁ δ₂ : List (Int × Int))
    (h1 : logOKb r δ₁ m = true) (h2 : logOKb m δ₂ r' = true) :
    logOKb r (δ₁ ++ δ₂) r' = true := by
  induction δ₁ generalizing r with
  | nil =>
    simp only [logOKb, decide_eq_true_eq] at h1
    simpa using logOKb_mono r m r' δ₂ h1 h2
  | cons e rest ih =>
    obtain ⟨eh, en⟩ := e
    simp only [logOKb, Bool.and_eq_true] at h1 ⊢
    exact ⟨h1.1, ih eh h1.2⟩

theorem logOKb_le (r r' : Int) (δ : List (Int × Int)) (h : logOKb r δ r' = true) :
    r ≤ r' := by
  induction δ generalizing r with
  | nil => simpa [logOKb] using h
  | cons e rest ih =>
    obtain ⟨eh, en⟩ := e
    simp only [logOKb, Bool.and_eq_true, decide_eq_true_eq] at h
    have := ih eh h.2
    omega

theorem StepOK_rfl (s : EState) : StepOK s s :=
  ⟨le_refl _, [], by simp, by simp [logOKb]⟩

theorem StepOK_trans (a b c : EState) (h1 : StepOK a b) (h2 : StepOK b c) : StepOK a c := by
  obtain ⟨hle1, δ₁, he1, hl1⟩ := h1
  obtain ⟨hle2, δ₂, he2, hl2⟩ := h2
  exact ⟨le_trans hle1 hle2, δ₁ ++ δ₂, by simp [he2, he1],
    logOKb_append _ _ _ _ _ hl1 hl2⟩

theorem StepOK_ext (s a b : EState) (h1 : a.iReinsertHeight = b.iReinsertHeight)
    (h2 : a.rlog = b.rlog) : StepOK s a ↔ StepOK s b := by
  unfold StepOK; rw [h1, h2]

theorem StepOK_push (s t : EState) (iHeight n : Int) (h : StepOK s t)
    (h1 : t.iReinsertHeight < iHeight) (h2 : ¬ n = 1) :
    StepOK s { t with iReinsertHeight := iHeight, rlog := t.rlog ++ [(iHeight, n)] } := by
  obtain ⟨hle, δ, he, hl⟩ := h
  refine ⟨by simp; omega, δ ++ [(iHeight, n)], by simp [he], ?_⟩
  refine logOKb_append _ t.iReinsertHeight _ _ _ hl ?_
  simp [logOKb, h2]
  omega

@[simp] theorem StepOK_self (s : EState) : StepOK s s := StepOK_rfl s

@[simp] theorem StepOK_insertCellReparent (s t : EState) (fuel : Nat) (nid : Nat)
    (pCell : RtreeCell) (iHeight : Int) :
    StepOK s (insertCellReparent fuel t nid pCell iHeight) ↔ StepOK s t :=
  StepOK_ext s _ t (by simp) (by simp)

@[simp] theorem StepOK_nodeInsertCellM (s t : EState) (nid : Nat) (c : RtreeCell) :
    StepOK s (nodeInsertCellM t nid c).2 ↔ StepOK s t :=
  StepOK_ext s _ t (by simp) (by simp)

@[simp] theorem StepOK_AdjustTree (s t : EState) (fuel : Nat) (nid : Nat) (c : RtreeCell) :
    StepOK s (AdjustTree fuel t nid c).2 ↔ StepOK s t :=
  StepOK_ext s _ t (by simp) (by simp)

@[simp] theorem StepOK_rowidWrite (s t : EState) (a b : Int) :
    StepOK s (rowidWrite t a b).2 ↔ StepOK s t :=
  StepOK_ext s _ t (by simp) (by simp)

@[simp] theorem StepOK_parentWrite (s t : EState) (a b : Int) :
    StepOK s (parentWrite t a b).2 ↔ StepOK s t :=
  StepOK_ext s _ t (by simp) (by simp)

@[simp] theorem StepOK_splitNodeSetup (s t : EState) (nid : Nat) (node : MemNode)
    (pCell : RtreeCell) : StepOK s (splitNodeSetup t nid node pCell).2.1 ↔ StepOK s t :=
  StepOK_ext s _ t (by simp) (by simp)

@[simp] theorem StepOK_splitNodeWriteLeftParent (s t : EState) (fuel : Nat) (pLeft : Nat)
    (b : RtreeCell) : StepOK s (splitNodeWriteLeftParent fuel t pLeft b).2 ↔ StepOK s t :=
  StepOK_ext s _ t (by simp) (by simp)

@[simp] theorem StepOK_splitNodeMappingsLoop (s t : EState) (fuel : Nat) (rdata : Bytes)
    (pRight : Nat) (pCell : RtreeCell) (iHeight : Int) (l : List Nat) (ncir : Bool) :
    StepOK s (splitNodeMappingsLoop fuel t rdata pRight pCell iHeight l ncir).2.2 ↔
      StepOK s t :=
  StepOK_ext s _ t (by simp) (by simp)

@[simp] theorem StepOK_splitNodeMappingsLeftLoop (s t : EState) (fuel : Nat) (ldata : Bytes)
    (pLeft : Nat) (iHeight : Int) (l : List Nat) :
    StepOK s (splitNodeMappingsLeftLoop fuel t ldata pLeft iHeight l).2 ↔ StepOK s t :=
  StepOK_ext s _ t (by simp) (by simp)

@[simp] theorem StepOK_updateMapping (s t : EState) (fuel : Nat) (iRowid : Int) (nid : Nat)
    (iHeight : Int) : StepOK s (updateMapping fuel t iRowid nid iHeight).2 ↔ StepOK s t :=
  StepOK_ext s _ t (by simp) (by simp)

@[simp] theorem StepOK_splitNodeFinishOk (s t : EState) (fuel : Nat) (pl pr : Nat) :
    StepOK s (splitNodeFinishOk fuel t pl pr).2 ↔ StepOK s t :=
  StepOK_ext s _ t (by simp) (by simp)

@[simp] theorem StepOK_splitNodeFinishErr (s t : EState) (fuel : Nat) (rc : RC) (pl pr : Nat) :
    StepOK s (splitNodeFinishErr fuel rc t pl pr).2 ↔ StepOK s t :=
  StepOK_ext s _ t (by simp) (by simp)

@[simp] theorem StepOK_reinsertRebuild (s t : EState) (nid : Nat) (pCell : RtreeCell)
    (iHeight : Int) (aCell : List RtreeCell) (keepIdx : List Nat) :
    StepOK s (reinsertRebuild t nid pCell iHeight aCell keepIdx).2 ↔ StepOK s t :=
  StepOK_ext s _ t (by simp) (by simp)

@[simp] theorem StepOK_fixBoundingBox (s t : EState) (fuel : Nat) (nid : Nat) :
    StepOK s (fixBoundingBox fuel t nid).2 ↔ StepOK s t :=
  StepOK_ext s _ t (by simp) (by simp)

@[simp] theorem StepOK_ChooseLeaf (s t : EState) (fuel : Nat) (pCell : RtreeCell)
    (iHeight : Int) : StepOK s (ChooseLeaf fuel t pCell iHeight).2.1 ↔ StepOK s t :=
  StepOK_ext s _ t (by simp) (by simp)

@[simp] theorem StepOK_nodeRelease (s t : EState) (fuel : Nat) (nid : Option Nat) :
    StepOK s (nodeRelease fuel t nid).2 ↔ StepOK s t :=
  StepOK_ext s _ t (by simp) (by simp)

theorem rtreeInsertCell_stepOK_of (fuel : Nat)
    (hS : ∀ t nid pCell iHeight, StepOK t (SplitNode fuel t nid pCell iHeight).2)
    (hR : ∀ t nid pCell iHeight, StepOK t (Reinsert fuel t nid pCell iHeight).2)
    (s : EState) (nid : Nat) (pCell : RtreeCell) (iHeight : Int) :
    StepOK s (rtreeInsertCell (fuel + 1) s nid pCell iHeight).2 := by
  unfold rtreeInsertCell
  dsimp only
  (repeat' split) <;>
    first
    | (simp; done)
    | (refine StepOK_trans _ _ _ ?_ (hS _ _ _ _); simp; done)
    | (refine StepOK_trans _ _ _ ?_ (hR _ _ _ _)
       refine StepOK_push s _ iHeight _ ?_ ?_ ?_ <;> simp_all <;> omega)

theorem splitNodeStageMp2_ctl (fuel : Nat) (s : EState) (isRoot mapped : Bool)
    (pl pr : Nat) (pCell : RtreeCell) (iHeight : Int) :
    (splitNodeStageMp2 fuel s isRoot mapped pl pr pCell iHeight).2.cfg = s.cfg ∧
    (splitNodeStageMp2 fuel s isRoot mapped pl pr pCell iHeight).2.iReinsertHeight
      = s.iReinsertHeight ∧
    (splitNodeStageMp2 fuel s isRoot mapped pl pr pCell iHeight).2.pDeleted = s.pDeleted ∧
    (splitNodeStageMp2 fuel s isRoot mapped pl pr pCell iHeight).2.rlog = s.rlog := by
  unfold splitNodeStageMp2
  dsimp only
  (repeat' split) <;> (try refine ⟨?_, ?_, ?_, ?_⟩) <;> simp

@[simp] theorem splitNodeStageMp2_cfg (fuel : Nat) (s : EState) (isRoot mapped : Bool)
    (pl pr : Nat) (pCell : RtreeCell) (iHeight : Int) :
    (splitNodeStageMp2 fuel s isRoot mapped pl pr pCell iHeight).2.cfg = s.cfg :=
  (splitNodeStageMp2_ctl fuel s isRoot mapped pl pr pCell iHeight).1
@[simp] theorem splitNodeStageMp2_iReinsertHeight (fuel : Nat) (s : EState)
    (isRoot mapped : Bool) (pl pr : Nat) (pCell : RtreeCell) (iHeight : Int) :
    (splitNodeStageMp2 fuel s isRoot mapped pl pr pCell iHeight).2.iReinsertHeight
      = s.iReinsertHeight :=
  (splitNodeStageMp2_ctl fuel s isRoot mapped pl pr pCell iHeight).2.1
@[simp] theorem splitNodeStageMp2_pDeleted (fuel : Nat) (s : EState) (isRoot mapped : Bool)
    (pl pr : Nat) (pCell : RtreeCell) (iHeight : Int) :
    (splitNodeStageMp2 fuel s isRoot mapped pl pr pCell iHeight).2.pDeleted = s.pDeleted :=
  (splitNodeStageMp2_ctl fuel s isRoot mapped pl pr pCell iHeight).2.2.1
@[simp] theorem splitNodeStageMp2_rlog (fuel : Nat) (s : EState) (isRoot mapped : Bool)
    (pl pr : Nat) (pCell : RtreeCell) (iHeight : Int) :
    (splitNodeStageMp2 fuel s isRoot mapped pl pr pCell iHeight).2.rlog = s.rlog :=
  (splitNodeStageMp2_ctl fuel s isRoot mapped pl pr pCell iHeight).2.2.2

theorem splitNodeStageMp_ctl (fuel : Nat) (s : EState) (isRoot : Bool) (pl pr : Nat)
    (pCell : RtreeCell) (iHeight : Int) :
    (splitNodeStageMp fuel s isRoot pl pr pCell iHeight).2.cfg = s.cfg ∧
    (splitNodeStageMp fuel s isRoot pl pr pCell iHeight).2.iReinsertHeight
      = s.iReinsertHeight ∧
    (splitNodeStageMp fuel s isRoot pl pr pCell iHeight).2.pDeleted = s.pDeleted ∧
    (splitNodeStageMp fuel s isRoot pl pr pCell iHeight).2.rlog = s.rlog := by
  unfold splitNodeStageMp
  dsimp only
  (repeat' split) <;> (try refine ⟨?_, ?_, ?_, ?_⟩) <;> simp

@[simp] theorem splitNodeStageMp_cfg (fuel : Nat) (s : EState) (isRoot : Bool) (pl pr : Nat)
    (pCell : RtreeCell) (iHeight : Int) :
    (splitNodeStageMp fuel s isRoot pl pr pCell iHeight).2.cfg = s.cfg :=
  (splitNodeStageMp_ctl fuel s isRoot pl pr pCell iHeight).1
@[simp] theorem splitNodeStageMp_iReinsertHeight (fuel : Nat) (s : EState) (isRoot : Bool)
    (pl pr : Nat) (pCell : RtreeCell) (iHeight : Int) :
    (splitNodeStageMp fuel s isRoot pl pr pCell iHeight).2.iReinsertHeight
      = s.iReinsertHeight :=
  (splitNodeStageMp_ctl fuel s isRoot pl pr pCell iHeight).2.1
@[simp] theorem splitNodeStageMp_pDeleted (fuel : Nat) (s : EState) (isRoot : Bool)
    (pl pr : Nat) (pCell : RtreeCell) (iHeight : Int) :
    (splitNodeStageMp fuel s isRoot pl pr pCell iHeight).2.pDeleted = s.pDeleted :=
  (splitNodeStageMp_ctl fuel s isRoot pl pr pCell iHeight).2.2.1
@[simp] theorem splitNodeStageMp_rlog (fuel : Nat) (s : EState) (isRoot : Bool) (pl pr : Nat)
    (pCell : RtreeCell) (iHeight : Int) :
    (splitNodeStageMp fuel s isRoot pl pr pCell iHeight).2.rlog = s.rlog :=
  (splitNodeStageMp_ctl fuel s isRoot pl pr pCell iHeight).2.2.2

@[simp] theorem StepOK_splitNodeStageMp2 (s t : EState) (fuel : Nat) (isRoot mapped : Bool)
    (pl pr : Nat) (pCell : RtreeCell) (iHeight : Int) :
    StepOK s (splitNodeStageMp2 fuel t isRoot mapped pl pr pCell iHeight).2 ↔ StepOK s t :=
  StepOK_ext s _ t (by simp) (by simp)

@[simp] theorem StepOK_splitNodeStageMp (s t : EState) (fuel : Nat) (isRoot : Bool)
    (pl pr : Nat) (pCell : RtreeCell) (iHeight : Int) :
    StepOK s (splitNodeStageMp fuel t isRoot pl pr pCell iHeight).2 ↔ StepOK s t :=
  StepOK_ext s _ t (by simp) (by simp)

theorem SplitNode_stepOK_of (fuel : Nat)
    (hI : ∀ t nid pCell iHeight, StepOK t (rtreeInsertCell fuel t nid pCell iHeight).2)
    (s : EState) (nid : Nat) (pCell : RtreeCell) (iHeight : Int) :
    StepOK s (SplitNode (fuel + 1) s nid pCell iHeight).2 := by
  unfold SplitNode
  dsimp only
  split
  · simp
  next node heq =>
    have hsu : StepOK s (splitNodeSetup s nid node pCell).2.1 := by simp
    generalize hG : splitNodeSetup s nid node pCell = SU at hsu ⊢
    (repeat' split) <;>
      ((try simp)
       first
       | done
       | exact hsu
       | exact StepOK_trans _ _ _ hsu (hI _ _ _ _)
       | (refine StepOK_trans _ _ _ ?_ (hI _ _ _ _)
          (try simp)
          first
          | exact hsu
          | exact StepOK_trans _ _ _ hsu (hI _ _ _ _)))

theorem ReinsertSpread_stepOK_of (fuel : Nat)
    (hI : ∀ t nid pCell iHeight, StepOK t (rtreeInsertCell fuel t nid pCell iHeight).2)
    (hP : ∀ t idxs aCell iHeight, StepOK t (ReinsertSpread fuel t idxs aCell iHeight).2)
    (s : EState) (idxs : List Nat) (aCell : List RtreeCell) (iHeight : Int) :
    StepOK s (ReinsertSpread (fuel + 1) s idxs aCell iHeight).2 := by
  unfold ReinsertSpread
  dsimp only
  (repeat' split) <;>
    ((try simp)
     first
     | done
     | (refine StepOK_trans _ _ _ ?_ (hI _ _ _ _); simp; done)
     | (refine StepOK_trans _ _ _ ?_ (hP _ _ _ _)
        (try simp)
        first
        | done
        | (refine StepOK_trans _ _ _ ?_ (hI _ _ _ _); simp; done)))

theorem Reinsert_stepOK_of (fuel : Nat)
    (hP : ∀ t idxs aCell iHeight, StepOK t (ReinsertSpread fuel t idxs aCell iHeight).2)
    (s : EState) (nid : Nat) (pCell : RtreeCell) (iHeight : Int) :
    StepOK s (Reinsert (fuel + 1) s nid pCell iHeight).2 := by
  unfold Reinsert
  dsimp only
  (repeat' split) <;>
    ((try simp)
     first
     | done
     | (refine StepOK_trans _ _ _ ?_ (hP _ _ _ _); simp; done))

theorem engineStepOK (fuel : Nat) :
    (∀ s nid pCell iHeight, StepOK s (rtreeInsertCell fuel s nid pCell iHeight).2) ∧
    (∀ s nid pCell iHeight, StepOK s (SplitNode fuel s nid pCell iHeight).2) ∧
    (∀ s nid pCell iHeight, StepOK s (Reinsert fuel s nid pCell iHeight).2) ∧
    (∀ s idxs aCell iHeight, StepOK s (ReinsertSpread fuel s idxs aCell iHeight).2) := by
  induction fuel with
  | zero =>
    refine ⟨?_, ?_, ?_, ?_⟩ <;> intro s a b c <;> exact StepOK_rfl s
  | succ fuel ih =>
    obtain ⟨hI, hS, hR, hP⟩ := ih
    exact ⟨rtreeInsertCell_stepOK_of fuel hS hR,
      SplitNode_stepOK_of fuel hI,
      Reinsert_stepOK_of fuel hP,
      ReinsertSpread_stepOK_of fuel hI hP⟩

theorem logOKb_lt_all (r r' : Int) (δ : List (Int × Int)) (h : logOKb r δ r' = true) :
    ∀ e ∈ δ, r < e.1 := by
  induction δ generalizing r with
  | nil => simp
  | cons e rest ih =>
    obtain ⟨eh, en⟩ := e
    simp only [logOKb, Bool.and_eq_true, decide_eq_true_eq] at h
    intro f hf
    rcases List.mem_cons.mp hf with rfl | hf
    · exact h.1.1
    · have := ih eh h.2 f hf
      have := h.1.1
      omega

theorem logOKb_pairwise (r r' : Int) (δ : List (Int × Int)) (h : logOKb r δ r' = true) :
    List.Pairwise (fun a b => a < b) (δ.map Prod.fst) := by
  induction δ generalizing r with
  | nil => simp
  | cons e rest ih =>
    obtain ⟨eh, en⟩ := e
    simp only [logOKb, Bool.and_eq_true, decide_eq_true_eq] at h
    refine List.pairwise_cons.mpr ⟨?_, ih eh h.2⟩
    intro b hb
    simp only [List.mem_map] at hb
    obtain ⟨f, hf, rfl⟩ := hb
    exact logOKb_lt_all eh r' rest h.2 f hf

theorem logOKb_no_root (r r' : Int) (δ : List (Int × Int)) (h : logOKb r δ r' = true) :
    ∀ e ∈ δ, ¬ e.2 = 1 := by
  induction δ generalizing r with
  | nil => simp
  | cons e rest ih =>
    obtain ⟨eh, en⟩ := e
    simp only [logOKb, Bool.and_eq_true, decide_eq_true_eq, Bool.not_eq_true',
      beq_eq_false_iff_ne, ne_eq] at h
    intro f hf
    rcases List.mem_cons.mp hf with rfl | hf
    · exact h.1.2
    · exact ih eh h.2 f hf

/-- C6: within a single top-level insert, the forced-reinsert bookkeeping
(`iReinsertHeight`, reset to -1 before the top-level `rtreeInsertCell` and
only ever raised to the height of the overflow that triggered a
`Reinsert`) ensures `Reinsert` runs at most once per height — the heights
in the ghost log of `Reinsert` invocations grow strictly — and is never
invoked on the root node 1: overflows at an already-reinserted height, at
a lower height, or on the root are routed to `SplitNode` instead. -/
theorem c6_reinsert_once_per_height (fuel : Nat) (s : EState) (nid : Nat)
    (pCell : RtreeCell) (iHeight : Int) :
    ∃ δ, (rtreeInsertCell fuel s nid pCell iHeight).2.rlog = s.rlog ++ δ ∧
      List.Pairwise (fun a b => a < b) (δ.map Prod.fst) ∧
      ∀ e ∈ δ, ¬ e.2 = 1 := by
  obtain ⟨hle, δ, he, hl⟩ := (engineStepOK fuel).1 s nid pCell iHeight
  exact ⟨δ, he, logOKb_pairwise _ _ _ hl, logOKb_no_root _ _ _ hl⟩

/-- C7: acquiring the root (node 1) from storage sets the tree depth from
bytes [0..2) of the page, and the acquire reports corruption exactly when
that depth exceeds `RTREE_MAX_DEPTH = 40` (root only) or the node's
stored cell count exceeds the capacity `M = (iNodeSize-4)/nBytesPerCell`. -/
theorem c7_nodeAcquire (s : EState) (iNode : Int) (pParent : Option Nat) (blob : Bytes)
    (h1 : nodeHashLookup s iNode = none)
    (h2 : tabGet s.store.nodeTab iNode = some blob)
    (h3 : s.cfg.iNodeSize = blob.length) :
    ((nodeAcquire s iNode pParent).1 = .corrupt ↔
      (iNode = 1 ∧ RTREE_MAX_DEPTH < (readInt16 blob 0 : Int)) ∨
        s.cfg.maxCell < NCELL blob) ∧
    (iNode = 1 → (nodeAcquire s iNode pParent).2.1.iDepth = (readInt16 blob 0 : Int)) ∧
    s.cfg.maxCell = (s.cfg.iNodeSize - 4) / s.cfg.nBytesPerCell := by
  refine ⟨?_, ?_, rfl⟩ <;>
    (simp only [nodeAcquire, h1, h2, h3, beq_self_eq_true, if_true]
     by_cases hi : iNode = 1 <;>
       simp [hi] <;> (repeat' split) <;> simp_all <;> omega)

theorem c7_nodeAcquire_witness :
    ((nodeAcquire sEmptyM1 1 none).1 = .corrupt ↔
      ((1 : Int) = 1 ∧ RTREE_MAX_DEPTH < (readInt16 (mkNodeBytes cfgM1 0 []) 0 : Int)) ∨
        sEmptyM1.cfg.maxCell < NCELL (mkNodeBytes cfgM1 0 [])) ∧
    ((1 : Int) = 1 → (nodeAcquire sEmptyM1 1 none).2.1.iDepth
      = (readInt16 (mkNodeBytes cfgM1 0 []) 0 : Int)) ∧
    sEmptyM1.cfg.maxCell = (sEmptyM1.cfg.iNodeSize - 4) / sEmptyM1.cfg.nBytesPerCell :=
  c7_nodeAcquire sEmptyM1 1 none (mkNodeBytes cfgM1 0 []) (by decide) (by decide) (by decide)

theorem testRtreeCellLoop_fst (cfg : Config) (cell : RtreeCell)
    (cs : List RtreeConstraint) (bRes : Bool) (rc : RC) :
    (testRtreeCellLoop cfg cell cs bRes rc).1 = (bRes || cs.any (prunesCell cfg cell)) := by
  induction cs generalizing bRes rc with
  | nil => simp [testRtreeCellLoop]
  | cons p rest ih =>
    cases bRes with
    | true => simp [testRtreeCellLoop]
    | false =>
      unfold testRtreeCellLoop
      cases hop : p.op <;>
        simp [hop, ih, prunesCell, Bool.or_assoc, or_comm]

/-- C2: a subtree is excluded by the descent filter iff at least one
constraint prunes its cell, where an LE or LT constraint prunes iff
`rValue < lo`, a GE or GT constraint prunes iff `rValue > hi`, an EQ
constraint prunes iff either, and a MATCH constraint prunes iff the
callback reports the cell not within (the table encoded by `prunesCell`,
with `lo`/`hi` the constrained dimension's stored range). -/
theorem c2_testRtreeCell (cfg : Config) (z : Bytes) (iCell : Nat)
    (cs : List RtreeConstraint) :
    (testRtreeCell cfg z iCell cs).1 =
      cs.any (prunesCell cfg (nodeGetCell cfg z iCell)) := by
  unfold testRtreeCell
  rw [testRtreeCellLoop_fst]
  simp

theorem bestIndexLoop_char (cs : List IdxConstraint) (j : Nat) (hj : j ≤ 20) :
    (rowidEqReachedFrom cs j = true → ∃ u, bestIndexLoop cs (2 * j) = .strat1 u) ∧
    (rowidEqReachedFrom cs j = false →
      ∃ pairs u, bestIndexLoop cs (2 * j) = .strat2 pairs u ∧
        pairs.length = min (20 - j) (countEncodable cs)) := by
  induction cs generalizing j with
  | nil =>
    refine ⟨?_, ?_⟩ <;> intro h
    · simp [rowidEqReachedFrom] at h
    · exact ⟨[], [], rfl, by simp [countEncodable]⟩
  | cons p rest ih =>
    by_cases h20 : j < 20
    · have h40 : 2 * j < 40 := by omega
      by_cases hre : usableRowidEq p
      · refine ⟨?_, ?_⟩ <;> intro h
        · refine ⟨⟨1, true⟩ :: rest.map fun _ => ⟨0, false⟩, ?_⟩
          simp [bestIndexLoop, h40, hre]
        · simp [rowidEqReachedFrom, h20, hre] at h
      · by_cases hcm : usableCoordOrMatch p
        · have h2 : 2 * j + 2 = 2 * (j + 1) := by ring
          have hcount : countEncodable (p :: rest) = countEncodable rest + 1 := by
            simp [countEncodable, hcm]
          refine ⟨?_, ?_⟩ <;> intro h <;>
            simp only [rowidEqReachedFrom, hre, hcm, if_true, Bool.false_or] at h <;>
            rw [show decide (j < 20) = true from by simp [h20], Bool.true_and] at h
          · obtain ⟨u, hu⟩ := (ih (j + 1) (by omega)).1 h
            refine ⟨⟨0, false⟩ :: u, ?_⟩
            simp [bestIndexLoop, h40, hre, hcm, h2, hu]
          · obtain ⟨pairs, u, hu, hlen⟩ := (ih (j + 1) (by omega)).2 h
            refine ⟨(sqlOpByte p.op, p.iColumn - 1 + 97) :: pairs,
              ⟨2 * j / 2 + 1, true⟩ :: u, ?_, ?_⟩
            · simp [bestIndexLoop, h40, hre, hcm, h2, hu]
            · simp only [List.length_cons, hlen, hcount]
              omega
        · have hcount : countEncodable (p :: rest) = countEncodable rest := by
            simp [countEncodable, hcm]
          refine ⟨?_, ?_⟩ <;> intro h <;>
            simp only [rowidEqReachedFrom, hre, hcm, if_false, Bool.false_or] at h <;>
            rw [show decide (j < 20) = true from by simp [h20], Bool.true_and] at h
          · obtain ⟨u, hu⟩ := (ih j hj).1 h
            refine ⟨⟨0, false⟩ :: u, ?_⟩
            simp [bestIndexLoop, h40, hre, hcm, hu]
          · obtain ⟨pairs, u, hu, hlen⟩ := (ih j hj).2 h
            refine ⟨pairs, ⟨0, false⟩ :: u, ?_, ?_⟩
            · simp [bestIndexLoop, h40, hre, hcm, hu]
            · rw [hlen, hcount]
    · have hj20 : j = 20 := by omega
      have h40 : ¬ 2 * j < 40 := by omega
      refine ⟨?_, ?_⟩ <;> intro h
      · simp [rowidEqReachedFrom, hj20] at h
      · refine ⟨[], (p :: rest).map fun _ => ⟨0, false⟩, ?_, by simp [hj20]⟩
        simp [bestIndexLoop, h40]

/-- C3 counterexample: a single usable GE constraint on coordinate column 1
selects strategy 2 with one encoded constraint, and the reported cost is
2000000/3 — the code divides by `iIdx + 1` where `iIdx` counts the two
bytes per encoded constraint — not the 2000000/(1+1) the specification's
`constraintCount + 1` formula gives. -/
theorem c3_cost_counterexample :
    (rtreeBestIndex [({ usable := true, iColumn := 1, op := .ge } : IdxConstraint)]).1 = 2 ∧
    countEncodable [({ usable := true, iColumn := 1, op := .ge } : IdxConstraint)] = 1 ∧
    (rtreeBestIndex [({ usable := true, iColumn := 1, op := .ge } : IdxConstraint)]).2.2.1
      = 2000000 / 3 ∧
    ¬ (rtreeBestIndex [({ usable := true, iColumn := 1, op := .ge } : IdxConstraint)]).2.2.1
      = 2000000 / (1 + 1 : ℚ) := by
  refine ⟨rfl, rfl, ?_, ?_⟩ <;>
    norm_num [rtreeBestIndex, bestIndexLoop, usableRowidEq, usableCoordOrMatch]

/-- C3 (amended): `rtreeBestIndex` selects strategy 1 with cost 10 exactly
when a usable rowid equality constraint is reached before the 20-pair
`zIdxStr` buffer fills; otherwise it selects strategy 2 encoding
`k = min 20 constraintCount` pairs and reports cost `2000000 / (2k + 1)`
(the divisor is the byte length of `zIdxStr` plus one, i.e. twice the
encoded-constraint count plus one). -/
theorem c3_bestIndex_cost (cs : List IdxConstraint) :
    (rtreeBestIndex cs).1 = (if rowidEqReached cs then 1 else 2) ∧
    (rtreeBestIndex cs).2.1.length =
      (if rowidEqReached cs then 0 else min 20 (countEncodable cs)) ∧
    (rtreeBestIndex cs).2.2.1 =
      (if rowidEqReached cs then 10
       else 2000000 / (2 * min 20 (countEncodable cs) + 1 : ℚ)) := by
  cases h : rowidEqReached cs with
  | true =>
    obtain ⟨u, hu⟩ := (bestIndexLoop_char cs 0 (by norm_num)).1 h
    rw [show 2 * 0 = 0 from rfl] at hu
    simp [rtreeBestIndex, hu]
  | false =>
    obtain ⟨pairs, u, hu, hlen⟩ := (bestIndexLoop_char cs 0 (by norm_num)).2 h
    rw [show 2 * 0 = 0 from rfl] at hu
    simp only [Nat.sub_zero] at hlen
    simp [rtreeBestIndex, hu, hlen]

theorem populatePairs_none_iff (azData : List SqlVal) (d ii : Nat) :
    populatePairs azData d ii = none ↔
      ∃ k, k < d ∧ toI32 (azData.getD (2 * k + ii + 3) .null).toI64 >
        toI32 (azData.getD (2 * k + ii + 4) .null).toI64 := by
  induction d generalizing ii with
  | zero => simp [populatePairs]
  | succ d ih =>
    unfold populatePairs
    dsimp only
    split
    next hlo =>
      constructor
      · intro _
        exact ⟨0, by omega, by simpa using hlo⟩
      · intro _
        rfl
    next hlo =>
      have hrec := ih (ii + 2)
      constructor
      · intro h
        rcases hr : populatePairs azData d (ii + 2) with _ | rest
        · obtain ⟨k, hk, hgt⟩ := hrec.mp hr
          exact ⟨k + 1, by omega, by
            have e3 : 2 * (k + 1) + ii + 3 = 2 * k + (ii + 2) + 3 := by omega
            have e4 : 2 * (k + 1) + ii + 4 = 2 * k + (ii + 2) + 4 := by omega
            rw [e3, e4]; exact hgt⟩
        · rw [hr] at h; simp at h
      · intro h
        obtain ⟨k, hk, hgt⟩ := h
        match k, hk with
        | 0, _ =>
          exfalso
          simp only [Nat.mul_zero, Nat.zero_add] at hgt
          omega
        | k + 1, hk =>
          have : populatePairs azData d (ii + 2) = none := by
            refine hrec.mpr ⟨k, by omega, ?_⟩
            have e3 : 2 * (k + 1) + ii + 3 = 2 * k + (ii + 2) + 3 := by omega
            have e4 : 2 * (k + 1) + ii + 4 = 2 * k + (ii + 2) + 4 := by omega
            rw [← e3, ← e4]; exact hgt
          rw [this]

/-- C4: an update or insert that supplies a new record with some coordinate
pair `hi < lo` returns a CONSTRAINT error with the engine state — in
particular all three backing tables — unchanged and no rowid reported. -/
theorem c4_bad_pair_constraint (fuel : Nat) (policy : ConflictPolicy) (s : EState)
    (azData : List SqlVal) (hlen : azData.length > 1)
    (hbad : ∃ k, k < s.cfg.nDim ∧ toI32 (azData.getD (2 * k + 3) .null).toI64 >
      toI32 (azData.getD (2 * k + 4) .null).toI64) :
    rtreeUpdate fuel policy s azData = (.constraint, s, none) ∧
    (rtreeUpdate fuel policy s azData).2.1.store = s.store := by
  have hnone : populatePairs azData s.cfg.nDim 0 = none := by
    refine (populatePairs_none_iff azData s.cfg.nDim 0).mpr ?_
    obtain ⟨k, hk, hgt⟩ := hbad
    exact ⟨k, hk, by simpa using hgt⟩
  have h1 : rtreeUpdate fuel policy s azData = (.constraint, s, none) := by
    unfold rtreeUpdate
    rw [if_pos hlen, hnone]
  exact ⟨h1, by rw [h1]⟩

theorem c4_bad_pair_constraint_witness :
    ([SqlVal.null, .null, .int 7, .int 5, .int 3].length > 1) ∧
    (∃ k, k < sEmptyM1.cfg.nDim ∧
      toI32 (([SqlVal.null, .null, .int 7, .int 5, .int 3].getD (2 * k + 3) .null)).toI64 >
      toI32 (([SqlVal.null, .null, .int 7, .int 5, .int 3].getD (2 * k + 4) .null)).toI64) ∧
    rtreeUpdate 9 .abort sEmptyM1 [SqlVal.null, .null, .int 7, .int 5, .int 3]
      = (.constraint, sEmptyM1, none) :=
  ⟨by decide, ⟨0, by decide, by decide⟩,
    (c4_bad_pair_constraint 9 .abort sEmptyM1 [SqlVal.null, .null, .int 7, .int 5, .int 3]
      (by decide) ⟨0, by decide, by decide⟩).1⟩

/-- C5: an insert supplying an explicit new rowid that is already present
in the `_rowid` table (the duplicate check being run because the call's
old rowid is NULL or differs) deletes the existing row with that rowid
first and then proceeds with the insert under the REPLACE conflict
policy, and returns CONSTRAINT leaving the state unchanged under every
other policy. -/
theorem c5_duplicate_rowid (fuel : Nat) (policy : ConflictPolicy) (s : EState)
    (azData : List SqlVal) (coords : List Int) (hlen : azData.length > 1)
    (hpop : populatePairs azData s.cfg.nDim 0 = some coords)
    (ha2 : (azData.getD 2 .null).isNotNull = true)
    (hne : (!(azData.getD 0 .null).isNotNull
      || !((azData.getD 0 .null).toI64 == (azData.getD 2 .null).toI64)) = true)
    (hdup : (tabGet s.store.rowidTab (azData.getD 2 .null).toI64).isSome = true) :
    rtreeUpdate fuel policy s azData =
      (if policy = .replace then
        rtreeUpdateStage2 fuel
          (rtreeDeleteRowid fuel s (azData.getD 2 .null).toI64).1
          (rtreeDeleteRowid fuel s (azData.getD 2 .null).toI64).2
          azData { iRowid := (azData.getD 2 .null).toI64, aCoord := coords } true
       else (.constraint, s, none)) := by
  obtain ⟨x, hx⟩ := Option.isSome_iff_exists.mp hdup
  unfold rtreeUpdate
  rw [if_pos hlen, hpop]
  simp only [ha2, hne, if_true, hx]

theorem c5_duplicate_rowid_witness :
    rtreeUpdate 9 .abort sOneM1 [SqlVal.null, .null, .int 5, .int 0, .int 0]
      = (.constraint, sOneM1, none) := by
  have h := c5_duplicate_rowid 9 .abort sOneM1 [SqlVal.null, .null, .int 5, .int 0, .int 0]
    [0, 0] (by decide) (by decide) (by decide) (by decide) (by decide)
  simpa using h

/-! ## No engine function produces a CONSTRAINT error (claim C9) -/

theorem nodeWrite_fst (s : EState) (n : Nat) : (nodeWrite s n).1 = .ok := by
  unfold nodeWrite; split <;> [rfl; skip] <;> split <;> [split <;> rfl; rfl]

theorem splitNodeStartree_fst (s : EState) (aCell : List RtreeCell) (pl pr : Nat) :
    (splitNodeStartree s aCell pl pr).1 = .ok := rfl

theorem nodeRelease_ncon (fuel : Nat) (s : EState) (nid : Option Nat) :
    ¬ (nodeRelease fuel s nid).1 = .constraint := by
  induction fuel generalizing s nid with
  | zero => simp [nodeRelease]
  | succ fuel ih =>
    unfold nodeRelease
    (repeat' split) <;> (try simp_all [nodeWrite_fst]) <;>
      (split <;> simp_all [nodeWrite_fst])

theorem nodeAcquire_ncon (s : EState) (iNode : Int) (pParent : Option Nat) :
    ¬ (nodeAcquire s iNode pParent).1 = .constraint := by
  unfold nodeAcquire
  (repeat' split) <;> (try simp_all) <;> (repeat' split) <;> simp_all

theorem nodeParentIndex_ncon (s : EState) (nid : Nat) :
    ¬ (nodeParentIndex s nid).1 = .constraint := by
  unfold nodeParentIndex
  (repeat' split) <;> simp

theorem ChooseLeafLoop_ncon (pCell : RtreeCell) (iHeight : Int) (fuel : Nat) (ii : Int)
    (rc : RC) (s : EState) (pNode : Option Nat) (hrc : ¬ rc = .constraint) :
    ¬ (ChooseLeafLoop pCell iHeight fuel ii rc s pNode).1 = .constraint := by
  induction fuel generalizing ii rc s pNode with
  | zero => unfold ChooseLeafLoop; split <;> simp_all
  | succ fuel ih =>
    unfold ChooseLeafLoop
    (repeat' split) <;> simp_all
    exact ih _ _ _ _ (nodeAcquire_ncon _ _ _)

theorem ChooseLeaf_ncon (fuel : Nat) (s : EState) (pCell : RtreeCell) (iHeight : Int) :
    ¬ (ChooseLeaf fuel s pCell iHeight).1 = .constraint := by
  unfold ChooseLeaf
  exact ChooseLeafLoop_ncon _ _ _ _ _ _ _ (nodeAcquire_ncon _ _ _)

theorem AdjustTree_ncon (fuel : Nat) (s : EState) (nid : Nat) (pCell : RtreeCell) :
    ¬ (AdjustTree fuel s nid pCell).1 = .constraint := by
  induction fuel generalizing s nid with
  | zero => simp [AdjustTree]
  | succ fuel ih =>
    unfold AdjustTree
    (repeat' split) <;> (try simp_all) <;> (split <;> simp_all)

theorem fixBoundingBox_ncon (fuel : Nat) (s : EState) (nid : Nat) :
    ¬ (fixBoundingBox fuel s nid).1 = .constraint := by
  induction fuel generalizing s nid with
  | zero => simp [fixBoundingBox]
  | succ fuel ih =>
    unfold fixBoundingBox
    (repeat' split) <;> simp_all
    next heq =>
      intro hc
      have := nodeParentIndex_ncon s nid
      rw [heq] at this
      exact this hc

theorem updateMapping_ncon (fuel : Nat) (s : EState) (iRowid : Int) (nid : Nat)
    (iHeight : Int) : ¬ (updateMapping fuel s iRowid nid iHeight).1 = .constraint := by
  unfold updateMapping
  (repeat' split) <;> (try simp_all [rowidWrite, parentWrite]) <;>
    ((repeat' split) <;> simp_all [rowidWrite, parentWrite])

theorem foldl_rc_ncon {α : Type} (f : (RC × EState) → α → (RC × EState)) (l : List α)
    (init : RC × EState)
    (hstep : ∀ st a, ¬ st.1 = RC.constraint → ¬ (f st a).1 = RC.constraint)
    (hinit : ¬ init.1 = RC.constraint) :
    ¬ (l.foldl f init).1 = RC.constraint := by
  induction l generalizing init with
  | nil => exact hinit
  | cons a rest ih => exact ih (f init a) (hstep init a hinit)

theorem reinsertRebuild_ncon (s : EState) (nid : Nat) (pCell : RtreeCell) (iHeight : Int)
    (aCell : List RtreeCell) (keepIdx : List Nat) :
    ¬ (reinsertRebuild s nid pCell iHeight aCell keepIdx).1 = .constraint := by
  unfold reinsertRebuild
  apply foldl_rc_ncon
  · intro st a hst
    dsimp only
    (repeat' split) <;> simp_all [rowidWrite, parentWrite]
  · simp

theorem splitNodeSetup_ncon (s : EState) (nid : Nat) (node : MemNode) (pCell : RtreeCell) :
    ¬ (splitNodeSetup s nid node pCell).1 = .constraint := by
  unfold splitNodeSetup
  dsimp only
  (repeat' split) <;> simp_all [nodeWrite_fst]

theorem splitNodeWriteLeftParent_ncon (fuel : Nat) (s : EState) (pLeft : Nat)
    (leftbbox : RtreeCell) :
    ¬ (splitNodeWriteLeftParent fuel s pLeft leftbbox).1 = .constraint := by
  unfold splitNodeWriteLeftParent
  (repeat' split) <;> (try simp_all [AdjustTree_ncon])
  next heq =>
    intro hc
    have := nodeParentIndex_ncon s pLeft
    rw [heq] at this
    exact this hc

theorem splitNodeMappingsLoop_ncon (fuel : Nat) (s : EState) (rdata : Bytes) (pRight : Nat)
    (pCell : RtreeCell) (iHeight : Int) (l : List Nat) (ncir : Bool) :
    ¬ (splitNodeMappingsLoop fuel s rdata pRight pCell iHeight l ncir).1 = .constraint := by
  induction l generalizing s ncir with
  | nil => simp [splitNodeMappingsLoop]
  | cons i rest ih =>
    unfold splitNodeMappingsLoop
    dsimp only
    split
    · exact ih _ _
    · simpa using updateMapping_ncon fuel s (nodeGetRowid s.cfg rdata i) pRight iHeight

theorem splitNodeMappingsLeftLoop_ncon (fuel : Nat) (s : EState) (ldata : Bytes) (pLeft : Nat)
    (iHeight : Int) (l : List Nat) :
    ¬ (splitNodeMappingsLeftLoop fuel s ldata pLeft iHeight l).1 = .constraint := by
  induction l generalizing s with
  | nil => simp [splitNodeMappingsLeftLoop]
  | cons i rest ih =>
    unfold splitNodeMappingsLeftLoop
    dsimp only
    split
    · exact ih _
    · exact updateMapping_ncon fuel s (nodeGetRowid s.cfg ldata i) pLeft iHeight

theorem splitNodeFinishOk_ncon (fuel : Nat) (s : EState) (pl pr : Nat) :
    ¬ (splitNodeFinishOk fuel s pl pr).1 = .constraint := by
  unfold splitNodeFinishOk
  dsimp only
  split <;> simp_all [nodeRelease_ncon]

theorem splitNodeStageMp2_ncon (fuel : Nat) (s : EState) (isRoot mapped : Bool)
    (pl pr : Nat) (pCell : RtreeCell) (iHeight : Int) :
    ¬ (splitNodeStageMp2 fuel s isRoot mapped pl pr pCell iHeight).1 = .constraint := by
  unfold splitNodeStageMp2
  dsimp only
  (repeat' split) <;>
    simp_all [splitNodeFinishOk_ncon, splitNodeMappingsLeftLoop_ncon, updateMapping_ncon]

theorem splitNodeStageMp_ncon (fuel : Nat) (s : EState) (isRoot : Bool) (pl pr : Nat)
    (pCell : RtreeCell) (iHeight : Int) :
    ¬ (splitNodeStageMp fuel s isRoot pl pr pCell iHeight).1 = .constraint := by
  unfold splitNodeStageMp
  dsimp only
  split <;> simp_all [splitNodeStageMp2_ncon, splitNodeMappingsLoop_ncon]

theorem rtreeInsertCell_ncon_of (fuel : Nat)
    (hS : ∀ t nid pCell iHeight, ¬ (SplitNode fuel t nid pCell iHeight).1 = RC.constraint)
    (hR : ∀ t nid pCell iHeight, ¬ (Reinsert fuel t nid pCell iHeight).1 = RC.constraint)
    (s : EState) (nid : Nat) (pCell : RtreeCell) (iHeight : Int) :
    ¬ (rtreeInsertCell (fuel + 1) s nid pCell iHeight).1 = RC.constraint := by
  unfold rtreeInsertCell
  dsimp only
  (repeat' split) <;>
    simp_all [rowidWrite, parentWrite, AdjustTree_ncon, hS, hR]

theorem SplitNode_ncon_of (fuel : Nat)
    (hI : ∀ t nid pCell iHeight, ¬ (rtreeInsertCell fuel t nid pCell iHeight).1
      = RC.constraint)
    (s : EState) (nid : Nat) (pCell : RtreeCell) (iHeight : Int) :
    ¬ (SplitNode (fuel + 1) s nid pCell iHeight).1 = RC.constraint := by
  unfold SplitNode
  dsimp only
  split
  · simp
  next node heq =>
    have hsu := splitNodeSetup_ncon s nid node pCell
    generalize hG : splitNodeSetup s nid node pCell = SU at hsu ⊢
    (repeat' split) <;>
      simp_all [splitNodeStageMp_ncon, splitNodeWriteLeftParent_ncon, hI]

theorem ReinsertSpread_ncon_of (fuel : Nat)
    (hI : ∀ t nid pCell iHeight, ¬ (rtreeInsertCell fuel t nid pCell iHeight).1
      = RC.constraint)
    (hP : ∀ t idxs aCell iHeight, ¬ (ReinsertSpread fuel t idxs aCell iHeight).1
      = RC.constraint)
    (s : EState) (idxs : List Nat) (aCell : List RtreeCell) (iHeight : Int) :
    ¬ (ReinsertSpread (fuel + 1) s idxs aCell iHeight).1 = RC.constraint := by
  unfold ReinsertSpread
  dsimp only
  (repeat' split) <;>
    simp_all [ChooseLeaf_ncon, nodeRelease_ncon, hI, hP]

theorem Reinsert_ncon_of (fuel : Nat)
    (hP : ∀ t idxs aCell iHeight, ¬ (ReinsertSpread fuel t idxs aCell iHeight).1
      = RC.constraint)
    (s : EState) (nid : Nat) (pCell : RtreeCell) (iHeight : Int) :
    ¬ (Reinsert (fuel + 1) s nid pCell iHeight).1 = RC.constraint := by
  unfold Reinsert
  dsimp only
  (repeat' split) <;>
    simp_all [reinsertRebuild_ncon, fixBoundingBox_ncon, hP]

theorem engineNcon (fuel : Nat) :
    (∀ s nid pCell iHeight, ¬ (rtreeInsertCell fuel s nid pCell iHeight).1
      = RC.constraint) ∧
    (∀ s nid pCell iHeight, ¬ (SplitNode fuel s nid pCell iHeight).1 = RC.constraint) ∧
    (∀ s nid pCell iHeight, ¬ (Reinsert fuel s nid pCell iHeight).1 = RC.constraint) ∧
    (∀ s idxs aCell iHeight, ¬ (ReinsertSpread fuel s idxs aCell iHeight).1
      = RC.constraint) := by
  induction fuel with
  | zero =>
    refine ⟨?_, ?_, ?_, ?_⟩ <;> intro s a b c <;> simp [rtreeInsertCell, SplitNode,
      Reinsert, ReinsertSpread]
  | succ fuel ih =>
    obtain ⟨hI, hS, hR, hP⟩ := ih
    exact ⟨rtreeInsertCell_ncon_of fuel hS hR,
      SplitNode_ncon_of fuel hI,
      Reinsert_ncon_of fuel hP,
      ReinsertSpread_ncon_of fuel hI hP⟩

theorem fixLeafParentLoop_ncon (fuel : Nat) (s : EState) (pLeaf child : Nat) :
    ¬ (fixLeafParent.fixLeafParentLoop fuel s pLeaf child).1 = RC.constraint := by
  induction fuel generalizing s pLeaf child with
  | zero => simp [fixLeafParent.fixLeafParentLoop]
  | succ fuel ih =>
    unfold fixLeafParent.fixLeafParentLoop
    (repeat' split) <;> (try simp_all [nodeAcquire_ncon]) <;>
      ((repeat' split) <;> simp_all [nodeAcquire_ncon])

theorem fixLeafParent_ncon (fuel : Nat) (s : EState) (pLeaf : Nat) :
    ¬ (fixLeafParent fuel s pLeaf).1 = RC.constraint := by
  unfold fixLeafParent
  exact fixLeafParentLoop_ncon fuel s pLeaf pLeaf

theorem deleteCell_removeNode_ncon (fuel : Nat) :
    (∀ s nid iCell iHeight, ¬ (deleteCell fuel s nid iCell iHeight).1 = RC.constraint) ∧
    (∀ s nid iHeight, ¬ (removeNode fuel s nid iHeight).1 = RC.constraint) := by
  induction fuel with
  | zero =>
    refine ⟨?_, ?_⟩ <;> intro s a b <;> simp [deleteCell, removeNode]
  | succ fuel ih =>
    obtain ⟨hD, hR⟩ := ih
    refine ⟨?_, ?_⟩
    · intro s nid iCell iHeight
      unfold deleteCell
      dsimp only
      (repeat' split) <;>
        simp_all [fixLeafParent_ncon, fixBoundingBox_ncon, hR]
    · intro s nid iHeight
      unfold removeNode
      dsimp only
      (repeat' split) <;>
        (try simp_all [nodeRelease_ncon, hD]) <;>
        (intro hc
         first
         | (next heq =>
             have := nodeParentIndex_ncon s nid
             rw [heq] at this
             exact this hc))

theorem findLeafNode_ncon (s : EState) (iRowid : Int) :
    ¬ (findLeafNode s iRowid).1 = RC.constraint := by
  unfold findLeafNode
  split <;> simp_all [nodeAcquire_ncon]

theorem reinsertNodeContentLoop_ncon (fuel : Nat) (s : EState) (nid : Nat) (ii nCell : Nat) :
    ¬ (reinsertNodeContentLoop fuel s nid ii nCell).1 = RC.constraint := by
  induction fuel generalizing s ii with
  | zero => simp [reinsertNodeContentLoop]
  | succ fuel ih =>
    unfold reinsertNodeContentLoop
    dsimp only
    (repeat' split) <;>
      simp_all [ChooseLeaf_ncon, nodeRelease_ncon, (engineNcon (fuel + 1)).1]

theorem reinsertNodeContent_ncon (fuel : Nat) (s : EState) (nid : Nat) :
    ¬ (reinsertNodeContent fuel s nid).1 = RC.constraint := by
  unfold reinsertNodeContent
  split <;> simp_all [reinsertNodeContentLoop_ncon]

theorem drainDeleted_ncon (fuel : Nat) (rc : RC) (s : EState)
    (hrc : ¬ rc = RC.constraint) : ¬ (drainDeleted fuel rc s).1 = RC.constraint := by
  induction fuel generalizing rc s with
  | zero => simp [drainDeleted]
  | succ fuel ih =>
    unfold drainDeleted
    dsimp only
    (repeat' split) <;> simp_all [reinsertNodeContent_ncon]

theorem rtreeDeleteRowidUnlink_ncon (fuel : Nat) (fl : RC × EState × Option Nat)
    (iDelete : Int) (hfl : ¬ fl.1 = RC.constraint) :
    ¬ (rtreeDeleteRowidUnlink fuel fl iDelete).1 = RC.constraint := by
  unfold rtreeDeleteRowidUnlink
  dsimp only
  (repeat' split) <;>
    simp_all [nodeRelease_ncon, (deleteCell_removeNode_ncon fuel).1]

theorem rtreeDeleteRowidShrink_ncon (fuel : Nat) (rc : RC) (s : EState)
    (pRoot : Option Nat) (hrc : ¬ rc = RC.constraint) :
    ¬ (rtreeDeleteRowidShrink fuel rc s pRoot).1 = RC.constraint := by
  unfold rtreeDeleteRowidShrink
  dsimp only
  (repeat' split) <;>
    simp_all [nodeAcquire_ncon, nodeRelease_ncon, (deleteCell_removeNode_ncon fuel).2]

theorem rtreeDeleteRowidFinish_ncon (fuel : Nat) (rc : RC) (s : EState)
    (pRoot : Option Nat) (hrc : ¬ rc = RC.constraint) :
    ¬ (rtreeDeleteRowidFinish fuel rc s pRoot).1 = RC.constraint := by
  unfold rtreeDeleteRowidFinish
  dsimp only
  split <;> simp_all [nodeRelease_ncon, drainDeleted_ncon fuel rc s hrc]

theorem rtreeDeleteRowid_ncon (fuel : Nat) (s : EState) (iDelete : Int) :
    ¬ (rtreeDeleteRowid fuel s iDelete).1 = RC.constraint := by
  unfold rtreeDeleteRowid
  dsimp only
  apply rtreeDeleteRowidFinish_ncon
  apply rtreeDeleteRowidShrink_ncon
  apply rtreeDeleteRowidUnlink_ncon
  split <;> simp [nodeAcquire_ncon, findLeafNode_ncon]

theorem rtreeUpdateStage2_ncon (fuel : Nat) (rc : RC) (s : EState) (azData : List SqlVal)
    (cell : RtreeCell) (bHaveRowid : Bool) (hrc : ¬ rc = RC.constraint) :
    ¬ (rtreeUpdateStage2 fuel rc s azData cell bHaveRowid).1 = RC.constraint := by
  unfold rtreeUpdateStage2
  dsimp only
  (repeat' split) <;>
    simp_all [rtreeDeleteRowid_ncon, newRowid, ChooseLeaf_ncon, nodeRelease_ncon,
      (engineNcon fuel).1]

/-- C9: an update whose old rowid (argv[0]) is non-NULL and equal to the
explicitly supplied new rowid (argv[2]) skips the duplicate-rowid
existence check entirely — the call reduces, for every conflict policy
alike, to the delete-then-insert tail — and therefore never returns a
CONSTRAINT error. -/
theorem c9_same_rowid_no_constraint (fuel : Nat) (policy : ConflictPolicy) (s : EState)
    (azData : List SqlVal) (coords : List Int) (hlen : azData.length > 1)
    (hpop : populatePairs azData s.cfg.nDim 0 = some coords)
    (ha2 : (azData.getD 2 .null).isNotNull = true)
    (ha0 : (azData.getD 0 .null).isNotNull = true)
    (heq : (azData.getD 0 .null).toI64 = (azData.getD 2 .null).toI64) :
    rtreeUpdate fuel policy s azData =
      rtreeUpdateStage2 fuel .ok s azData
        { iRowid := (azData.getD 2 .null).toI64, aCoord := coords } true ∧
    ¬ (rtreeUpdate fuel policy s azData).1 = RC.constraint := by
  have h1 : rtreeUpdate fuel policy s azData =
      rtreeUpdateStage2 fuel .ok s azData
        { iRowid := (azData.getD 2 .null).toI64, aCoord := coords } true := by
    have hne : (!(azData.getD 0 .null).isNotNull
        || !((azData.getD 0 .null).toI64 == (azData.getD 2 .null).toI64)) = false := by
      have h1 : (!(azData.getD 0 .null).isNotNull) = false := by rw [ha0]; rfl
      have h2 : ((azData.getD 0 .null).toI64 == (azData.getD 2 .null).toI64) = true := by
        rw [heq]
        exact beq_self_eq_true _
      rw [h1, h2]
      rfl
    unfold rtreeUpdate
    rw [if_pos hlen, hpop]
    simp only [ha2, hne, if_true, Bool.false_eq_true, if_false]
  refine ⟨h1, ?_⟩
  rw [h1]
  exact rtreeUpdateStage2_ncon fuel .ok s azData _ true (by simp)

theorem c9_same_rowid_no_constraint_witness :
    (rtreeUpdate 9 .abort sOneM1 [SqlVal.int 5, .null, .int 5, .int 0, .int 0] =
      rtreeUpdateStage2 9 .ok sOneM1 [SqlVal.int 5, .null, .int 5, .int 0, .int 0]
        { iRowid := (([SqlVal.int 5, .null, .int 5, .int 0, .int 0].getD 2 .null)).toI64,
          aCoord := [0, 0] } true) ∧
    ¬ (rtreeUpdate 9 .abort sOneM1 [SqlVal.int 5, .null, .int 5, .int 0, .int 0]).1
      = RC.constraint :=
  c9_same_rowid_no_constraint 9 .abort sOneM1 [SqlVal.int 5, .null, .int 5, .int 0, .int 0]
    [0, 0] (by decide) (by decide) (by decide) (by decide) (by decide)

/-! ## Sortedness and permutation facts for the Reinsert order (claim C1) -/

theorem mergeByDistance_perm (d : Nat → ℚ) : ∀ (l r : List Nat),
    (mergeByDistance d l r).Perm (l ++ r)
  | [], r => by simp [mergeByDistance]
  | a :: l, [] => by simp [mergeByDistance]
  | a :: l, b :: r => by
    unfold mergeByDistance
    split
    · exact List.Perm.cons a (mergeByDistance_perm d l (b :: r))
    · exact List.Perm.trans (List.Perm.cons b (mergeByDistance_perm d (a :: l) r))
        (@List.perm_middle _ b (a :: l) r).symm
termination_by l r => l.length + r.length

theorem SortByDistance_perm_aux (d : Nat → ℚ) : ∀ (n : Nat) (aIdx : List Nat),
    aIdx.length ≤ n → (SortByDistance d aIdx).Perm aIdx := by
  intro n
  induction n with
  | zero =>
    intro aIdx h
    unfold SortByDistance
    rw [dif_pos (by omega)]
  | succ n ih =>
    intro aIdx h
    unfold SortByDistance
    split
    · exact List.Perm.refl _
    next hlen =>
      have pl := ih (aIdx.take (aIdx.length / 2)) (by simp; omega)
      have pr := ih (aIdx.drop (aIdx.length / 2)) (by simp; omega)
      refine List.Perm.trans
        (List.Perm.trans (mergeByDistance_perm d _ _) (List.Perm.append pl pr)) ?_
      rw [List.take_append_drop]

theorem SortByDistance_perm (d : Nat → ℚ) (aIdx : List Nat) :
    (SortByDistance d aIdx).Perm aIdx :=
  SortByDistance_perm_aux d aIdx.length aIdx (le_refl _)

theorem mergeByDistance_sorted (d : Nat → ℚ) : ∀ (l r : List Nat),
    l.Pairwise (fun a b => d a ≤ d b) → r.Pairwise (fun a b => d a ≤ d b) →
    (mergeByDistance d l r).Pairwise (fun a b => d a ≤ d b)
  | [], r => by intro _ hr; simpa [mergeByDistance] using hr
  | a :: l, [] => by intro hl _; simpa [mergeByDistance] using hl
  | a :: l, b :: r => by
    intro hl hr
    unfold mergeByDistance
    split
    next hab =>
      have ih := mergeByDistance_sorted d l (b :: r) hl.of_cons hr
      refine List.pairwise_cons.mpr ⟨?_, ih⟩
      intro x hx
      have hx' : x ∈ l ++ (b :: r) := (mergeByDistance_perm d l (b :: r)).mem_iff.mp hx
      rcases List.mem_append.mp hx' with h | h
      · exact (List.pairwise_cons.mp hl).1 x h
      · rcases List.mem_cons.mp h with rfl | h
        · exact le_of_lt hab
        · exact le_trans (le_of_lt hab) ((List.pairwise_cons.mp hr).1 x h)
    next hab =>
      have hba : d b ≤ d a := le_of_not_lt hab
      have ih := mergeByDistance_sorted d (a :: l) r hl hr.of_cons
      refine List.pairwise_cons.mpr ⟨?_, ih⟩
      intro x hx
      have hx' : x ∈ (a :: l) ++ r := (mergeByDistance_perm d (a :: l) r).mem_iff.mp hx
      rcases List.mem_append.mp hx' with h | h
      · rcases List.mem_cons.mp h with rfl | h
        · exact hba
        · exact le_trans hba ((List.pairwise_cons.mp hl).1 x h)
      · exact (List.pairwise_cons.mp hr).1 x h
termination_by l r => l.length + r.length

theorem SortByDistance_sorted_aux (d : Nat → ℚ) : ∀ (n : Nat) (aIdx : List Nat),
    aIdx.length ≤ n →
    (SortByDistance d aIdx).Pairwise (fun a b => d a ≤ d b) := by
  intro n
  induction n with
  | zero =>
    intro aIdx h
    unfold SortByDistance
    rw [dif_pos (by omega)]
    match aIdx, h with
    | [], _ => exact List.Pairwise.nil
  | succ n ih =>
    intro aIdx h
    unfold SortByDistance
    split
    next hlen =>
      match aIdx, hlen with
      | [], _ => exact List.Pairwise.nil
      | [a], _ => simp
    next hlen =>
      exact mergeByDistance_sorted d _ _
        (ih (aIdx.take (aIdx.length / 2)) (by simp; omega))
        (ih (aIdx.drop (aIdx.length / 2)) (by simp; omega))

theorem SortByDistance_sorted (d : Nat → ℚ) (aIdx : List Nat) :
    (SortByDistance d aIdx).Pairwise (fun a b => d a ≤ d b) :=
  SortByDistance_sorted_aux d aIdx.length aIdx (le_refl _)

/-- C1 counterexample: in the `cfgM6` instance (`M = 6`, `m = RTREE_MINCELLS
= 2`), a forced reinsert gathers the 7 cells of `aCellC1`; the distance the
code computes for a cell is built from its extent `hi - lo`, not its
center, and differs from the center-based distance the specification
describes; and the rebuilt node keeps `nCell - (m+1) = 4` nearest cells
while the remaining `m+1 = 3` are re-inserted — not the
`M+1 - RTREE_REINSERT = 5` kept / `RTREE_REINSERT = 2` re-inserted split
the specification claims. -/
theorem c1_reinsert_counterexample :
    reinsertDistance cfgM6 aCellC1 (cellAt aCellC1 0)
      ≠ specCenterDistance cfgM6 aCellC1 (cellAt aCellC1 0) ∧
    cfgM6.maxCell = 6 ∧ cfgM6.minCells = 2 ∧ NCELL leafC1 = 6 ∧
    (NCELL leafC1 + 1) - (cfgM6.minCells + 1) = 4 ∧
    ((reinsertOrder cfgM6 aCellC1).take ((NCELL leafC1 + 1) - (cfgM6.minCells + 1))).length
      = 4 ∧
    ((reinsertOrder cfgM6 aCellC1).drop ((NCELL leafC1 + 1) - (cfgM6.minCells + 1))).length
      = 3 := by
  have hlen : (reinsertOrder cfgM6 aCellC1).length = 7 := by
    have := (SortByDistance_perm
      (fun i => reinsertDistance cfgM6 aCellC1 (cellAt aCellC1 i))
      (List.range aCellC1.length)).length_eq
    simpa [reinsertOrder, aCellC1] using this
  refine ⟨?_, rfl, rfl, by decide, by decide, ?_, ?_⟩
  · norm_num [reinsertDistance, specCenterDistance, reinsertCenterCoord, DCOORD,
      cellAt, aCellC1, cfgM6, cellI, RtreeCell.coord, List.range_succ, List.range_zero,
      List.foldl_cons, List.foldl_nil, List.foldl_append]
  · rw [show (NCELL leafC1 + 1) - (cfgM6.minCells + 1) = 4 from by decide]
    simp [hlen]
  · rw [show (NCELL leafC1 + 1) - (cfgM6.minCells + 1) = 4 from by decide]
    simp [hlen]

/-- C1 (amended): a forced reinsert of node `nid` holding `N` cells gathers
those cells plus the new one (`N+1` total), orders them ascending by the
distance the code computes (per dimension, the squared difference between
the cell's extent `hi - lo` and the gathered cells' average coordinate —
not a center-to-center distance), rebuilds the zeroed node with the
`N+1 - (RTREE_MINCELLS+1)` nearest, and re-inserts the remaining
`RTREE_MINCELLS+1` farthest at the same height. -/
theorem c1_reinsert_amended (fuel : Nat) (s : EState) (nid : Nat) (pCell : RtreeCell)
    (iHeight : Int) (node : MemNode) (h : s.node nid = some node) :
    (nodeCells s.cfg node.zData ++ [pCell]).length = NCELL node.zData + 1 ∧
    (reinsertOrder s.cfg (nodeCells s.cfg node.zData ++ [pCell])).Perm
      (List.range (NCELL node.zData + 1)) ∧
    (reinsertOrder s.cfg (nodeCells s.cfg node.zData ++ [pCell])).Pairwise
      (fun i j => reinsertDistance s.cfg (nodeCells s.cfg node.zData ++ [pCell])
          (cellAt (nodeCells s.cfg node.zData ++ [pCell]) i)
        ≤ reinsertDistance s.cfg (nodeCells s.cfg node.zData ++ [pCell])
          (cellAt (nodeCells s.cfg node.zData ++ [pCell]) j)) ∧
    Reinsert (fuel + 1) s nid pCell iHeight =
      (let aCell := nodeCells s.cfg node.zData ++ [pCell]
       let k := (NCELL node.zData + 1) - (s.cfg.minCells + 1)
       let keep := reinsertRebuild s nid pCell iHeight aCell
         ((reinsertOrder s.cfg aCell).take k)
       let fb := if keep.1 = .ok then fixBoundingBox (fuel + 1) keep.2 nid else keep
       if fb.1 = .ok then
         ReinsertSpread fuel fb.2 ((reinsertOrder s.cfg aCell).drop k) aCell iHeight
       else fb) ∧
    ((reinsertOrder s.cfg (nodeCells s.cfg node.zData ++ [pCell])).drop
        ((NCELL node.zData + 1) - (s.cfg.minCells + 1))).length
      = min (s.cfg.minCells + 1) (NCELL node.zData + 1) := by
  have hcells : (nodeCells s.cfg node.zData ++ [pCell]).length = NCELL node.zData + 1 := by
    simp [nodeCells]
  have hperm := SortByDistance_perm
    (fun i => reinsertDistance s.cfg (nodeCells s.cfg node.zData ++ [pCell])
      (cellAt (nodeCells s.cfg node.zData ++ [pCell]) i))
    (List.range (nodeCells s.cfg node.zData ++ [pCell]).length)
  have hlen : (reinsertOrder s.cfg (nodeCells s.cfg node.zData ++ [pCell])).length
      = NCELL node.zData + 1 := by
    rw [reinsertOrder]
    rw [hperm.length_eq]
    simp [hcells]
  refine ⟨hcells, ?_, ?_, ?_, ?_⟩
  · rw [reinsertOrder, ← hcells]
    exact hperm
  · exact SortByDistance_sorted _ _
  · unfold Reinsert
    rw [h]
  · rw [List.length_drop, hlen]
    omega

theorem c1_reinsert_amended_witness :
    sC1.node 1 =
      some { iNode := 2, parent := none, nRef := 1, isDirty := false, inHash := true,
             zData := leafC1 } ∧
    ((nodeCells sC1.cfg leafC1 ++ [cellI 7 100 130]).length = NCELL leafC1 + 1 ∧
     (reinsertOrder sC1.cfg (nodeCells sC1.cfg leafC1 ++ [cellI 7 100 130])).Perm
       (List.range (NCELL leafC1 + 1)) ∧
     (reinsertOrder sC1.cfg (nodeCells sC1.cfg leafC1 ++ [cellI 7 100 130])).Pairwise
       (fun i j => reinsertDistance sC1.cfg (nodeCells sC1.cfg leafC1 ++ [cellI 7 100 130])
           (cellAt (nodeCells sC1.cfg leafC1 ++ [cellI 7 100 130]) i)
         ≤ reinsertDistance sC1.cfg (nodeCells sC1.cfg leafC1 ++ [cellI 7 100 130])
           (cellAt (nodeCells sC1.cfg leafC1 ++ [cellI 7 100 130]) j)) ∧
     Reinsert 9 sC1 1 (cellI 7 100 130) 0 =
       (let aCell := nodeCells sC1.cfg leafC1 ++ [cellI 7 100 130]
        let k := (NCELL leafC1 + 1) - (sC1.cfg.minCells + 1)
        let keep := reinsertRebuild sC1 1 (cellI 7 100 130) 0 aCell
          ((reinsertOrder sC1.cfg aCell).take k)
        let fb := if keep.1 = .ok then fixBoundingBox 9 keep.2 1 else keep
        if fb.1 = .ok then
          ReinsertSpread 8 fb.2 ((reinsertOrder sC1.cfg aCell).drop k) aCell 0
        else fb) ∧
     ((reinsertOrder sC1.cfg (nodeCells sC1.cfg leafC1 ++ [cellI 7 100 130])).drop
         ((NCELL leafC1 + 1) - (sC1.cfg.minCells + 1))).length
       = min (sC1.cfg.minCells + 1) (NCELL leafC1 + 1)) :=
  ⟨by decide, c1_reinsert_amended 8 sC1 1 (cellI 7 100 130) 0
    { iNode := 2, parent := none, nRef := 1, isDirty := false, inHash := true,
      zData := leafC1 } (by decide)⟩
